import Mathlib

/-!
Subscription summary pipeline of `efm-subscription-api`

A shallow embedding of the month/year value type (`internal/model/subscription.go`),
the range normaliser and the summary orchestration (`internal/service/subscription.go`)
and the storage summary query (`internal/repo/subscription.go`), followed by
theorems about them.

Conventions.

* A Go `string` is a Lean `String`; the scanning routines work on its list of
  characters.  Every character the code inspects (`"`, `-`, the decimal digits, `%`)
  is ASCII, so reading characters instead of bytes changes no outcome.
* A Go `time.Time` in UTC is the record of its civil fields.
* A Go result `(v, err)` is a pair whose second component is `Option Error`
  (`none` is `nil`).
-/

namespace EfmSubscription

/-! ## `time.Time` -/

/-- Civil fields of a `time.Time` value whose location is UTC. -/
structure Time where
  year : Int
  month : Nat
  day : Nat
  hour : Nat
  minute : Nat
  second : Nat
  nanosecond : Nat
deriving DecidableEq, Repr

/-- Go `time.Date(year, month, day, hour, min, sec, nsec, time.UTC)`.  The program
only calls it with in-range arguments (month 1..12, day 1, zero clock), for which
Go performs no normalisation. -/
def Date (year : Int) (month day hour min sec nsec : Nat) : Time :=
  { year := year, month := month, day := day, hour := hour,
    minute := min, second := sec, nanosecond := nsec }

/-- The zero value `time.Time{}`: January 1, year 1, 00:00:00.000000000 UTC. -/
def Time.zero : Time := Date 1 1 1 0 0 0 0

/-- Strict chronological order `t.Before(u)` on UTC civil fields. -/
def Time.lt (a b : Time) : Prop :=
  a.year < b.year ∨ (a.year = b.year ∧ (a.month < b.month ∨ (a.month = b.month ∧
  (a.day < b.day ∨ (a.day = b.day ∧ (a.hour < b.hour ∨ (a.hour = b.hour ∧
  (a.minute < b.minute ∨ (a.minute = b.minute ∧ (a.second < b.second ∨
  (a.second = b.second ∧ a.nanosecond < b.nanosecond)))))))))))

instance (a b : Time) : Decidable (a.lt b) := by
  unfold Time.lt; exact inferInstance

/-- Non-strict chronological order, SQL `a <= b`. -/
def Time.le (a b : Time) : Prop := ¬ b.lt a

instance (a b : Time) : Decidable (a.le b) := by
  unfold Time.le; exact inferInstance

/-! ## `time.Parse` with the layout `"01-2006"` -/

/-- The `Message` field of a Go `time.ParseError`, as the parser of the layout
`"01-2006"` can set it. -/
inductive ParseMessage where
  /-- Empty message: the value element could not be parsed as the layout element. -/
  | empty
  /-- `": month out of range"`. -/
  | monthOutOfRange
  /-- `": extra text: " + quote(value)`. -/
  | extraText (value : String)
deriving DecidableEq, Repr

/-- Go `time.ParseError`. -/
structure ParseError where
  Layout : String
  Value : String
  LayoutElem : String
  ValueElem : String
  Message : ParseMessage
deriving DecidableEq, Repr

/-- Go `time.isDigit(s, i)`: position `i` exists and holds a decimal digit. -/
def isDigit (s : List Char) (i : Nat) : Bool :=
  match s.get? i with
  | none => false
  | some c => decide (48 ≤ c.toNat) && decide (c.toNat ≤ 57)

/-- Numeric value of a digit character, `c - '0'`. -/
def digitVal (c : Char) : Nat := c.toNat - 48

/-- Go `time.getnum(s, fixed)`: one or two leading digits (exactly two when
`fixed`); `none` is `errBad`, in which case the caller keeps `s`. -/
def getnum (s : List Char) (fixed : Bool) : Option (Nat × List Char) :=
  if !isDigit s 0 then none
  else if !isDigit s 1 then
    if fixed then none
    else
      match s with
      | c :: rest => some (digitVal c, rest)
      | [] => none
  else
    match s with
    | c0 :: c1 :: rest => some (digitVal c0 * 10 + digitVal c1, rest)
    | _ => none

/-- Go `time.skip(value, prefix)` for a prefix without blanks: the value must start
with the prefix, which is removed; `none` is `errBad`. -/
def skip : List Char → List Char → Option (List Char)
  | value, [] => some value
  | [], _ :: _ => none
  | v :: value, p :: pre => if v = p then skip value pre else none

/-- Loop of Go `time.leadingInt`, `x` being the number read so far. -/
def leadingIntFrom (x : Nat) (s : List Char) : Option (Nat × List Char) :=
  match s with
  | [] => some (x, [])
  | c :: rest =>
    if c.toNat < 48 ∨ c.toNat > 57 then some (x, c :: rest)
    else if x > 2 ^ 63 / 10 then none
    else
      let x1 := x * 10 + c.toNat - 48
      if x1 > 2 ^ 63 then none else leadingIntFrom x1 rest

/-- Go `time.leadingInt(s)`: the leading decimal digits of `s` as a number and the
rest; `none` when the number exceeds `1 << 63`. -/
def leadingInt (s : List Char) : Option (Nat × List Char) :=
  leadingIntFrom 0 s

/-- Go `time.atoi(s)`: optional sign, then digits up to the end of `s`. -/
def atoi (s : List Char) : Option Int :=
  let neg : Bool := match s with
    | c :: _ => decide (c = '-')
    | [] => false
  let s1 := match s with
    | c :: rest => if c = '-' ∨ c = '+' then rest else c :: rest
    | [] => []
  match leadingInt s1 with
  | none => none
  | some (q, rem) =>
    if rem.length > 0 then none
    else if neg then some (-(q : Int)) else some (q : Int)

/-- Go `time.Parse("01-2006", avalue)`.  The layout splits into the chunks
`stdZeroMonth` (`"01"`), the literal `"-"` followed by `stdLongYear` (`"2006"`),
and the empty tail.  Day, clock and zone are absent from the layout, so the
result is day 1, 00:00:00 UTC. -/
def Parse (avalue : String) : Except ParseError Time :=
  let alayout := "01-2006"
  let value := avalue.data
  -- chunk 1: prefix "", stdZeroMonth
  match getnum value true with
  | none => .error ⟨alayout, avalue, "01", String.mk value, .empty⟩
  | some (month, value1) =>
    if month ≤ 0 ∨ 12 < month then
      .error ⟨alayout, avalue, "01", String.mk value1, .monthOutOfRange⟩
    else
      -- chunk 2: prefix "-", stdLongYear
      match skip value1 ['-'] with
      | none => .error ⟨alayout, avalue, "-", String.mk value1, .empty⟩
      | some value2 =>
        if value2.length < 4 ∨ !isDigit value2 0 then
          .error ⟨alayout, avalue, "2006", String.mk value2, .empty⟩
        else
          match atoi (value2.take 4) with
          | none => .error ⟨alayout, avalue, "2006", String.mk value2, .empty⟩
          | some year =>
            let value3 := value2.drop 4
            -- chunk 3: nothing left in the layout
            if value3.length ≠ 0 then
              .error ⟨alayout, avalue, "", String.mk value3, .extraText (String.mk value3)⟩
            else
              .ok (Date year month 1 0 0 0 0)

/-- Go `(*time.ParseError).Error()`; `quote` is the escaping helper of package
`time`, taken as a parameter. -/
def ParseError.Error (quote : String → String) (e : ParseError) : String :=
  match e.Message with
  | .empty =>
    "parsing time " ++ quote e.Value ++ " as " ++ quote e.Layout ++ ": cannot parse "
      ++ quote e.ValueElem ++ " as " ++ quote e.LayoutElem
  | .monthOutOfRange => "parsing time " ++ quote e.Value ++ ": month out of range"
  | .extraText v => "parsing time " ++ quote e.Value ++ ": extra text: " ++ quote v

/-! ## `strings.Trim` and `fmt` verbs -/

/-- Go `strings.Trim(s, cutset)` for a cutset of one ASCII character: every leading
and every trailing occurrence of the character is removed. -/
def Trim (s : String) (cutset : Char) : String :=
  String.mk ((s.data.reverse.dropWhile (fun c => c = cutset)).reverse.dropWhile
    (fun c => c = cutset))

/-- Decimal digits of a natural number, as `fmt` prints them for `%d`. -/
def fmtNat (n : Nat) : List Char := Nat.toDigits 10 n

/-- The verb `%02d` on a non-negative integer: decimal digits, padded on the left
with zeros to a width of at least two. -/
def fmt02d (n : Nat) : List Char :=
  List.replicate (2 - (fmtNat n).length) '0' ++ fmtNat n

/-- The verb `%d` on an integer: a minus sign for negative numbers, then the
decimal digits, with no padding. -/
def fmtd (i : Int) : List Char :=
  match i with
  | Int.ofNat n => fmtNat n
  | Int.negSucc n => '-' :: fmtNat (n + 1)

/-! ## `internal/model`: `MonthYear` -/

/-- Values a database driver can hand to `Scan` (`src interface{}`): a timestamp, or
a value of another dynamic type, named by its `%T` rendering. -/
inductive DriverValue where
  | time (t : Time)
  | other (typeName : String)
deriving DecidableEq, Repr

/-- Go `error` values of the program. -/
inductive Error where
  /-- `fmt.Errorf("invalid date format, expect MM-YYYY: %w", err)`. -/
  | invalidDateFormat (err : ParseError)
  /-- `fmt.Errorf("cannot scan %T into MonthYear", src)`. -/
  | cannotScan (typeName : String)
  /-- An error returned by a collaborator (storage, cache, transport). -/
  | external (msg : String)
deriving DecidableEq, Repr

/-- Message text of an error, `err.Error()`. -/
def Error.message (quote : String → String) (e : Error) : String :=
  match e with
  | .invalidDateFormat err => "invalid date format, expect MM-YYYY: " ++ err.Error quote
  | .cannotScan typeName => "cannot scan " ++ typeName ++ " into MonthYear"
  | .external msg => msg

/-- Go `type MonthYear time.Time`. -/
structure MonthYear where
  toTime : Time
deriving DecidableEq, Repr

/-- Go `(*MonthYear).UnmarshalJSON(data)`: the receiver after the call and the
returned error.  The receiver is left as it was when parsing fails. -/
def MonthYear.UnmarshalJSON (my : MonthYear) (data : String) : MonthYear × Option Error :=
  let s := Trim data '"'
  if s = "" then
    (MonthYear.mk Time.zero, none)
  else
    match Parse s with
    | .error err => (my, some (Error.invalidDateFormat err))
    | .ok t => (MonthYear.mk t, none)

/-- Go `(*MonthYear).MarshalJSON()`: `fmt.Sprintf` with the format `"%02d-%d"`
between two quote characters, on `t.Month()` and `t.Year()`. -/
def MonthYear.MarshalJSON (my : MonthYear) : String × Option Error :=
  let t := my.toTime
  let marshalled := String.mk (['"'] ++ fmt02d t.month ++ ['-'] ++ fmtd t.year ++ ['"'])
  (marshalled, none)

/-- Go `(MonthYear).Value()`. -/
def MonthYear.Value (my : MonthYear) : Time × Option Error :=
  let t := my.toTime
  (t, none)

/-- Go `(*MonthYear).Scan(src)`: the receiver after the call and the returned error. -/
def MonthYear.Scan (my : MonthYear) (src : DriverValue) : MonthYear × Option Error :=
  match src with
  | .time t => (MonthYear.mk t, none)
  | .other typeName => (my, some (Error.cannotScan typeName))

/-! ## `internal/service`: range normalisation -/

/-- Go `parseMonthYear(s)`. -/
def parseMonthYear (s : String) : MonthYear × Option Error :=
  let my := MonthYear.mk Time.zero
  match MonthYear.UnmarshalJSON my ("\"" ++ s ++ "\"") with
  | (_, some err) => (MonthYear.mk Time.zero, some err)
  | (my1, none) => (my1, none)

/-- Go `normalizeRangeMY(from, to)`. -/
def normalizeRangeMY (from_ to_ : String) : Time × Time × Option Error :=
  let fromRes : MonthYear × Option Error :=
    if from_ = "" then (MonthYear.mk (Date 1 1 1 0 0 0 0), none) else parseMonthYear from_
  match fromRes with
  | (_, some err) => (Time.zero, Time.zero, some err)
  | (fromMY, none) =>
    let toRes : MonthYear × Option Error :=
      if to_ = "" then (MonthYear.mk (Date 9999 12 1 0 0 0 0), none) else parseMonthYear to_
    match toRes with
    | (_, some err) => (Time.zero, Time.zero, some err)
    | (toMY, none) => (fromMY.toTime, toMY.toTime, none)

/-! ## `internal/repo`: the storage summary query -/

/-- Go `model.Subscription`, one row of the table `subscriptions`. -/
structure Subscription where
  ID : Int
  Service : String
  Price : Int
  UserID : String
  StartDate : MonthYear
  EndDate : Option MonthYear
  CreatedAt : Time
  UpdatedAt : Time
deriving DecidableEq, Repr

/-- SQL `AND` on three-valued truth values (`none` is NULL). -/
def sqlAnd : Option Bool → Option Bool → Option Bool
  | some false, _ => some false
  | _, some false => some false
  | some true, some true => some true
  | _, _ => none

/-- SQL `OR` on three-valued truth values (`none` is NULL). -/
def sqlOr : Option Bool → Option Bool → Option Bool
  | some true, _ => some true
  | _, some true => some true
  | some false, some false => some false
  | _, _ => none

/-- SQL `a <= b` on a non-null column and a parameter. -/
def sqlLe (a b : Time) : Option Bool := some (decide (a.le b))

/-- SQL `a >= b` on a nullable column: NULL when the column is NULL. -/
def sqlGe (a : Option Time) (b : Time) : Option Bool :=
  match a with
  | none => none
  | some x => some (decide (b.le x))

/-- SQL `a IS NULL`. -/
def sqlIsNull (a : Option Time) : Option Bool := some a.isNone

/-- The `WHERE` clause of the summary query on one row, the parameters being
`$1 = userID`, `$2 = service`, `$3 = from`, `$4 = to`:
`user_id = $1 AND ($2 = '' OR service_name = $2) AND start_date <= $4
 AND (end_date IS NULL AND start_date <= $4 OR end_date >= $3)`. -/
def summaryWhere (userID service : String) (from_ to_ : Time) (r : Subscription) :
    Option Bool :=
  let endDate := r.EndDate.map MonthYear.toTime
  sqlAnd
    (sqlAnd
      (sqlAnd (some (decide (r.UserID = userID)))
        (sqlOr (some (decide (service = ""))) (some (decide (r.Service = service)))))
      (sqlLe r.StartDate.toTime to_))
    (sqlOr (sqlAnd (sqlIsNull endDate) (sqlLe r.StartDate.toTime to_)) (sqlGe endDate from_))

/-- SQL `SUM`: NULL over no rows. -/
def sqlSum (l : List Int) : Option Int :=
  match l with
  | [] => none
  | x :: xs => some (x + xs.sum)

/-- SQL `COALESCE(a, b)`. -/
def sqlCoalesce (a : Option Int) (b : Int) : Int :=
  match a with
  | some x => x
  | none => b

/-- Go `(*SubscriptionRepo).GetSummary` on a table holding `rows`: the query
`SELECT COALESCE(SUM(price), 0) FROM subscriptions WHERE ...`, a row being selected
when the `WHERE` clause is true on it.  Sums are unbounded integers. -/
def SubscriptionRepo.GetSummary (rows : List Subscription) (userID service : String)
    (from_ to_ : Time) : Int × Option Error :=
  let selected := rows.filter (fun r => summaryWhere userID service from_ to_ r = some true)
  let total := sqlCoalesce (sqlSum (selected.map Subscription.Price)) 0
  (total, none)

/-! Rows used as concrete inputs. -/

/-- A subscription of `u1` at price 100, active since January 2020 with no end. -/
def rowActiveSince2020 : Subscription :=
  { ID := 1, Service := "X", Price := 100, UserID := "u1",
    StartDate := MonthYear.mk (Date 2020 1 1 0 0 0 0), EndDate := none,
    CreatedAt := Time.zero, UpdatedAt := Time.zero }

/-- A subscription of `u1` at price 40, from February 2025 to April 2025. -/
def rowFebToApr2025 : Subscription :=
  { ID := 2, Service := "Y", Price := 40, UserID := "u1",
    StartDate := MonthYear.mk (Date 2025 2 1 0 0 0 0),
    EndDate := some (MonthYear.mk (Date 2025 4 1 0 0 0 0)),
    CreatedAt := Time.zero, UpdatedAt := Time.zero }

/-! ## `internal/service`: the summary orchestration -/

/-- Calls that the service makes on its cache, storage and publisher
collaborators. -/
inductive Call where
  /-- `redis.Get(ctx, key)`. -/
  | redisGet (key : String)
  /-- `redis.Set(ctx, key, value, expiration)`. -/
  | redisSet (key : String) (value : Int) (expiration : Nat)
  /-- `repo.GetSummary(ctx, userID, service, from, to)`. -/
  | repoGetSummary (userID service : String) (from_ to_ : Time)
  /-- `redis.Scan(ctx, 0, match, 0)`, iterated to its end. -/
  | redisScan (pattern : String)
  /-- `redis.Del(ctx, key)`. -/
  | redisDel (key : String)
  /-- `repo.GetByID(ctx, id)`. -/
  | repoGetByID (id : Int)
  /-- `repo.Create(ctx, sub)`. -/
  | repoCreate (sub : Subscription)
  /-- `repo.Update(ctx, sub)`. -/
  | repoUpdate (sub : Subscription)
  /-- `repo.Delete(ctx, id)`. -/
  | repoDelete (id : Int)
  /-- `publisher.Publish(exchange, routingKey, body)`. -/
  | publish (exchange routingKey body : String)
  /-- `repo.List(ctx, userID)`. -/
  | repoList (userID : String)
deriving DecidableEq, Repr

/-- The part of Go `RedisInterface` used by the summary, over a world state `σ`:
`Get(ctx, key).Result()` and `Set(ctx, key, value, expiration).Err()`. -/
structure RedisInterface (σ : Type) where
  Get : σ → String → (String × Option Error) × σ
  Set : σ → String → Int → Nat → Option Error × σ

/-- The part of Go `repo.SubscriptionRepoInterface` used by the summary. -/
structure SubscriptionRepoInterface (σ : Type) where
  GetSummary : σ → String → String → Time → Time → (Int × Option Error) × σ

/-- Go `SubscriptionService`; a `nil` cache is `none`, `ttl` is a duration. -/
structure SubscriptionService (σ : Type) where
  repo : SubscriptionRepoInterface σ
  redis : Option (RedisInterface σ)
  ttl : Nat

/-- The repository `*SubscriptionRepo` over a table held as the world state:
`GetSummary` runs the summary query on the table and leaves it unchanged. -/
def tableRepo : SubscriptionRepoInterface (List Subscription) :=
  { GetSummary := fun rows userID service from_ to_ =>
      (SubscriptionRepo.GetSummary rows userID service from_ to_, rows) }

/-- A cache double that holds nothing: every `Get` fails with `redis: nil` and
every `Set` succeeds without storing. -/
def emptyRedis (σ : Type) : RedisInterface σ :=
  { Get := fun w _ => (("", some (Error.external "redis: nil")), w)
    Set := fun w _ _ _ => (none, w) }

/-- Go `fmt.Sprintf(format, args...)` for formats whose only verb is `%s` and
string operands: each `%s` is replaced by the next operand. -/
def Sprintf : List Char → List String → List Char
  | '%' :: 's' :: rest, a :: args => a.data ++ Sprintf rest args
  | '%' :: 's' :: rest, [] => "%!s(MISSING)".data ++ Sprintf rest []
  | c :: rest, args => c :: Sprintf rest args
  | [], _ => []

/-- White space as `fmt` scanning sees it (`isSpace`), the newline apart. -/
def isSpace (c : Char) : Bool :=
  let n := c.toNat
  (9 ≤ n && n ≤ 13) || n = 32 || n = 133 || n = 160 || n = 5760 ||
  (8192 ≤ n && n ≤ 8202) || n = 8232 || n = 8233 || n = 8239 || n = 8287 || n = 12288

/-- Go `(*ss).SkipSpace` as `Sscanf` runs it: white space is skipped, a newline
is an error (`none`). -/
def skipSpace : List Char → Option (List Char)
  | [] => some []
  | c :: rest =>
    if c = '\n' then none
    else if isSpace c then skipSpace rest
    else some (c :: rest)

/-- Go `fmt.Sscanf(val, "%d", &total)`: leading white space, an optional sign, then
the longest run of the digits `0123456789`, which must not be empty and must be
a number in the 64-bit range with the sign; text after it is ignored.  `none` is a
scan error. -/
def Sscanf (val : String) : Option Int :=
  match skipSpace val.data with
  | none => none
  | some rest =>
    let neg : Bool := match rest with
      | c :: _ => decide (c = '-')
      | [] => false
    let rest1 := match rest with
      | c :: tl => if c = '+' ∨ c = '-' then tl else c :: tl
      | [] => []
    let tok := rest1.takeWhile (fun c => decide (48 ≤ c.toNat) && decide (c.toNat ≤ 57))
    if tok = [] then none
    else
      let n : Int := ((tok.foldl (fun acc c => acc * 10 + digitVal c) 0 : Nat) : Int)
      let i : Int := if neg then -n else n
      if -(2 ^ 63 : Int) ≤ i ∧ i ≤ 2 ^ 63 - 1 then some i else none

/-- Go `(*SubscriptionService).GetSummary`: the returned `(total, err)`, the world
after the call and the collaborator calls made, in order.  Logging and metrics
do not influence the result and are left out. -/
def SubscriptionService.GetSummary {σ : Type} (s : SubscriptionService σ) (w : σ)
    (userID serviceName from_ to_ : String) : (Int × Option Error) × σ × List Call :=
  let key := String.mk (Sprintf "summary:%s:%s:%s-%s".data [userID, serviceName, from_, to_])
  -- cache lookup: a hit needs a nil error and a value that scans as an integer
  let lookup : Option Int × σ × List Call :=
    match s.redis with
    | none => (none, w, [])
    | some r =>
      let res := r.Get w key
      (if res.1.2 = none then Sscanf res.1.1 else none, res.2, [Call.redisGet key])
  match lookup with
  | (some total, w1, calls) => ((total, none), w1, calls)
  | (none, w1, calls) =>
    let range := normalizeRangeMY from_ to_
    match range.2.2 with
    | some err => ((0, some err), w1, calls)
    | none =>
      let q := s.repo.GetSummary w1 userID serviceName range.1 range.2.1
      let calls1 := calls ++ [Call.repoGetSummary userID serviceName range.1 range.2.1]
      match q.1.2 with
      | some err => ((0, some err), q.2, calls1)
      | none =>
        let total := q.1.1
        match s.redis with
        | none => ((total, none), q.2, calls1)
        | some r =>
          let w3 := (r.Set q.2 key total s.ttl).2
          ((total, none), w3, calls1 ++ [Call.redisSet key total s.ttl])

/-! ## `internal/service`: create, update, delete -/

/-- The methods of Go `repo.SubscriptionRepoInterface` used by `Create`, `Update`
and `Delete`.  `Create` and `Update` receive a pointer and fill in fields of the
subscription: they return the subscription as it is after the call.  `GetByID`
returns a pointer, `nil` being `none`. -/
structure SubscriptionRepoCRUD (σ : Type) where
  GetByID : σ → Int → (Option Subscription × Option Error) × σ
  Create : σ → Subscription → (Subscription × Option Error) × σ
  Update : σ → Subscription → (Subscription × Option Error) × σ
  Delete : σ → Int → Option Error × σ

/-- The methods of Go `RedisInterface` used by the invalidation:
`Scan(ctx, 0, match, 0).Iterator()` run to its end, as the list of the keys it
yields, and `Del(ctx, key).Err()`. -/
structure RedisKeyspace (σ : Type) where
  Scan : σ → String → List String × σ
  Del : σ → String → Option Error × σ

/-- Go `service.Publisher`, method `Publish(exchange, routingKey, body)`. -/
structure Publisher (σ : Type) where
  Publish : σ → String → String → String → Option Error × σ

/-- The values handed to `json.Marshal` by `publishEvent`: a `*model.Subscription`,
or the map `{"id": id, "user_id": userID}` built by `Delete`. -/
inductive Payload where
  | subscription (sub : Subscription)
  | deleted (id : Int) (userID : String)
deriving DecidableEq, Repr

/-- A year that `time.Time.MarshalJSON` can render (RFC 3339): 0..9999. -/
def jsonYearInRange (t : Time) : Bool := decide (0 ≤ t.year) && decide (t.year ≤ 9999)

/-- Go `json.Marshal(payload)`.  Encoding fails exactly when a `time.Time` field
(`created_at`, `updated_at`) has a year outside 0..9999; the map of `Delete` always
encodes.  The text rendered on success is the parameter `render`. -/
def jsonMarshal (render : Payload → String) (payload : Payload) : String × Option Error :=
  match payload with
  | .subscription sub =>
    if jsonYearInRange sub.CreatedAt && jsonYearInRange sub.UpdatedAt then
      (render payload, none)
    else
      ("", some (Error.external
        "json: error calling MarshalJSON for type time.Time: Time.MarshalJSON: year outside of range [0,9999]"))
  | .deleted _ _ => (render payload, none)

/-- Go `SubscriptionService` with all its collaborators: `summary` holds the
fields read by `GetSummary` (`repo`, `redis`, `ttl`), `repo` and `keys` the other
methods of the same storage and cache objects (the cache is `nil` exactly when
`summary.redis` is `none`), `publisher` may be `nil`.  `render` is the text that
`json.Marshal` produces. -/
structure Service (σ : Type) where
  summary : SubscriptionService σ
  repo : SubscriptionRepoCRUD σ
  keys : RedisKeyspace σ
  publisher : Option (Publisher σ)
  render : Payload → String

/-- The loop of `invalidateCache` over the keys yielded by the iterator: each key
is deleted, a failed deletion is logged and the loop goes on. -/
def deleteKeys {σ : Type} (keys : RedisKeyspace σ) : List String → σ → σ × List Call
  | [], w => (w, [])
  | k :: ks, w =>
    let w1 := (keys.Del w k).2
    let rest := deleteKeys keys ks w1
    (rest.1, Call.redisDel k :: rest.2)

/-- Go `(*SubscriptionService).invalidateCache`: the world after the call and the
collaborator calls made. -/
def Service.invalidateCache {σ : Type} (s : Service σ) (w : σ) (userID : String) :
    σ × List Call :=
  match s.summary.redis with
  | none => (w, [])
  | some _ =>
    let pattern := String.mk (Sprintf "summary:%s:*".data [userID])
    let scan := s.keys.Scan w pattern
    let rest := deleteKeys s.keys scan.1 scan.2
    (rest.1, Call.redisScan pattern :: rest.2)

/-- Go `(*SubscriptionService).publishEvent`: the world after the call and the
collaborator calls made. -/
def Service.publishEvent {σ : Type} (s : Service σ) (w : σ) (exchange routingKey : String)
    (payload : Payload) : σ × List Call :=
  match s.publisher with
  | none => (w, [])
  | some p =>
    let m := jsonMarshal s.render payload
    match m.2 with
    | some _ => (w, [])
    | none =>
      let w1 := (p.Publish w exchange routingKey m.1).2
      (w1, [Call.publish exchange routingKey m.1])

/-- Go `(*SubscriptionService).Create`: the subscription after the call, the
returned error, the world after the call and the collaborator calls made. -/
def Service.Create {σ : Type} (s : Service σ) (w : σ) (sub : Subscription) :
    (Subscription × Option Error) × σ × List Call :=
  let r := s.repo.Create w sub
  match r.1.2 with
  | some err => ((r.1.1, some err), r.2, [Call.repoCreate sub])
  | none =>
    let sub1 := r.1.1
    let inv := s.invalidateCache r.2 sub1.UserID
    let pub := s.publishEvent inv.1 "subscriptions" "created" (Payload.subscription sub1)
    ((sub1, none), pub.1, [Call.repoCreate sub] ++ inv.2 ++ pub.2)

/-- Go `(*SubscriptionService).Update`. -/
def Service.Update {σ : Type} (s : Service σ) (w : σ) (sub : Subscription) :
    (Subscription × Option Error) × σ × List Call :=
  let r := s.repo.Update w sub
  match r.1.2 with
  | some err => ((r.1.1, some err), r.2, [Call.repoUpdate sub])
  | none =>
    let sub1 := r.1.1
    let inv := s.invalidateCache r.2 sub1.UserID
    let pub := s.publishEvent inv.1 "subscriptions" "updated" (Payload.subscription sub1)
    ((sub1, none), pub.1, [Call.repoUpdate sub] ++ inv.2 ++ pub.2)

/-- The first step of Go `(*SubscriptionService).Delete`: with an empty `userID`
the subscription is looked up and, when the lookup returns a subscription and no
error, its owner is taken as the user.  Result: the user, the world and the calls
made. -/
def Service.deleteOwner {σ : Type} (s : Service σ) (w : σ) (id : Int) (userID : String) :
    String × σ × List Call :=
  if userID = "" then
    let g := s.repo.GetByID w id
    match g.1.2, g.1.1 with
    | none, some sub => (sub.UserID, g.2, [Call.repoGetByID id])
    | _, _ => (userID, g.2, [Call.repoGetByID id])
  else (userID, w, [])

/-- Go `(*SubscriptionService).Delete`: the returned error, the world after the
call and the collaborator calls made. -/
def Service.Delete {σ : Type} (s : Service σ) (w : σ) (id : Int) (userID : String) :
    Option Error × σ × List Call :=
  let o := s.deleteOwner w id userID
  let d := s.repo.Delete o.2.1 id
  match d.1 with
  | some err => (some err, d.2, o.2.2 ++ [Call.repoDelete id])
  | none =>
    let inv := s.invalidateCache d.2 o.1
    let pub := s.publishEvent inv.1 "subscriptions" "deleted" (Payload.deleted id o.1)
    (none, pub.1, o.2.2 ++ [Call.repoDelete id] ++ inv.2 ++ pub.2)

/-! ## An in-memory cache, table and publisher

The collaborators behind the interfaces are a Redis server, a PostgreSQL table and
a message publisher.  The definitions below give them a state: the cache is a list
of entries, `SCAN ... MATCH` follows the glob-style patterns documented for Redis,
the table is a list of rows changed by the SQL statements of `internal/repo`. -/

/-- The character under test inside a bracket class of a glob pattern: whether
the class is negated (`[^...]`) and whether a member has matched so far. -/
structure GlobClass where
  x : Char
  neg : Bool
  hit : Bool
deriving DecidableEq, Repr

/-- Whether `f` holds of some suffix of the string, the longest first. -/
def anySuffix (f : List Char → Bool) : List Char → Bool
  | [] => f []
  | c :: s => f (c :: s) || anySuffix f s

/-- Redis glob-style matching of a whole key (`stringmatchlen`, case sensitive):
`*` matches any run of characters, `?` one character, `[...]` one character of a
class (with ranges `a-b`, negation `^` and escapes), `\` takes the next pattern
character literally, any other character matches itself.  The class argument is
`none` outside a bracket class; every step consumes a pattern character and one
unit of fuel. -/
def globMatchFuel : Nat → Option GlobClass → List Char → List Char → Bool
  | 0, _, _, _ => false
  | _ + 1, none, [], s => s.isEmpty
  | fuel + 1, none, c :: p, s =>
    if c = '*' then anySuffix (fun s1 => globMatchFuel fuel none p s1) s
    else
      match s with
      | [] => false
      | x :: s1 =>
        if c = '?' then globMatchFuel fuel none p s1
        else if c = '[' then
          match p with
          | '^' :: p1 => globMatchFuel fuel (some ⟨x, true, false⟩) p1 s1
          | _ => globMatchFuel fuel (some ⟨x, false, false⟩) p s1
        else if c = '\\' then
          match p with
          | e :: p1 => decide (x = e) && globMatchFuel fuel none p1 s1
          | [] => decide (x = '\\') && s1.isEmpty
        else decide (x = c) && globMatchFuel fuel none p s1
  | _ + 1, some st, [], s => (st.hit != st.neg) && s.isEmpty
  | fuel + 1, some st, c :: p, s =>
    if c = ']' then (st.hit != st.neg) && globMatchFuel fuel none p s
    else if c = '\\' then
      match p with
      | e :: p1 => globMatchFuel fuel (some ⟨st.x, st.neg, st.hit || decide (st.x = e)⟩) p1 s
      | [] => globMatchFuel fuel (some ⟨st.x, st.neg, st.hit || decide (st.x = '\\')⟩) [] s
    else
      match p with
      | '-' :: b :: p1 =>
        let lo := min c.toNat b.toNat
        let hi := max c.toNat b.toNat
        globMatchFuel fuel (some ⟨st.x, st.neg,
          st.hit || (decide (lo ≤ st.x.toNat) && decide (st.x.toNat ≤ hi))⟩) p1 s
      | _ => globMatchFuel fuel (some ⟨st.x, st.neg, st.hit || decide (st.x = c)⟩) p s

/-- Whether the glob pattern matches the key; the fuel covers the whole pattern. -/
def globMatch (pattern key : List Char) : Bool :=
  globMatchFuel (pattern.length + 1) none pattern key

/-- The state of the collaborators: cache entries `(key, value, ttl)`, the rows of
the table `subscriptions`, the next value of its id sequence, the value of `NOW()`
and the messages accepted for publication, oldest first. -/
structure World where
  cache : List (String × String × Nat)
  table : List Subscription
  nextID : Int
  now : Time
  sent : List (String × String × String)
deriving DecidableEq, Repr

/-- The entry stored under a key, if any. -/
def cacheLookup (cache : List (String × String × Nat)) (key : String) :
    Option (String × Nat) :=
  match cache with
  | [] => none
  | e :: rest => if e.1 = key then some e.2 else cacheLookup rest key

/-- The cache without the entries of a key. -/
def cacheRemove (cache : List (String × String × Nat)) (key : String) :
    List (String × String × Nat) :=
  cache.filter (fun e => !decide (e.1 = key))

/-- The cache client over `World`.  `GET` of a missing key fails with
`redis: nil`; `SET` stores the decimal text of the integer with its expiration,
replacing the entry of the key.  Expiry of entries is not modelled. -/
def memRedis : RedisInterface World :=
  { Get := fun w key =>
      match cacheLookup w.cache key with
      | some e => ((e.1, none), w)
      | none => (("", some (Error.external "redis: nil")), w)
    Set := fun w key value expiration =>
      (none, { w with cache := (key, String.mk (fmtd value), expiration) ::
                cacheRemove w.cache key }) }

/-- The keyspace commands over `World`: `SCAN` with `MATCH` yields every stored
key that the pattern matches, `DEL` removes the key. -/
def memKeys : RedisKeyspace World :=
  { Scan := fun w pattern =>
      ((w.cache.map (fun e => e.1)).filter
        (fun k => globMatch pattern.data k.data), w)
    Del := fun w key => (none, { w with cache := cacheRemove w.cache key }) }

/-- The error `pgx.ErrNoRows`. -/
def ErrNoRows : Error := Error.external "no rows in result set"

/-- The statements of `internal/repo` other than the summary, over `World`:
`SELECT ... WHERE id = $1`, `INSERT ... RETURNING id, created_at, updated_at`,
`UPDATE ... SET service_name, price, start_date, end_date, updated_at = NOW()
WHERE id = $5 RETURNING updated_at` and `DELETE ... WHERE id = $1`. -/
def tableCRUD : SubscriptionRepoCRUD World :=
  { GetByID := fun w id =>
      match w.table.find? (fun r => decide (r.ID = id)) with
      | some r => ((some r, none), w)
      | none => ((none, some ErrNoRows), w)
    Create := fun w sub =>
      let row := { sub with ID := w.nextID, CreatedAt := w.now, UpdatedAt := w.now }
      ((row, none), { w with table := w.table ++ [row], nextID := w.nextID + 1 })
    Update := fun w sub =>
      if w.table.any (fun r => decide (r.ID = sub.ID)) then
        (({ sub with UpdatedAt := w.now }, none),
          { w with table := w.table.map (fun r =>
              if r.ID = sub.ID then
                { r with Service := sub.Service, Price := sub.Price,
                         StartDate := sub.StartDate, EndDate := sub.EndDate,
                         UpdatedAt := w.now }
              else r) })
      else ((sub, some ErrNoRows), w)
    Delete := fun w id =>
      if w.table.any (fun r => decide (r.ID = id)) then
        (none, { w with table := w.table.filter (fun r => !decide (r.ID = id)) })
      else (some ErrNoRows, w) }

/-- The summary query over the table of `World`. -/
def worldRepo : SubscriptionRepoInterface World :=
  { GetSummary := fun w userID service from_ to_ =>
      (SubscriptionRepo.GetSummary w.table userID service from_ to_, w) }

/-- A publisher that accepts every message and records it. -/
def recordingPublisher : Publisher World :=
  { Publish := fun w exchange routingKey body =>
      (none, { w with sent := w.sent ++ [(exchange, routingKey, body)] }) }

/-- A stand-in for the text of `json.Marshal`: the kind of payload with the id and
the user. -/
def renderPayload (payload : Payload) : String :=
  match payload with
  | .subscription sub =>
    "subscription:" ++ String.mk (fmtd sub.ID) ++ ":" ++ sub.UserID
  | .deleted id userID => "deleted:" ++ String.mk (fmtd id) ++ ":" ++ userID

/-- The service wired to the in-memory cache, table and publisher. -/
def memService (ttl : Nat) : Service World :=
  { summary := { repo := worldRepo, redis := some memRedis, ttl := ttl }
    repo := tableCRUD
    keys := memKeys
    publisher := some recordingPublisher
    render := renderPayload }

/-- Keyspace commands whose `DEL` always fails. -/
def failingKeys : RedisKeyspace World :=
  { Scan := memKeys.Scan
    Del := fun w _ => (some (Error.external "redis: connection refused"), w) }

/-- A publisher whose queue is full: every `Publish` fails. -/
def fullPublisher : Publisher World :=
  { Publish := fun w _ _ _ => (some (Error.external "publisher queue full"), w) }

/-- The in-memory service with failing deletions and a full publisher queue. -/
def degradedService (ttl : Nat) : Service World :=
  { memService ttl with keys := failingKeys, publisher := some fullPublisher }

/-- An empty cache over a table holding `rows`. -/
def worldOf (rows : List Subscription) : World :=
  { cache := [], table := rows, nextID := 100, now := Date 2025 9 1 12 0 0 0, sent := [] }

/-! ## `internal/service`: get and list -/

/-- The method `List` of Go `repo.SubscriptionRepoInterface`; a `nil` slice is the
empty list. -/
structure SubscriptionRepoList (σ : Type) where
  List : σ → String → (List Subscription × Option Error) × σ

/-- Go `(*SubscriptionService).Get`: the returned `(sub, err)`, the world after the
call and the collaborator calls made. -/
def Service.Get {σ : Type} (s : Service σ) (w : σ) (id : Int) :
    (Option Subscription × Option Error) × σ × List Call :=
  let g := s.repo.GetByID w id
  match g.1.2 with
  | some err => ((none, some err), g.2, [Call.repoGetByID id])
  | none => ((g.1.1, none), g.2, [Call.repoGetByID id])

/-- Go `(*SubscriptionService).List`, the `List` method of the repository being
`lister`. -/
def Service.List {σ : Type} (_s : Service σ) (lister : SubscriptionRepoList σ) (w : σ)
    (userID : String) : (List Subscription × Option Error) × σ × List Call :=
  let l := lister.List w userID
  match l.1.2 with
  | some err => (([], some err), l.2, [Call.repoList userID])
  | none => ((l.1.1, none), l.2, [Call.repoList userID])

/-- A stand-in for the `List` query over `World`: the rows of the user, in table
order; the `ORDER BY created_at DESC` of the query is not modelled. -/
def tableList : SubscriptionRepoList World :=
  { List := fun w userID => ((w.table.filter (fun r => decide (r.UserID = userID)), none), w) }

/-- A cache client whose reads return a text that is no integer and whose writes
fail. -/
def brokenRedis (σ : Type) : RedisInterface σ :=
  { Get := fun w _ => (("not-a-number", none), w)
    Set := fun w _ _ _ => (some (Error.external "redis: connection refused"), w) }

/-! ## `internal/service`: the publisher -/

/-- Go `publishMsg`. -/
structure publishMsg where
  exchange : String
  routingKey : String
  body : String
deriving DecidableEq, Repr

/-- Go `RabbitPublisher` together with the state of its worker goroutine.  `queue`
is the buffer of the channel, oldest message first, `capacity` its size and
`closed` whether `close` was called on it.  The worker is `parked` when it waits
in the receive of `range r.queue` on an empty open channel, holds `inflight` the
message it has received and not yet sent, and is `done` once the loop has ended. -/
structure RabbitPublisher where
  queue : List publishMsg
  capacity : Nat
  closed : Bool
  parked : Bool
  inflight : Option publishMsg
  done : Bool
deriving DecidableEq, Repr

/-- Go `NewRabbitPublisher(ch, buffer)`: an open channel with an empty buffer and
a worker that has just been started. -/
def NewRabbitPublisher (buffer : Nat) : RabbitPublisher :=
  { queue := [], capacity := buffer, closed := false, parked := false, inflight := none,
    done := false }

/-- How a call ends: it returns a value or it panics. -/
inductive Outcome (α : Type) where
  | returned (value : α)
  | panicked (msg : String)
deriving DecidableEq, Repr

/-- The error `fmt.Errorf("publisher queue full")`. -/
def ErrQueueFull : Error := Error.external "publisher queue full"

/-- Go `(*RabbitPublisher).Publish`: `select` with a send on the channel and a
`default` branch.  A send on a closed channel panics; a parked worker receives the
message directly; otherwise the message enters the buffer when there is room, and
the `default` branch returns the error `publisher queue full` when there is none. -/
def RabbitPublisher.Publish (r : RabbitPublisher) (exchange routingKey body : String) :
    Outcome (Option Error) × RabbitPublisher :=
  if r.closed then (Outcome.panicked "send on closed channel", r)
  else if r.parked then
    (Outcome.returned none,
      { r with parked := false, inflight := some ⟨exchange, routingKey, body⟩ })
  else if r.queue.length < r.capacity then
    (Outcome.returned none, { r with queue := r.queue ++ [⟨exchange, routingKey, body⟩] })
  else (Outcome.returned (some ErrQueueFull), r)

/-- Go `(*RabbitPublisher).Close`: `close(r.queue)`.  Closing a closed channel
panics; a parked worker is woken and its loop ends. -/
def RabbitPublisher.Close (r : RabbitPublisher) : Outcome Unit × RabbitPublisher :=
  if r.closed then (Outcome.panicked "close of closed channel", r)
  else if r.parked then
    (Outcome.returned (), { r with closed := true, parked := false, done := true })
  else (Outcome.returned (), { r with closed := true })

/-- The AMQP channel behind the worker: `ch.Publish(exchange, routingKey, false,
false, amqp.Publishing{...})` over a transport state `τ`. -/
structure AmqpChannel (τ : Type) where
  Publish : τ → publishMsg → Option Error × τ

/-- One step of Go `(*RabbitPublisher).worker`, the loop `for msg := range
r.queue`: a held message is sent (an error is logged and the message dropped);
otherwise the oldest buffered message is received; on an empty buffer the loop
ends if the channel is closed and the worker parks if it is open.  Result: the
publisher, the transport and the message handed to the transport in this step. -/
def RabbitPublisher.workerStep {τ : Type} (ch : AmqpChannel τ) (r : RabbitPublisher) (t : τ) :
    RabbitPublisher × τ × List publishMsg :=
  if r.done then (r, t, [])
  else
    match r.inflight with
    | some msg => ({ r with inflight := none }, (ch.Publish t msg).2, [msg])
    | none =>
      match r.queue with
      | m :: rest => ({ r with queue := rest, inflight := some m, parked := false }, t, [])
      | [] =>
        if r.closed then ({ r with done := true, parked := false }, t, [])
        else ({ r with parked := true }, t, [])

/-- What the producers and the worker do, one at a time. -/
inductive PublisherAction where
  | publish (exchange routingKey body : String)
  | work
  | close
deriving DecidableEq, Repr

/-- A run of the publisher: the publisher, the transport, the messages whose
`Publish` returned no error (in call order) and the messages handed to the
transport (in order). -/
structure PublisherRun (τ : Type) where
  pub : RabbitPublisher
  transport : τ
  accepted : List publishMsg
  sent : List publishMsg

/-- One action of a run. -/
def PublisherRun.step {τ : Type} (ch : AmqpChannel τ) (x : PublisherRun τ)
    (a : PublisherAction) : PublisherRun τ :=
  match a with
  | .publish exchange routingKey body =>
    let res := x.pub.Publish exchange routingKey body
    match res.1 with
    | Outcome.returned none =>
      { x with pub := res.2, accepted := x.accepted ++ [⟨exchange, routingKey, body⟩] }
    | _ => { x with pub := res.2 }
  | .work =>
    let res := x.pub.workerStep ch x.transport
    { x with pub := res.1, transport := res.2.1, sent := x.sent ++ res.2.2 }
  | .close => { x with pub := x.pub.Close.2 }

/-- A sequence of actions, applied in order. -/
def PublisherRun.run {τ : Type} (ch : AmqpChannel τ) (x : PublisherRun τ)
    (actions : List PublisherAction) : PublisherRun τ :=
  actions.foldl (PublisherRun.step ch) x

/-- The run that starts with a new publisher of the given buffer size. -/
def PublisherRun.start {τ : Type} (buffer : Nat) (t : τ) : PublisherRun τ :=
  { pub := NewRabbitPublisher buffer, transport := t, accepted := [], sent := [] }

/-- A transport that records the messages it is given and fails on every message
whose body is `"bad"`. -/
def flakyChannel : AmqpChannel (List publishMsg) :=
  { Publish := fun t msg =>
      (if msg.body = "bad" then some (Error.external "amqp: channel closed") else none,
        t ++ [msg]) }

/-- Consecutive `Publish` calls, one per message, with no worker step in between:
the outcomes in call order and the publisher after the last call. -/
def RabbitPublisher.publishAll (r : RabbitPublisher) :
    List publishMsg → List (Outcome (Option Error)) × RabbitPublisher
  | [] => ([], r)
  | m :: rest =>
    let res := r.Publish m.exchange m.routingKey m.body
    let tl := RabbitPublisher.publishAll res.2 rest
    (res.1 :: tl.1, tl.2)

/-! ## `internal/handler`

The handlers are functions of the request and of the world behind the service.
A request is what `gin.Context` gives access to: the path parameters, the query
pairs and the body.  Timeouts of the request context are not modelled. -/

/-- Go `strconv.ParseInt(s, 10, 64)`, `none` being an error (`ErrSyntax` or
`ErrRange`): an optional sign `+` or `-`, then one or more decimal digits whose
value fits 64 bits with the sign. -/
def ParseInt (s : String) : Option Int :=
  match s.data with
  | [] => none
  | c :: tl =>
    let neg : Bool := decide (c = '-')
    let digits := if c = '+' ∨ c = '-' then tl else c :: tl
    if digits = [] then none
    else if digits.all (fun d => decide (48 ≤ d.toNat) && decide (d.toNat ≤ 57)) then
      let un : Nat := digits.foldl (fun acc d => acc * 10 + digitVal d) 0
      if neg then (if un ≤ 2 ^ 63 then some (-(un : Int)) else none)
      else (if un < 2 ^ 63 then some (un : Int) else none)
    else none

/-- Go `parseIDParam`. -/
def parseIDParam (s : String) : Option Int := ParseInt s

/-- A date member of the JSON object of a body, with the raw text of its value as
the decoder hands it to `UnmarshalJSON` (quotes included). -/
inductive DateMember where
  | start_date (raw : String)
  | end_date (raw : String)
deriving DecidableEq, Repr

/-- A JSON object as `encoding/json` decodes it into `model.Subscription`: the
fields decoded from the members `id`, `service_name`, `price`, `user_id`,
`created_at` and `updated_at` (the zero value when the member is absent), and the
members `start_date` and `end_date` in the order in which they are written. -/
structure JSONBody where
  ID : Int
  Service : String
  Price : Int
  UserID : String
  CreatedAt : Time
  UpdatedAt : Time
  dates : List DateMember

/-- What a handler reads of `gin.Context`: the path parameters, the pairs of the
query string in order, and the body, which is either a JSON object or a text for
which the decoder returns an error before it reaches a date member. -/
structure Request where
  params : List (String × String)
  query : List (String × String)
  body : Except Error JSONBody

/-- Go `c.Param(key)`: the value of the path parameter, `""` when there is none. -/
def Request.Param (c : Request) (key : String) : String := (c.params.lookup key).getD ""

/-- Go `c.Query(key)`: the first value of the key in the query string, `""` when
the key is absent. -/
def Request.Query (c : Request) (key : String) : String := (c.query.lookup key).getD ""

/-- Decoding of the date members into `sub`, in order: `start_date` calls
`UnmarshalJSON` on the field; `end_date` sets the pointer to `nil` for the literal
`null` and otherwise calls `UnmarshalJSON` on the value pointed to, allocated if
the pointer is `nil`.  The first error ends the decoding. -/
def bindDates : List DateMember → Subscription → Subscription × Option Error
  | [], sub => (sub, none)
  | DateMember.start_date raw :: rest, sub =>
    let r := sub.StartDate.UnmarshalJSON raw
    match r.2 with
    | some err => ({ sub with StartDate := r.1 }, some err)
    | none => bindDates rest { sub with StartDate := r.1 }
  | DateMember.end_date raw :: rest, sub =>
    if raw = "null" then bindDates rest { sub with EndDate := none }
    else
      let r := (sub.EndDate.getD (MonthYear.mk Time.zero)).UnmarshalJSON raw
      match r.2 with
      | some err => ({ sub with EndDate := some r.1 }, some err)
      | none => bindDates rest { sub with EndDate := some r.1 }

/-- Go `c.ShouldBindJSON(&in)` on a zero `model.Subscription`: the subscription
after the call and the returned error.  The type has no `binding` tags, so
nothing is validated after decoding. -/
def ShouldBindJSON (c : Request) : Subscription × Option Error :=
  let zero : Subscription :=
    { ID := 0, Service := "", Price := 0, UserID := "", StartDate := MonthYear.mk Time.zero,
      EndDate := none, CreatedAt := Time.zero, UpdatedAt := Time.zero }
  match c.body with
  | .error err => (zero, some err)
  | .ok b =>
    bindDates b.dates
      { ID := b.ID, Service := b.Service, Price := b.Price, UserID := b.UserID,
        StartDate := MonthYear.mk Time.zero, EndDate := none, CreatedAt := b.CreatedAt,
        UpdatedAt := b.UpdatedAt }

/-- Go `service.SubscriptionServiceInterface` over a world `σ`.  `Create` and
`Update` receive a pointer: they return the subscription as it is after the
call. -/
structure SubscriptionServiceInterface (σ : Type) where
  Create : σ → Subscription → (Subscription × Option Error) × σ
  Update : σ → Subscription → (Subscription × Option Error) × σ
  Delete : σ → Int → String → Option Error × σ
  Get : σ → Int → (Option Subscription × Option Error) × σ
  List : σ → String → (List Subscription × Option Error) × σ
  GetSummary : σ → String → String → String → String → (Int × Option Error) × σ

/-- Calls that a handler makes on the service. -/
inductive SvcCall where
  | create (sub : Subscription)
  | update (sub : Subscription)
  | delete (id : Int) (userID : String)
  | get (id : Int)
  | list (userID : String)
  | getSummary (userID serviceName from_ to_ : String)
deriving DecidableEq, Repr

/-- The value handed to `c.JSON`, or nothing after `c.Status`. -/
inductive ResponseBody where
  /-- Nothing is written (`c.Status`). -/
  | empty
  /-- The map `gin.H{"error": msg}` with a literal message. -/
  | message (msg : String)
  /-- The map `gin.H{"error": err.Error()}`. -/
  | error (err : Error)
  /-- A `model.Subscription` passed by value. -/
  | subscriptionValue (sub : Subscription)
  /-- A `*model.Subscription`, `nil` being `none`. -/
  | subscriptionPointer (sub : Option Subscription)
  /-- A `[]model.Subscription`. -/
  | subscriptions (subs : List Subscription)
  /-- The map `gin.H{"total": total}`. -/
  | total (total : Int)
deriving DecidableEq, Repr

/-- The status code and the value rendered as the body. -/
structure Response where
  status : Nat
  body : ResponseBody
deriving DecidableEq, Repr

/-- Go `http.StatusOK`. -/
def StatusOK : Nat := 200
/-- Go `http.StatusCreated`. -/
def StatusCreated : Nat := 201
/-- Go `http.StatusNoContent`. -/
def StatusNoContent : Nat := 204
/-- Go `http.StatusBadRequest`. -/
def StatusBadRequest : Nat := 400
/-- Go `http.StatusInternalServerError`. -/
def StatusInternalServerError : Nat := 500

/-- Go `SubscriptionHandler`. -/
structure SubscriptionHandler (σ : Type) where
  svc : SubscriptionServiceInterface σ

/-- Go `(*SubscriptionHandler).Create`: the response, the world after the request
and the calls made on the service. -/
def SubscriptionHandler.Create {σ : Type} (h : SubscriptionHandler σ) (w : σ) (c : Request) :
    Response × σ × List SvcCall :=
  let b := ShouldBindJSON c
  match b.2 with
  | some err => (⟨StatusBadRequest, ResponseBody.error err⟩, w, [])
  | none =>
    let in_ := b.1
    let r := h.svc.Create w in_
    match r.1.2 with
    | some err => (⟨StatusInternalServerError, ResponseBody.error err⟩, r.2, [SvcCall.create in_])
    | none => (⟨StatusCreated, ResponseBody.subscriptionValue r.1.1⟩, r.2, [SvcCall.create in_])

/-- Go `(*SubscriptionHandler).Update`. -/
def SubscriptionHandler.Update {σ : Type} (h : SubscriptionHandler σ) (w : σ) (c : Request) :
    Response × σ × List SvcCall :=
  match parseIDParam (c.Param "id") with
  | none => (⟨StatusBadRequest, ResponseBody.message "invalid id"⟩, w, [])
  | some id =>
    let b := ShouldBindJSON c
    match b.2 with
    | some err => (⟨StatusBadRequest, ResponseBody.error err⟩, w, [])
    | none =>
      let in_ := { b.1 with ID := id }
      let r := h.svc.Update w in_
      match r.1.2 with
      | some err =>
        (⟨StatusInternalServerError, ResponseBody.error err⟩, r.2, [SvcCall.update in_])
      | none => (⟨StatusOK, ResponseBody.subscriptionValue r.1.1⟩, r.2, [SvcCall.update in_])

/-- Go `(*SubscriptionHandler).Delete`. -/
def SubscriptionHandler.Delete {σ : Type} (h : SubscriptionHandler σ) (w : σ) (c : Request) :
    Response × σ × List SvcCall :=
  match parseIDParam (c.Param "id") with
  | none => (⟨StatusBadRequest, ResponseBody.message "invalid id"⟩, w, [])
  | some id =>
    let r := h.svc.Delete w id ""
    match r.1 with
    | some err =>
      (⟨StatusInternalServerError, ResponseBody.error err⟩, r.2, [SvcCall.delete id ""])
    | none => (⟨StatusNoContent, ResponseBody.empty⟩, r.2, [SvcCall.delete id ""])

/-- Go `(*SubscriptionHandler).Get`. -/
def SubscriptionHandler.Get {σ : Type} (h : SubscriptionHandler σ) (w : σ) (c : Request) :
    Response × σ × List SvcCall :=
  match parseIDParam (c.Param "id") with
  | none => (⟨StatusBadRequest, ResponseBody.message "invalid id"⟩, w, [])
  | some id =>
    let r := h.svc.Get w id
    match r.1.2 with
    | some err => (⟨StatusInternalServerError, ResponseBody.error err⟩, r.2, [SvcCall.get id])
    | none => (⟨StatusOK, ResponseBody.subscriptionPointer r.1.1⟩, r.2, [SvcCall.get id])

/-- Go `(*SubscriptionHandler).Summary`. -/
def SubscriptionHandler.Summary {σ : Type} (h : SubscriptionHandler σ) (w : σ) (c : Request) :
    Response × σ × List SvcCall :=
  let userID := c.Query "user_id"
  if userID = "" then (⟨StatusBadRequest, ResponseBody.message "user_id is required"⟩, w, [])
  else
    let serviceName := c.Query "service_name"
    let from_ := c.Query "from"
    let to_ := c.Query "to"
    let r := h.svc.GetSummary w userID serviceName from_ to_
    match r.1.2 with
    | some err =>
      (⟨StatusBadRequest, ResponseBody.error err⟩, r.2,
        [SvcCall.getSummary userID serviceName from_ to_])
    | none =>
      (⟨StatusOK, ResponseBody.total r.1.1⟩, r.2,
        [SvcCall.getSummary userID serviceName from_ to_])

/-- Go `(*SubscriptionHandler).List`. -/
def SubscriptionHandler.List {σ : Type} (h : SubscriptionHandler σ) (w : σ) (c : Request) :
    Response × σ × List SvcCall :=
  let userID := c.Query "user_id"
  if userID = "" then (⟨StatusBadRequest, ResponseBody.message "user_id is required"⟩, w, [])
  else
    let r := h.svc.List w userID
    match r.1.2 with
    | some err =>
      (⟨StatusInternalServerError, ResponseBody.error err⟩, r.2, [SvcCall.list userID])
    | none => (⟨StatusOK, ResponseBody.subscriptions r.1.1⟩, r.2, [SvcCall.list userID])

/-- The encoding of a `MonthYear` struct field by `encoding/json`.  `MarshalJSON`
has a pointer receiver, so the encoder calls it only when the field is
addressable: inside a struct reached through a pointer or inside a slice element.
For a struct passed by value the field is encoded as the struct `time.Time`,
which has no exported field: the text `{}`. -/
def encodeMonthYear (addressable : Bool) (my : MonthYear) : String :=
  if addressable then my.MarshalJSON.1 else "{}"

/-- The texts of the members `start_date` in the JSON text that `c.JSON` writes
for the body (gin renders with `encoding/json`), in order. -/
def ResponseBody.startDates : ResponseBody → List String
  | .subscriptionValue sub => [encodeMonthYear false sub.StartDate]
  | .subscriptionPointer (some sub) => [encodeMonthYear true sub.StartDate]
  | .subscriptions subs => subs.map (fun sub => encodeMonthYear true sub.StartDate)
  | _ => []

/-- The service `*SubscriptionService` behind the interface of the handlers: the
world is the world of the collaborators together with the calls made on them so
far. -/
def serviceInterface {σ : Type} (s : Service σ) (lister : SubscriptionRepoList σ) :
    SubscriptionServiceInterface (σ × List Call) :=
  { Create := fun w sub =>
      let r := s.Create w.1 sub
      (r.1, (r.2.1, w.2 ++ r.2.2))
    Update := fun w sub =>
      let r := s.Update w.1 sub
      (r.1, (r.2.1, w.2 ++ r.2.2))
    Delete := fun w id userID =>
      let r := s.Delete w.1 id userID
      (r.1, (r.2.1, w.2 ++ r.2.2))
    Get := fun w id =>
      let r := s.Get w.1 id
      (r.1, (r.2.1, w.2 ++ r.2.2))
    List := fun w userID =>
      let r := s.List lister w.1 userID
      (r.1, (r.2.1, w.2 ++ r.2.2))
    GetSummary := fun w userID serviceName from_ to_ =>
      let r := s.summary.GetSummary w.1 userID serviceName from_ to_
      (r.1, (r.2.1, w.2 ++ r.2.2)) }

/-- The handlers over the in-memory service. -/
def memHandler : SubscriptionHandler (World × List Call) :=
  { svc := serviceInterface (memService 60) tableList }

/-- A `POST /subscriptions` body with the given date members. -/
def requestWithDates (dates : List DateMember) : Request :=
  { params := [], query := [],
    body := .ok { ID := 0, Service := "Netflix", Price := 100, UserID := "u1",
                  CreatedAt := Time.zero, UpdatedAt := Time.zero, dates := dates } }

/-- The in-memory service behind a storage whose lookup by id always fails, as
when the context of the lookup has expired; the other statements work. -/
def blindLookupService (ttl : Nat) : Service World :=
  { memService ttl with
    repo := { tableCRUD with
      GetByID := fun w _ => ((none, some (Error.external "context deadline exceeded")), w) } }

/-! ## Vocabulary of the specification -/

/-- The character of a decimal digit `d < 10`. -/
def digitChar (d : Nat) : Char := Char.ofNat (48 + d)

/-- The text `MM-YYYY` of month `m` and year `y`: two month digits, `-`, four year
digits. -/
def monthYearText (m y : Nat) : String :=
  String.mk [digitChar (m / 10), digitChar (m % 10), '-', digitChar (y / 1000),
    digitChar (y / 100 % 10), digitChar (y / 10 % 10), digitChar (y % 10)]

/-- A text of the form `MM-YYYY`: month 01..12 and year 0000..9999. -/
def IsMonthYearText (s : String) : Prop :=
  ∃ m y : Nat, 1 ≤ m ∧ m ≤ 12 ∧ y ≤ 9999 ∧ s = monthYearText m y

/-- Day of month 1 and time of day 00:00:00. -/
def Time.IsMonthStart (t : Time) : Prop :=
  t.day = 1 ∧ t.hour = 0 ∧ t.minute = 0 ∧ t.second = 0 ∧ t.nanosecond = 0

instance (t : Time) : Decidable t.IsMonthStart := by
  unfold Time.IsMonthStart; exact inferInstance

/-- The period `[start; end]` of a subscription (no end: unbounded) and the
interval `[from; to]` have an instant in common. -/
def periodIntersects (start : Time) (end_ : Option Time) (from_ to_ : Time) : Prop :=
  ∃ t : Time, start.le t ∧ (∀ e, end_ = some e → t.le e) ∧ from_.le t ∧ t.le to_

/-- The period `[start; end]` of a subscription (no end: unbounded) contains the
instant `t`. -/
def periodContains (start : Time) (end_ : Option Time) (t : Time) : Prop :=
  start.le t ∧ (∀ e, end_ = some e → t.le e)

/-- The row invariant of the data model: start date at or before the end date
when an end date is present. -/
def Subscription.WellFormed (r : Subscription) : Prop :=
  ∀ e, r.EndDate = some e → r.StartDate.toTime.le e.toTime

/-- What holds of every run of a publisher of buffer size `N` started on the
transport state `t0`: the messages sent, the message held by the worker and the
buffered messages are, in this order, the accepted messages; the transport has
received the sent messages one after the other; the buffer holds at most `N`
messages; a parked worker waits on an empty open channel; a finished worker has
left a closed, empty channel. -/
def PublisherRun.Consistent {τ : Type} (ch : AmqpChannel τ) (t0 : τ) (N : Nat)
    (x : PublisherRun τ) : Prop :=
  x.sent ++ x.pub.inflight.toList ++ x.pub.queue = x.accepted ∧
  x.transport = x.sent.foldl (fun t m => (ch.Publish t m).2) t0 ∧
  x.pub.capacity = N ∧
  x.pub.queue.length ≤ N ∧
  (x.pub.parked = true →
    x.pub.closed = false ∧ x.pub.queue = [] ∧ x.pub.inflight = none ∧ x.pub.done = false) ∧
  (x.pub.done = true → x.pub.closed = true ∧ x.pub.queue = [] ∧ x.pub.inflight = none)

/-- The number that a run of decimal digits denotes. -/
def decimalValue (ds : List Char) : Nat :=
  ds.foldl (fun acc d => acc * 10 + (d.toNat - 48)) 0

/-- A base-10 signed 64-bit integer as a text: an optional sign, then one or more
decimal digits, denoting a number from `-2^63` to `2^63 - 1`. -/
def IsInt64Text (s : String) : Prop :=
  ∃ (sign ds : List Char),
    (sign = [] ∨ sign = ['+'] ∨ sign = ['-']) ∧
    ds ≠ [] ∧ (∀ d ∈ ds, 48 ≤ d.toNat ∧ d.toNat ≤ 57) ∧
    s.data = sign ++ ds ∧
    (if sign = ['-'] then decimalValue ds ≤ 2 ^ 63 else decimalValue ds < 2 ^ 63)

/-- The cache invalidation for a user, stated on the cache collaborator: the world
after every key that `Scan` yields for the pattern `summary:<user>:*` has been
deleted, one key after the other.  Without a cache the world stays as it is. -/
def invalidatedWorld {σ : Type} (s : Service σ) (w : σ) (userID : String) : σ :=
  match s.summary.redis with
  | none => w
  | some _ =>
    (s.keys.Scan w ("summary:" ++ userID ++ ":*")).1.foldl (fun w1 k => (s.keys.Del w1 k).2)
      (s.keys.Scan w ("summary:" ++ userID ++ ":*")).2

/-- The calls of the cache invalidation for a user: the scan of the pattern
`summary:<user>:*`, then one deletion per key found.  Without a cache there is
none. -/
def invalidationCalls {σ : Type} (s : Service σ) (w : σ) (userID : String) : List Call :=
  match s.summary.redis with
  | none => []
  | some _ =>
    Call.redisScan ("summary:" ++ userID ++ ":*") ::
      (s.keys.Scan w ("summary:" ++ userID ++ ":*")).1.map Call.redisDel

/-- The publication of an event, stated on the publisher: the world after
`Publish("subscriptions", routingKey, body)`.  Without a publisher the world stays
as it is. -/
def publishedWorld {σ : Type} (s : Service σ) (w : σ) (routingKey body : String) : σ :=
  match s.publisher with
  | none => w
  | some p => (p.Publish w "subscriptions" routingKey body).2

/-- The call of the publication of an event; without a publisher there is none. -/
def publicationCalls {σ : Type} (s : Service σ) (routingKey body : String) : List Call :=
  match s.publisher with
  | none => []
  | some _ => [Call.publish "subscriptions" routingKey body]

/-! ## Lemmas: order of timestamps -/

theorem Time.le_refl (a : Time) : a.le a := by
  unfold Time.le Time.lt; omega

theorem Time.le_trans {a b c : Time} (h1 : a.le b) (h2 : b.le c) : a.le c := by
  unfold Time.le Time.lt at *; omega

theorem Time.le_total (a b : Time) : a.le b ∨ b.le a := by
  unfold Time.le Time.lt; omega

theorem Time.le_of_lt {a b : Time} (h : a.lt b) : a.le b := by
  unfold Time.le Time.lt at *; omega

theorem Time.lt_of_lt_of_le {a b c : Time} (h1 : a.lt b) (h2 : b.le c) : a.lt c := by
  unfold Time.le Time.lt at *; omega

theorem Time.lt_of_le_of_lt {a b c : Time} (h1 : a.le b) (h2 : b.lt c) : a.lt c := by
  unfold Time.le Time.lt at *; omega

/-! ## Lemmas: digits and the parser -/

theorem digitChar_toNat (d : Nat) (h : d < 10) : (digitChar d).toNat = 48 + d := by
  interval_cases d <;> rfl

theorem digitChar_digitVal (c : Char) (h1 : 48 ≤ c.toNat) (h2 : c.toNat ≤ 57) :
    digitChar (digitVal c) = c := by
  unfold digitChar digitVal
  have : 48 + (c.toNat - 48) = c.toNat := by omega
  rw [this, Char.ofNat_toNat]


theorem char_ne_of_toNat {c d : Char} (h : c.toNat ≠ d.toNat) : c ≠ d := by
  intro e; exact h (by rw [e])

theorem Parse_digits (c0 c1 c3 c4 c5 c6 : Char)
    (h0 : 48 ≤ c0.toNat ∧ c0.toNat ≤ 57) (h1 : 48 ≤ c1.toNat ∧ c1.toNat ≤ 57)
    (h3 : 48 ≤ c3.toNat ∧ c3.toNat ≤ 57) (h4 : 48 ≤ c4.toNat ∧ c4.toNat ≤ 57)
    (h5 : 48 ≤ c5.toNat ∧ c5.toNat ≤ 57) (h6 : 48 ≤ c6.toNat ∧ c6.toNat ≤ 57)
    (hm : 1 ≤ digitVal c0 * 10 + digitVal c1 ∧ digitVal c0 * 10 + digitVal c1 ≤ 12) :
    Parse (String.mk [c0, c1, '-', c3, c4, c5, c6]) =
      .ok (Date ((((digitVal c3 * 10 + digitVal c4) * 10 + digitVal c5) * 10 + digitVal c6 : Nat) : Int)
        (digitVal c0 * 10 + digitVal c1) 1 0 0 0 0) := by
  have n1 : c3 ≠ '-' := char_ne_of_toNat (by simp; omega)
  have n2 : c3 ≠ '+' := char_ne_of_toNat (by simp; omega)
  simp [Parse, getnum, isDigit, skip, atoi, leadingInt, leadingIntFrom, h0, h1, h3, h4, h5, h6, n1, n2]
  unfold digitVal at *
  rw [if_neg (by omega)]
  repeat rw [if_neg (by omega)]
  simp [Date]
  omega

theorem getnum_fixed_some {l r : List Char} {n : Nat} (h : getnum l true = some (n, r)) :
    ∃ c0 c1, l = c0 :: c1 :: r ∧ (48 ≤ c0.toNat ∧ c0.toNat ≤ 57) ∧
      (48 ≤ c1.toNat ∧ c1.toNat ≤ 57) ∧ n = digitVal c0 * 10 + digitVal c1 := by
  rcases l with _ | ⟨c0, _ | ⟨c1, rest⟩⟩
  · simp [getnum, isDigit] at h
  · simp [getnum, isDigit] at h
  · simp [getnum, isDigit] at h
    obtain ⟨⟨h0, h1⟩, h2, h3, h4⟩ := h
    exact ⟨c0, c1, by rw [h4], ⟨h0, h1⟩, h2, h3.symm⟩

theorem skip_dash_some {v r : List Char} (h : skip v ['-'] = some r) : v = '-' :: r := by
  rcases v with _ | ⟨c, rest⟩
  · simp [skip] at h
  · simp [skip] at h
    obtain ⟨h1, h2⟩ := h
    rw [h1, h2]

theorem leadingIntFrom_nil {l : List Char} {x q : Nat}
    (h : leadingIntFrom x l = some (q, [])) :
    (∀ c ∈ l, 48 ≤ c.toNat ∧ c.toNat ≤ 57) ∧
      q = l.foldl (fun acc c => acc * 10 + c.toNat - 48) x := by
  induction l generalizing x with
  | nil => simp [leadingIntFrom] at h; simp [h]
  | cons c rest ih =>
    simp only [leadingIntFrom] at h
    split_ifs at h with h1 h2 h3
    · simp at h
    · obtain ⟨ih1, ih2⟩ := ih h
      refine ⟨?_, by simpa using ih2⟩
      intro d hd
      rcases List.mem_cons.mp hd with rfl | hd
      · omega
      · exact ih1 d hd

theorem atoi_four {a b c d : Char} {y : Int} (ha : 48 ≤ a.toNat ∧ a.toNat ≤ 57)
    (h : atoi [a, b, c, d] = some y) :
    (48 ≤ b.toNat ∧ b.toNat ≤ 57) ∧ (48 ≤ c.toNat ∧ c.toNat ≤ 57) ∧
      (48 ≤ d.toNat ∧ d.toNat ≤ 57) ∧
      y = ((((digitVal a * 10 + digitVal b) * 10 + digitVal c) * 10 + digitVal d : Nat) : Int) := by
  have n1 : a ≠ '-' := char_ne_of_toNat (by simp; omega)
  have n2 : a ≠ '+' := char_ne_of_toNat (by simp; omega)
  simp only [atoi, leadingInt, n1, n2, decide_False, or_self, if_false] at h
  split at h
  · simp at h
  · rename_i q rem hq
    have hnil : rem = [] := by
      by_contra hne
      have : rem.length > 0 := List.length_pos.mpr hne
      simp [this] at h
    subst hnil
    obtain ⟨hd, hv⟩ := leadingIntFrom_nil hq
    have hb := hd b (by simp)
    have hc := hd c (by simp)
    have hd' := hd d (by simp)
    refine ⟨hb, hc, hd', ?_⟩
    have hq2 : q = ((digitVal a * 10 + digitVal b) * 10 + digitVal c) * 10 + digitVal d := by
      rw [hv]
      simp only [List.foldl, digitVal]
      omega
    simp at h
    rw [← h, hq2]

theorem Parse_ok_inv {s : String} {t : Time} (h : Parse s = .ok t) :
    ∃ m y : Nat, 1 ≤ m ∧ m ≤ 12 ∧ y ≤ 9999 ∧ s = monthYearText m y ∧
      t = Date (y : Int) m 1 0 0 0 0 := by
  obtain ⟨l⟩ := s
  unfold Parse at h
  simp only at h
  split at h
  · simp at h
  · rename_i month value1 hg
    obtain ⟨c0, c1, hl, d0, d1, hm⟩ := getnum_fixed_some hg
    split at h
    · simp at h
    · rename_i hr
      split at h
      · simp at h
      · rename_i value2 hs
        have hv1 := skip_dash_some hs
        split at h
        · simp at h
        · rename_i hlen
          split at h
          · simp at h
          · rename_i year ha
            split at h
            · simp at h
            · rename_i hrest
              have hlen4 : value2.length = 4 := by
                simp only [List.length_drop] at hrest
                omega
              rcases value2 with _ | ⟨a, _ | ⟨b, _ | ⟨c, _ | ⟨d, _ | ⟨e, r⟩⟩⟩⟩⟩ <;>
                simp at hlen4
              have da : 48 ≤ a.toNat ∧ a.toNat ≤ 57 := by
                simp [isDigit] at hlen
                omega
              obtain ⟨db, dc, dd, hy⟩ := atoi_four da (by simpa using ha)
              simp only [Except.ok.injEq] at h
              unfold digitVal at hm hy
              refine ⟨month, ((digitVal a * 10 + digitVal b) * 10 + digitVal c) * 10 + digitVal d,
                by omega, by omega, by unfold digitVal; omega, ?_, ?_⟩
              · subst hl hv1
                have e0 : month / 10 = digitVal c0 := by unfold digitVal; omega
                have e1 : month % 10 = digitVal c1 := by unfold digitVal; omega
                have e3 : (((digitVal a * 10 + digitVal b) * 10 + digitVal c) * 10 + digitVal d) / 1000
                    = digitVal a := by unfold digitVal; omega
                have e4 : (((digitVal a * 10 + digitVal b) * 10 + digitVal c) * 10 + digitVal d) / 100 % 10
                    = digitVal b := by unfold digitVal; omega
                have e5 : (((digitVal a * 10 + digitVal b) * 10 + digitVal c) * 10 + digitVal d) / 10 % 10
                    = digitVal c := by unfold digitVal; omega
                have e6 : (((digitVal a * 10 + digitVal b) * 10 + digitVal c) * 10 + digitVal d) % 10
                    = digitVal d := by unfold digitVal; omega
                simp only [monthYearText, e0, e1, e3, e4, e5, e6]
                rw [digitChar_digitVal c0 d0.1 d0.2, digitChar_digitVal c1 d1.1 d1.2,
                  digitChar_digitVal a da.1 da.2, digitChar_digitVal b db.1 db.2,
                  digitChar_digitVal c dc.1 dc.2, digitChar_digitVal d dd.1 dd.2]
              · rw [← h, hy]
                rfl

theorem digitVal_digitChar (d : Nat) (h : d < 10) : digitVal (digitChar d) = d := by
  unfold digitVal; rw [digitChar_toNat d h]; omega

theorem Parse_monthYearText (m y : Nat) (h1 : 1 ≤ m) (h2 : m ≤ 12) (h3 : y ≤ 9999) :
    Parse (monthYearText m y) = .ok (Date (y : Int) m 1 0 0 0 0) := by
  have b0 : m / 10 < 10 := by omega
  have b1 : m % 10 < 10 := by omega
  have b3 : y / 1000 < 10 := by omega
  have b4 : y / 100 % 10 < 10 := by omega
  have b5 : y / 10 % 10 < 10 := by omega
  have b6 : y % 10 < 10 := by omega
  unfold monthYearText
  rw [Parse_digits _ _ _ _ _ _
    (by rw [digitChar_toNat _ b0]; omega) (by rw [digitChar_toNat _ b1]; omega)
    (by rw [digitChar_toNat _ b3]; omega) (by rw [digitChar_toNat _ b4]; omega)
    (by rw [digitChar_toNat _ b5]; omega) (by rw [digitChar_toNat _ b6]; omega)
    (by rw [digitVal_digitChar _ b0, digitVal_digitChar _ b1]; omega)]
  rw [digitVal_digitChar _ b0, digitVal_digitChar _ b1, digitVal_digitChar _ b3,
    digitVal_digitChar _ b4, digitVal_digitChar _ b5, digitVal_digitChar _ b6]
  have em : m / 10 * 10 + m % 10 = m := by omega
  have ey : ((y / 1000 * 10 + y / 100 % 10) * 10 + y / 10 % 10) * 10 + y % 10 = y := by omega
  rw [em, ey]

/-! ## Lemmas: trimming quotes -/

theorem dropWhile_append_singleton {α : Type} (p : α → Bool) (r : List α) (x : α) (hx : p x = true) :
    (r ++ [x]).dropWhile p = if r.all p then [] else r.dropWhile p ++ [x] := by
  induction r with
  | nil => simp [List.dropWhile, hx]
  | cons a r ih =>
    by_cases ha : p a = true
    · simp [List.dropWhile, ha, ih]
    · simp [List.dropWhile, ha]

theorem Trim_quoted (s : String) : Trim ("\"" ++ s ++ "\"") '"' = Trim s '"' := by
  obtain ⟨l⟩ := s
  unfold Trim
  congr 1
  have e : ("\"" ++ String.mk l ++ "\"").data = '"' :: (l ++ ['"']) := by
    simp [String.data_append]
  rw [e]
  simp only [List.reverse_cons, List.reverse_append, List.reverse_nil, List.nil_append,
    List.singleton_append, List.cons_append]
  generalize l.reverse = r
  generalize hp : (fun c : Char => decide (c = '"')) = p
  have hq : p '"' = true := by rw [← hp]; simp
  rw [List.dropWhile_cons_of_pos hq, dropWhile_append_singleton _ r '"' hq]
  by_cases hall : r.all p = true
  · have hnil : List.dropWhile p r = [] := by
      rw [List.dropWhile_eq_nil_iff]
      simpa using hall
    simp [hall, hnil]
  · simp only [hall, Bool.false_eq_true, if_false, List.reverse_append, List.reverse_cons,
      List.reverse_nil, List.nil_append, List.singleton_append]
    rw [List.dropWhile_cons_of_pos hq]

theorem parseMonthYear_eq (s : String) :
    parseMonthYear s =
      if Trim s '"' = "" then (MonthYear.mk Time.zero, none)
      else
        match Parse (Trim s '"') with
        | .error err => (MonthYear.mk Time.zero, some (Error.invalidDateFormat err))
        | .ok t => (MonthYear.mk t, none) := by
  unfold parseMonthYear MonthYear.UnmarshalJSON
  simp only [Trim_quoted]
  split_ifs with h
  · rfl
  · cases hp : Parse (Trim s '"') <;> rfl

theorem Trim_monthYearText (m y : Nat) (h1 : m ≤ 12) :
    Trim (monthYearText m y) '"' = monthYearText m y := by
  have q : ∀ d, d < 10 → digitChar d ≠ '"' := fun d hd =>
    char_ne_of_toNat (by rw [digitChar_toNat d hd]; simp; omega)
  have c0 := q (m / 10) (by omega)
  have c6 := q (y % 10) (by omega)
  simp [Trim, monthYearText, List.dropWhile, c0, c6]

theorem monthYearText_ne_empty (m y : Nat) : monthYearText m y ≠ "" := by
  intro h
  have := congrArg String.data h
  simp [monthYearText] at this

theorem parseMonthYear_monthYearText (m y : Nat) (h1 : 1 ≤ m) (h2 : m ≤ 12) (h3 : y ≤ 9999) :
    parseMonthYear (monthYearText m y) = (MonthYear.mk (Date (y : Int) m 1 0 0 0 0), none) := by
  rw [parseMonthYear_eq, Trim_monthYearText m y h2, if_neg (monthYearText_ne_empty m y),
    Parse_monthYearText m y h1 h2 h3]

/-! ## Lemmas: the range normaliser -/

theorem parseMonthYear_empty : parseMonthYear "" = (MonthYear.mk Time.zero, none) := by
  decide

theorem parseMonthYear_of_IsMonthYearText {s : String} (h : IsMonthYearText s) :
    ∃ m y : Nat, 1 ≤ m ∧ m ≤ 12 ∧ y ≤ 9999 ∧ s = monthYearText m y ∧
      parseMonthYear s = (MonthYear.mk (Date (y : Int) m 1 0 0 0 0), none) := by
  obtain ⟨m, y, h1, h2, h3, rfl⟩ := h
  exact ⟨m, y, h1, h2, h3, rfl, parseMonthYear_monthYearText m y h1 h2 h3⟩

theorem parseMonthYear_cases (s : String) :
    (∃ t : Time, t.IsMonthStart ∧ parseMonthYear s = (MonthYear.mk t, none)) ∨
      (∃ pe, parseMonthYear s = (MonthYear.mk Time.zero, some (Error.invalidDateFormat pe))) := by
  rw [parseMonthYear_eq]
  split_ifs with h
  · exact Or.inl ⟨Time.zero, by decide, rfl⟩
  · cases hp : Parse (Trim s '"') with
    | error pe => exact Or.inr ⟨pe, rfl⟩
    | ok t =>
      obtain ⟨m, y, -, -, -, -, rfl⟩ := Parse_ok_inv hp
      exact Or.inl ⟨_, by simp [Time.IsMonthStart, Date], rfl⟩

theorem normalizeRangeMY_eq (from_ to_ : String) :
    normalizeRangeMY from_ to_ =
      if from_ ≠ "" ∧ (parseMonthYear from_).2 ≠ none then
        (Time.zero, Time.zero, (parseMonthYear from_).2)
      else if to_ ≠ "" ∧ (parseMonthYear to_).2 ≠ none then
        (Time.zero, Time.zero, (parseMonthYear to_).2)
      else
        (if from_ = "" then Date 1 1 1 0 0 0 0 else (parseMonthYear from_).1.toTime,
          if to_ = "" then Date 9999 12 1 0 0 0 0 else (parseMonthYear to_).1.toTime, none) := by
  unfold normalizeRangeMY
  by_cases hf : from_ = ""
  · by_cases ht : to_ = ""
    · simp [hf, ht]
    · rcases parseMonthYear_cases to_ with ⟨t, -, h⟩ | ⟨pe, h⟩ <;> simp [hf, ht, h]
  · rcases parseMonthYear_cases from_ with ⟨t, -, h⟩ | ⟨pe, h⟩
    · by_cases ht : to_ = ""
      · simp [hf, ht, h]
      · rcases parseMonthYear_cases to_ with ⟨u, -, h2⟩ | ⟨pe, h2⟩ <;> simp [hf, ht, h, h2]
    · simp [hf, h]

/-! ## Claims about `MonthYear` -/

/-- C1, evaluated on the text `07-0999`, which has the form `MM-YYYY`: it parses to
July of the year 999, and `MarshalJSON` of that value renders `"07-999"`, with a
three-digit year, not the text that was parsed. -/
theorem C1_marshal_drops_leading_zeros_of_year :
    "07-0999" = monthYearText 7 999 ∧
    parseMonthYear "07-0999" = (MonthYear.mk (Date 999 7 1 0 0 0 0), none) ∧
    MonthYear.MarshalJSON (parseMonthYear "07-0999").1 = ("\"07-999\"", none) ∧
    (MonthYear.MarshalJSON (parseMonthYear "07-0999").1).1 ≠ "\"" ++ "07-0999" ++ "\"" := by
  decide

/-- C2: parsing the empty text gives the zero timestamp and no error, and parsing
the text `MM-YYYY` of month `m` (1..12) and year `y` (0..9999) gives, with no
error, day 1 of that month at 00:00:00 UTC; the same holds for `UnmarshalJSON` on
the quoted text, whatever the receiver held before. -/
theorem C2_parse_empty_and_valid (m y : Nat) (h1 : 1 ≤ m) (h2 : m ≤ 12) (h3 : y ≤ 9999)
    (my : MonthYear) :
    parseMonthYear "" = (MonthYear.mk (Date 1 1 1 0 0 0 0), none) ∧
    MonthYear.UnmarshalJSON my "\"\"" = (MonthYear.mk (Date 1 1 1 0 0 0 0), none) ∧
    parseMonthYear (monthYearText m y) = (MonthYear.mk (Date (y : Int) m 1 0 0 0 0), none) ∧
    MonthYear.UnmarshalJSON my ("\"" ++ monthYearText m y ++ "\"")
      = (MonthYear.mk (Date (y : Int) m 1 0 0 0 0), none) := by
  refine ⟨by decide, by simp [MonthYear.UnmarshalJSON, Trim, Time.zero],
    parseMonthYear_monthYearText m y h1 h2 h3, ?_⟩
  unfold MonthYear.UnmarshalJSON
  simp only [Trim_quoted, Trim_monthYearText m y h2, if_neg (monthYearText_ne_empty m y),
    Parse_monthYearText m y h1 h2 h3]

/-- C2 at July 2025: the text is `07-2025` and it parses to 2025-07-01T00:00:00Z. -/
theorem C2_parse_empty_and_valid_witness :
    monthYearText 7 2025 = "07-2025" ∧
    parseMonthYear (monthYearText 7 2025) = (MonthYear.mk (Date 2025 7 1 0 0 0 0), none) :=
  ⟨by decide,
    (C2_parse_empty_and_valid 7 2025 (by decide) (by decide) (by decide)
      (MonthYear.mk Time.zero)).2.2.1⟩

/-- C3 fails on the text made of one double-quote character: it is neither empty
nor of the form `MM-YYYY`, yet parsing returns the zero value and no error. -/
theorem C3_quote_only_text_accepted :
    "\"" ≠ "" ∧ ¬ IsMonthYearText "\"" ∧
    parseMonthYear "\"" = (MonthYear.mk Time.zero, none) := by
  refine ⟨by decide, ?_, by decide⟩
  rintro ⟨m, y, -, -, -, h⟩
  have := congrArg String.length h
  simp [monthYearText, String.length] at this

/-- C3 as amended: a text that, once its leading and trailing double-quote
characters are removed, is neither empty nor of the form `MM-YYYY` is rejected by
`parseMonthYear` and by `UnmarshalJSON` (which keeps its receiver), with the error
whose message begins `invalid date format, expect MM-YYYY: `; `13-2025` and
`2025-07` are such texts. -/
theorem C3_malformed_text_rejected (s : String) (my : MonthYear)
    (h1 : Trim s '"' ≠ "") (h2 : ¬ IsMonthYearText (Trim s '"')) :
    (∃ pe : ParseError,
      parseMonthYear s = (MonthYear.mk Time.zero, some (Error.invalidDateFormat pe)) ∧
      MonthYear.UnmarshalJSON my s = (my, some (Error.invalidDateFormat pe)) ∧
      ∀ quote : String → String,
        (Error.invalidDateFormat pe).message quote
          = "invalid date format, expect MM-YYYY: " ++ pe.Error quote) ∧
    (parseMonthYear "13-2025").2 ≠ none ∧ (parseMonthYear "2025-07").2 ≠ none := by
  refine ⟨?_, by decide, by decide⟩
  cases hp : Parse (Trim s '"') with
  | ok t =>
    obtain ⟨m, y, a, b, c, d, -⟩ := Parse_ok_inv hp
    exact absurd ⟨m, y, a, b, c, d⟩ h2
  | error pe =>
    refine ⟨pe, ?_, ?_, fun _ => rfl⟩
    · rw [parseMonthYear_eq, if_neg h1, hp]
    · unfold MonthYear.UnmarshalJSON
      simp only [if_neg h1, hp]

/-- C3 as amended, at the text `13-2025`: it is rejected, the parser reporting the
month as out of range. -/
theorem C3_malformed_text_rejected_witness :
    ∃ pe : ParseError,
      parseMonthYear "13-2025" = (MonthYear.mk Time.zero, some (Error.invalidDateFormat pe)) ∧
      MonthYear.UnmarshalJSON (MonthYear.mk Time.zero) "13-2025"
        = (MonthYear.mk Time.zero, some (Error.invalidDateFormat pe)) ∧
      ∀ quote : String → String,
        (Error.invalidDateFormat pe).message quote
          = "invalid date format, expect MM-YYYY: " ++ pe.Error quote :=
  (C3_malformed_text_rejected "13-2025" (MonthYear.mk Time.zero) (by decide)
    (by
      rintro ⟨m, y, h1, h2, h3, h⟩
      have hp := Parse_monthYearText m y h1 h2 h3
      rw [← h] at hp
      revert hp
      have e : Trim "13-2025" '"' = "13-2025" := by decide
      rw [e]
      intro hp
      have hq : ∃ pe, Parse "13-2025" = Except.error pe := ⟨_, rfl⟩
      obtain ⟨pe, hq⟩ := hq
      rw [hq] at hp
      cases hp)).1

/-- C4 fails for `Scan`: a stored timestamp on day 15 at 13:30 is taken over as it
is, so the scanned `MonthYear` has neither day 1 nor a zero time of day. -/
theorem C4_scan_keeps_day_and_clock :
    MonthYear.Scan (MonthYear.mk Time.zero) (DriverValue.time (Date 2025 7 15 13 30 0 0))
      = (MonthYear.mk (Date 2025 7 15 13 30 0 0), none) ∧
    ¬ (MonthYear.mk (Date 2025 7 15 13 30 0 0)).toTime.IsMonthStart := by
  decide

/-- C4 as amended: a value set by a successful `UnmarshalJSON`, the value returned
by `parseMonthYear`, and both timestamps returned by `normalizeRangeMY` (parsed
bound or sentinel) have day 1 and time of day 00:00:00, while `Scan` stores the
timestamp handed over by storage unchanged. -/
theorem C4_month_start_invariant (my my1 : MonthYear) (data : String)
    (h : MonthYear.UnmarshalJSON my data = (my1, none)) (s from_ to_ : String) (t : Time) :
    my1.toTime.IsMonthStart ∧
    (parseMonthYear s).1.toTime.IsMonthStart ∧
    (normalizeRangeMY from_ to_).1.IsMonthStart ∧
    (normalizeRangeMY from_ to_).2.1.IsMonthStart ∧
    (Date 1 1 1 0 0 0 0).IsMonthStart ∧ (Date 9999 12 1 0 0 0 0).IsMonthStart ∧
    MonthYear.Scan my (DriverValue.time t) = (MonthYear.mk t, none) := by
  have hs : ∀ x : String, (parseMonthYear x).1.toTime.IsMonthStart := by
    intro x
    rcases parseMonthYear_cases x with ⟨u, hu, e⟩ | ⟨pe, e⟩
    · rw [e]; exact hu
    · rw [e]; exact (by decide : Time.zero.IsMonthStart)
  refine ⟨?_, hs s, ?_, ?_, by decide, by decide, rfl⟩
  · unfold MonthYear.UnmarshalJSON at h
    simp only at h
    split_ifs at h with he
    · simp only [Prod.mk.injEq, and_true] at h
      rw [← h]; decide
    · cases hp : Parse (Trim data '"') with
      | error pe => rw [hp] at h; simp at h
      | ok u =>
        rw [hp] at h
        simp only [Prod.mk.injEq, and_true] at h
        obtain ⟨m, y, -, -, -, -, rfl⟩ := Parse_ok_inv hp
        rw [← h]
        simp [Time.IsMonthStart, Date]
  · rw [normalizeRangeMY_eq]
    split_ifs <;> dsimp only <;> first
      | exact (by decide : Time.zero.IsMonthStart)
      | exact (by decide : (Date 1 1 1 0 0 0 0).IsMonthStart)
      | exact hs from_
  · rw [normalizeRangeMY_eq]
    split_ifs <;> dsimp only <;> first
      | exact (by decide : Time.zero.IsMonthStart)
      | exact (by decide : (Date 9999 12 1 0 0 0 0).IsMonthStart)
      | exact hs to_

/-- C4 as amended, on the JSON text `"07-2025"` and the bounds `07-2025`, `08-2025`. -/
theorem C4_month_start_invariant_witness :
    (MonthYear.mk (Date 2025 7 1 0 0 0 0)).toTime.IsMonthStart ∧
    (normalizeRangeMY "07-2025" "08-2025").1.IsMonthStart :=
  have h := C4_month_start_invariant (MonthYear.mk Time.zero) (MonthYear.mk (Date 2025 7 1 0 0 0 0))
    "\"07-2025\"" (by decide) "07-2025" "07-2025" "08-2025" Time.zero
  ⟨h.1, h.2.2.1⟩

/-! ## The round trip on four-digit years -/

theorem Nat_digitChar_eq (d : Nat) (h : d < 10) : Nat.digitChar d = digitChar d := by
  interval_cases d <;> rfl

theorem toDigitsCore_succ (fuel n : Nat) (ds : List Char) :
    Nat.toDigitsCore 10 (fuel + 1) n ds =
      if n / 10 = 0 then Nat.digitChar (n % 10) :: ds
      else Nat.toDigitsCore 10 fuel (n / 10) (Nat.digitChar (n % 10) :: ds) := by
  rfl

theorem fmtNat_four (y : Nat) (h1 : 1000 ≤ y) (h2 : y ≤ 9999) :
    fmtNat y = [digitChar (y / 1000), digitChar (y / 100 % 10), digitChar (y / 10 % 10),
      digitChar (y % 10)] := by
  obtain ⟨k, rfl⟩ := Nat.exists_eq_add_of_le h1
  have a1 : (1000 + k) / 10 ≠ 0 := by omega
  have a2 : (1000 + k) / 10 / 10 ≠ 0 := by omega
  have a3 : (1000 + k) / 10 / 10 / 10 ≠ 0 := by omega
  have a4 : (1000 + k) / 10 / 10 / 10 / 10 = 0 := by omega
  have e : 1000 + k + 1 = (k + 997) + 1 + 1 + 1 + 1 := by omega
  unfold fmtNat Nat.toDigits
  rw [e, toDigitsCore_succ, if_neg a1, toDigitsCore_succ, if_neg a2, toDigitsCore_succ,
    if_neg a3, toDigitsCore_succ, if_pos a4]
  rw [Nat_digitChar_eq _ (by omega), Nat_digitChar_eq _ (by omega), Nat_digitChar_eq _ (by omega),
    Nat_digitChar_eq _ (by omega)]
  have b1 : (1000 + k) / 10 / 10 / 10 % 10 = (1000 + k) / 1000 := by omega
  have b2 : (1000 + k) / 10 / 10 % 10 = (1000 + k) / 100 % 10 := by omega
  rw [b1, b2]

theorem fmt02d_month (m : Nat) (h1 : 1 ≤ m) (h2 : m ≤ 12) :
    fmt02d m = [digitChar (m / 10), digitChar (m % 10)] := by
  interval_cases m <;> decide

/-- For the texts `MM-YYYY` whose year is 1000..9999 the round trip holds:
`MarshalJSON` of the parsed value renders the text between quotes. -/
theorem marshal_parse_roundtrip_of_four_digit_year (m y : Nat) (h1 : 1 ≤ m) (h2 : m ≤ 12)
    (h3 : 1000 ≤ y) (h4 : y ≤ 9999) :
    MonthYear.MarshalJSON (parseMonthYear (monthYearText m y)).1
      = ("\"" ++ monthYearText m y ++ "\"", none) := by
  rw [parseMonthYear_monthYearText m y h1 h2 h4]
  unfold MonthYear.MarshalJSON
  simp only [Date]
  have ey : fmtd (y : Int) = fmtNat y := rfl
  rw [ey, fmtNat_four y h3 h4, fmt02d_month m h1 h2]
  rfl

/-! ## Claims about `normalizeRangeMY` -/

theorem parseMonthYear_no_error_of_valid {s : String} (h : s = "" ∨ IsMonthYearText s) :
    (parseMonthYear s).2 = none := by
  rcases h with rfl | h
  · decide
  · obtain ⟨m, y, -, -, -, -, e⟩ := parseMonthYear_of_IsMonthYearText h
    rw [e]

/-- C5: with an empty `from` the returned lower bound is 0001-01-01T00:00:00Z and
with an empty `to` the returned upper bound is 9999-12-01T00:00:00Z, in each case
with no error when the other bound is empty or of the form `MM-YYYY`; two empty
bounds give both sentinels and no error. -/
theorem C5_open_bounds_get_sentinels (from_ to_ : String)
    (hf : from_ = "" ∨ IsMonthYearText from_) (ht : to_ = "" ∨ IsMonthYearText to_) :
    ((normalizeRangeMY "" to_).1 = Date 1 1 1 0 0 0 0 ∧ (normalizeRangeMY "" to_).2.2 = none) ∧
    ((normalizeRangeMY from_ "").2.1 = Date 9999 12 1 0 0 0 0 ∧
      (normalizeRangeMY from_ "").2.2 = none) ∧
    normalizeRangeMY "" "" = (Date 1 1 1 0 0 0 0, Date 9999 12 1 0 0 0 0, none) := by
  have ef := parseMonthYear_no_error_of_valid hf
  have et := parseMonthYear_no_error_of_valid ht
  refine ⟨?_, ?_, by decide⟩
  · rw [normalizeRangeMY_eq]
    simp [et]
  · rw [normalizeRangeMY_eq]
    simp [ef]

/-- C5 with `08-2025` as the other bound: `("", "08-2025")` starts at the year-1
sentinel and `("08-2025", "")` ends at the year-9999 sentinel. -/
theorem C5_open_bounds_get_sentinels_witness :
    (normalizeRangeMY "" "08-2025").1 = Date 1 1 1 0 0 0 0 ∧
    (normalizeRangeMY "08-2025" "").2.1 = Date 9999 12 1 0 0 0 0 :=
  have v : IsMonthYearText "08-2025" := ⟨8, 2025, by decide, by decide, by decide, by decide⟩
  have h := C5_open_bounds_get_sentinels "08-2025" "08-2025" (Or.inr v) (Or.inr v)
  ⟨h.1.1, h.2.1.1⟩

/-- C6: for two texts of the form `MM-YYYY`, in whatever order their months come,
`normalizeRangeMY` returns no error and exactly day 1 at 00:00:00 UTC of the month
of `from` and day 1 at 00:00:00 UTC of the month of `to`. -/
theorem C6_two_valid_bounds (m1 y1 m2 y2 : Nat) (h1 : 1 ≤ m1) (h2 : m1 ≤ 12) (h3 : y1 ≤ 9999)
    (k1 : 1 ≤ m2) (k2 : m2 ≤ 12) (k3 : y2 ≤ 9999) :
    normalizeRangeMY (monthYearText m1 y1) (monthYearText m2 y2)
      = (Date (y1 : Int) m1 1 0 0 0 0, Date (y2 : Int) m2 1 0 0 0 0, none) := by
  rw [normalizeRangeMY_eq, parseMonthYear_monthYearText m1 y1 h1 h2 h3,
    parseMonthYear_monthYearText m2 y2 k1 k2 k3]
  simp [monthYearText_ne_empty]

/-- C6 on the inverted pair `08-2025`, `07-2025`: both bounds are returned as they
are, the later one first. -/
theorem C6_two_valid_bounds_witness :
    monthYearText 8 2025 = "08-2025" ∧ monthYearText 7 2025 = "07-2025" ∧
    normalizeRangeMY (monthYearText 8 2025) (monthYearText 7 2025)
      = (Date 2025 8 1 0 0 0 0, Date 2025 7 1 0 0 0 0, none) :=
  ⟨by decide, by decide,
    C6_two_valid_bounds 8 2025 7 2025 (by decide) (by decide) (by decide) (by decide)
      (by decide) (by decide)⟩

/-- C7: `normalizeRangeMY` returns an error exactly when `from` is non-empty and
rejected by `parseMonthYear`, or `to` is non-empty and rejected; then both returned
timestamps are the zero timestamp and the error is the format error of `from` if
`from` is rejected, else that of `to`. -/
theorem C7_error_iff_bound_rejected (from_ to_ : String) :
    ((normalizeRangeMY from_ to_).2.2 ≠ none ↔
      (from_ ≠ "" ∧ (parseMonthYear from_).2 ≠ none) ∨
      (to_ ≠ "" ∧ (parseMonthYear to_).2 ≠ none)) ∧
    ((normalizeRangeMY from_ to_).2.2 ≠ none →
      (normalizeRangeMY from_ to_).1 = Time.zero ∧
      (normalizeRangeMY from_ to_).2.1 = Time.zero ∧
      (normalizeRangeMY from_ to_).2.2 =
        (if from_ ≠ "" ∧ (parseMonthYear from_).2 ≠ none then (parseMonthYear from_).2
          else (parseMonthYear to_).2) ∧
      ∃ pe : ParseError, (normalizeRangeMY from_ to_).2.2 = some (Error.invalidDateFormat pe)) := by
  have hfmt : ∀ x : String, (parseMonthYear x).2 ≠ none →
      ∃ pe : ParseError, (parseMonthYear x).2 = some (Error.invalidDateFormat pe) := by
    intro x hx
    rcases parseMonthYear_cases x with ⟨u, -, e⟩ | ⟨pe, e⟩
    · rw [e] at hx; exact absurd rfl hx
    · exact ⟨pe, by rw [e]⟩
  rw [normalizeRangeMY_eq]
  by_cases hf : from_ ≠ "" ∧ (parseMonthYear from_).2 ≠ none
  · rw [if_pos hf]
    exact ⟨⟨fun _ => Or.inl hf, fun _ => hf.2⟩,
      fun _ => ⟨rfl, rfl, (if_pos hf).symm, hfmt from_ hf.2⟩⟩
  · by_cases ht : to_ ≠ "" ∧ (parseMonthYear to_).2 ≠ none
    · rw [if_neg hf, if_pos ht]
      exact ⟨⟨fun _ => Or.inr ht, fun _ => ht.2⟩,
        fun _ => ⟨rfl, rfl, (if_neg hf).symm, hfmt to_ ht.2⟩⟩
    · rw [if_neg hf, if_neg ht]
      exact ⟨⟨fun h => absurd rfl h, fun h => h.elim (fun a => absurd a hf) (fun a => absurd a ht)⟩,
        fun h => absurd rfl h⟩

/-- C7 on `("13-2025", "2025-07")`, both rejected: the result is an error, both
timestamps are zero and the error is the one of the first bound, `13-2025`. -/
theorem C7_error_iff_bound_rejected_witness :
    (normalizeRangeMY "13-2025" "2025-07").1 = Time.zero ∧
    (normalizeRangeMY "13-2025" "2025-07").2.1 = Time.zero ∧
    (normalizeRangeMY "13-2025" "2025-07").2.2 = (parseMonthYear "13-2025").2 :=
  have h := (C7_error_iff_bound_rejected "13-2025" "2025-07").2 (by decide)
  ⟨h.1, h.2.1, h.2.2.1.trans (if_pos (by decide))⟩

/-! ## Claims about the storage summary query -/

theorem summaryWhere_true_iff (userID service : String) (from_ to_ : Time) (r : Subscription) :
    summaryWhere userID service from_ to_ r = some true ↔
      r.UserID = userID ∧ (service = "" ∨ r.Service = service) ∧
        r.StartDate.toTime.le to_ ∧ ∀ e, r.EndDate = some e → from_.le e.toTime := by
  unfold summaryWhere sqlLe sqlGe sqlIsNull
  cases he : r.EndDate with
  | none =>
    by_cases h1 : r.UserID = userID <;> by_cases h2 : service = "" <;>
      by_cases h3 : r.Service = service <;> by_cases h4 : r.StartDate.toTime.le to_ <;>
      simp [sqlAnd, sqlOr, h1, h2, h3, h4]
  | some e =>
    by_cases h1 : r.UserID = userID <;> by_cases h2 : service = "" <;>
      by_cases h3 : r.Service = service <;> by_cases h4 : r.StartDate.toTime.le to_ <;>
      by_cases h5 : from_.le e.toTime <;>
      simp [sqlAnd, sqlOr, h1, h2, h3, h4, h5]

theorem sqlCoalesce_sqlSum (l : List Int) : sqlCoalesce (sqlSum l) 0 = l.sum := by
  cases l <;> simp [sqlSum, sqlCoalesce]

theorem periodIntersects_iff (start : Time) (end_ : Option Time) (from_ to_ : Time)
    (hft : from_.le to_) (hwf : ∀ e, end_ = some e → start.le e) :
    periodIntersects start end_ from_ to_ ↔ start.le to_ ∧ ∀ e, end_ = some e → from_.le e := by
  constructor
  · rintro ⟨t, h1, h2, h3, h4⟩
    exact ⟨Time.le_trans h1 h4, fun e he => Time.le_trans h3 (h2 e he)⟩
  · rintro ⟨h1, h2⟩
    rcases Time.le_total start from_ with h | h
    · exact ⟨from_, h, h2, Time.le_refl _, hft⟩
    · exact ⟨start, Time.le_refl _, hwf, h, h1⟩

/-- C8 fails on a stored row whose end date precedes its start date (June 2025 to
March 2025): its period holds no instant, so it intersects no interval, yet the
query over `[01-2025; 12-2025]` counts its price. -/
theorem C8_row_ending_before_start_is_counted :
    (Date 2025 1 1 0 0 0 0).le (Date 2025 12 1 0 0 0 0) ∧
    SubscriptionRepo.GetSummary
      [{ ID := 1, Service := "X", Price := 100, UserID := "u1",
         StartDate := MonthYear.mk (Date 2025 6 1 0 0 0 0),
         EndDate := some (MonthYear.mk (Date 2025 3 1 0 0 0 0)),
         CreatedAt := Time.zero, UpdatedAt := Time.zero }]
      "u1" "" (Date 2025 1 1 0 0 0 0) (Date 2025 12 1 0 0 0 0) = (100, none) ∧
    ¬ periodIntersects (Date 2025 6 1 0 0 0 0) (some (Date 2025 3 1 0 0 0 0))
        (Date 2025 1 1 0 0 0 0) (Date 2025 12 1 0 0 0 0) := by
  refine ⟨by decide, by decide, ?_⟩
  rintro ⟨t, h1, h2, -, -⟩
  have h := Time.le_trans h1 (h2 _ rfl)
  revert h
  decide

/-- C8 as amended: when every stored row has its start date at or before its end
date (if it has one) and `from` is at or before `to`, the summary query returns,
with no error, the sum of `price` over exactly the rows of `userID` (of service
`service` unless that is empty) whose period intersects `[from; to]`, and 0 when
there is no such row. -/
theorem C8_summary_sums_intersecting_rows (rows : List Subscription)
    (hwf : ∀ r ∈ rows, r.WellFormed) (userID service : String) (from_ to_ : Time)
    (hft : from_.le to_) :
    ∃ keep : Subscription → Bool,
      (∀ r ∈ rows, keep r = true ↔
        (r.UserID = userID ∧ (service = "" ∨ r.Service = service) ∧
          periodIntersects r.StartDate.toTime (r.EndDate.map MonthYear.toTime) from_ to_)) ∧
      SubscriptionRepo.GetSummary rows userID service from_ to_
        = (((rows.filter keep).map Subscription.Price).sum, none) ∧
      ((∀ r ∈ rows, keep r = false) →
        SubscriptionRepo.GetSummary rows userID service from_ to_ = (0, none)) := by
  refine ⟨fun r => decide (summaryWhere userID service from_ to_ r = some true), ?_, ?_, ?_⟩
  · intro r hr
    have hw : ∀ e, r.EndDate.map MonthYear.toTime = some e → r.StartDate.toTime.le e := by
      intro e he
      cases h : r.EndDate with
      | none => rw [h] at he; simp at he
      | some x =>
        rw [h] at he
        simp only [Option.map_some', Option.some.injEq] at he
        rw [← he]
        exact hwf r hr x h
    rw [decide_eq_true_iff, summaryWhere_true_iff, periodIntersects_iff _ _ _ _ hft hw]
    constructor
    · rintro ⟨a, b, c, d⟩
      refine ⟨a, b, c, ?_⟩
      intro e he
      cases h : r.EndDate with
      | none => rw [h] at he; simp at he
      | some x =>
        rw [h] at he
        simp only [Option.map_some', Option.some.injEq] at he
        rw [← he]
        exact d x h
    · rintro ⟨a, b, c, d⟩
      exact ⟨a, b, c, fun e he => d e.toTime (by rw [he]; rfl)⟩
  · unfold SubscriptionRepo.GetSummary
    simp only [sqlCoalesce_sqlSum]
  · intro hnone
    unfold SubscriptionRepo.GetSummary
    simp only [sqlCoalesce_sqlSum]
    have : rows.filter (fun r => decide (summaryWhere userID service from_ to_ r = some true)) = [] := by
      rw [List.filter_eq_nil_iff]
      intro r hr
      have h := hnone r hr
      simp only at h
      rw [h]
      simp
    rw [this]
    rfl

/-- C8 as amended, on two well-formed rows of `u1` and the interval
`[01-2025; 12-2025]`; both rows intersect it and the total is 140. -/
theorem C8_summary_sums_intersecting_rows_witness :
    SubscriptionRepo.GetSummary [rowActiveSince2020, rowFebToApr2025] "u1" ""
        (Date 2025 1 1 0 0 0 0) (Date 2025 12 1 0 0 0 0) = (140, none) ∧
    ∃ keep : Subscription → Bool,
      (∀ r ∈ [rowActiveSince2020, rowFebToApr2025], keep r = true ↔
        (r.UserID = "u1" ∧ (("" : String) = "" ∨ r.Service = "") ∧
          periodIntersects r.StartDate.toTime (r.EndDate.map MonthYear.toTime)
            (Date 2025 1 1 0 0 0 0) (Date 2025 12 1 0 0 0 0))) ∧
      SubscriptionRepo.GetSummary [rowActiveSince2020, rowFebToApr2025] "u1" ""
          (Date 2025 1 1 0 0 0 0) (Date 2025 12 1 0 0 0 0)
        = ((([rowActiveSince2020, rowFebToApr2025].filter keep).map Subscription.Price).sum,
            none) ∧
      ((∀ r ∈ [rowActiveSince2020, rowFebToApr2025], keep r = false) →
        SubscriptionRepo.GetSummary [rowActiveSince2020, rowFebToApr2025] "u1" ""
          (Date 2025 1 1 0 0 0 0) (Date 2025 12 1 0 0 0 0) = (0, none)) :=
  ⟨by decide,
    C8_summary_sums_intersecting_rows [rowActiveSince2020, rowFebToApr2025]
      (by
        intro r hr e he
        simp only [List.mem_cons, List.mem_singleton, List.not_mem_nil, or_false] at hr
        rcases hr with rfl | rfl
        · simp [rowActiveSince2020] at he
        · simp only [rowFebToApr2025, Option.some.injEq] at he
          rw [← he]
          decide)
      "u1" "" (Date 2025 1 1 0 0 0 0) (Date 2025 12 1 0 0 0 0) (by decide)⟩

/-- C9 fails on a subscription active since January 2020 with no end date: for
the inverted range from 08-2025 to 07-2025 the storage query still selects it and
returns its price 100, and so does the service for the texts `08-2025`, `07-2025`. -/
theorem C9_inverted_range_counts_spanning_row :
    (Date 2025 7 1 0 0 0 0).lt (Date 2025 8 1 0 0 0 0) ∧
    SubscriptionRepo.GetSummary [rowActiveSince2020] "u1" ""
        (Date 2025 8 1 0 0 0 0) (Date 2025 7 1 0 0 0 0) = (100, none) ∧
    (SubscriptionService.GetSummary { repo := tableRepo, redis := none, ttl := 60 }
        [rowActiveSince2020] "u1" "" "08-2025" "07-2025").1 = (100, none) := by
  decide

/-- C9 as amended: for an inverted range (`to` before `from`) the summary query
returns, with no error, the sum of `price` over exactly the rows of `userID` (of
service `service` unless that is empty) whose period contains both `to` and
`from`; it returns 0 when no row's period contains both. -/
theorem C9_inverted_range_sums_spanning_rows (rows : List Subscription)
    (userID service : String) (from_ to_ : Time) (hinv : to_.lt from_) :
    ∃ keep : Subscription → Bool,
      (∀ r ∈ rows, keep r = true ↔
        (r.UserID = userID ∧ (service = "" ∨ r.Service = service) ∧
          periodContains r.StartDate.toTime (r.EndDate.map MonthYear.toTime) to_ ∧
          periodContains r.StartDate.toTime (r.EndDate.map MonthYear.toTime) from_)) ∧
      SubscriptionRepo.GetSummary rows userID service from_ to_
        = (((rows.filter keep).map Subscription.Price).sum, none) ∧
      ((∀ r ∈ rows, keep r = false) →
        SubscriptionRepo.GetSummary rows userID service from_ to_ = (0, none)) := by
  refine ⟨fun r => decide (summaryWhere userID service from_ to_ r = some true), ?_, ?_, ?_⟩
  · intro r _
    rw [decide_eq_true_iff, summaryWhere_true_iff]
    unfold periodContains
    constructor
    · rintro ⟨a, b, c, d⟩
      have hd : ∀ e, r.EndDate.map MonthYear.toTime = some e → from_.le e := by
        intro e he
        cases h : r.EndDate with
        | none => rw [h] at he; simp at he
        | some x =>
          rw [h] at he
          simp only [Option.map_some', Option.some.injEq] at he
          rw [← he]
          exact d x h
      exact ⟨a, b, ⟨c, fun e he => Time.le_trans (Time.le_of_lt hinv) (hd e he)⟩,
        ⟨Time.le_of_lt (Time.lt_of_le_of_lt c hinv), hd⟩⟩
    · rintro ⟨a, b, ⟨c, -⟩, ⟨-, d⟩⟩
      exact ⟨a, b, c, fun e he => d e.toTime (by rw [he]; rfl)⟩
  · unfold SubscriptionRepo.GetSummary
    simp only [sqlCoalesce_sqlSum]
  · intro hnone
    unfold SubscriptionRepo.GetSummary
    simp only [sqlCoalesce_sqlSum]
    have : rows.filter (fun r => decide (summaryWhere userID service from_ to_ r = some true)) = [] := by
      rw [List.filter_eq_nil_iff]
      intro r hr
      have h := hnone r hr
      simp only at h
      rw [h]
      simp
    rw [this]
    rfl

/-- C9 as amended, on a subscription from February to April 2025 and the inverted
range from 08-2025 to 07-2025: its period contains neither bound and the total
is 0. -/
theorem C9_inverted_range_sums_spanning_rows_witness :
    SubscriptionRepo.GetSummary [rowFebToApr2025] "u1" ""
        (Date 2025 8 1 0 0 0 0) (Date 2025 7 1 0 0 0 0) = (0, none) ∧
    ∃ keep : Subscription → Bool,
      (∀ r ∈ [rowFebToApr2025], keep r = true ↔
        (r.UserID = "u1" ∧ (("" : String) = "" ∨ r.Service = "") ∧
          periodContains r.StartDate.toTime (r.EndDate.map MonthYear.toTime)
            (Date 2025 7 1 0 0 0 0) ∧
          periodContains r.StartDate.toTime (r.EndDate.map MonthYear.toTime)
            (Date 2025 8 1 0 0 0 0))) ∧
      SubscriptionRepo.GetSummary [rowFebToApr2025] "u1" ""
          (Date 2025 8 1 0 0 0 0) (Date 2025 7 1 0 0 0 0)
        = ((([rowFebToApr2025].filter keep).map Subscription.Price).sum, none) ∧
      ((∀ r ∈ [rowFebToApr2025], keep r = false) →
        SubscriptionRepo.GetSummary [rowFebToApr2025] "u1" ""
          (Date 2025 8 1 0 0 0 0) (Date 2025 7 1 0 0 0 0) = (0, none)) :=
  ⟨by decide,
    C9_inverted_range_sums_spanning_rows [rowFebToApr2025] "u1" ""
      (Date 2025 8 1 0 0 0 0) (Date 2025 7 1 0 0 0 0) (by decide)⟩

/-! ## Claims about the summary cache key -/

theorem Sprintf_summary_key (userID serviceName from_ to_ : String) :
    String.mk (Sprintf "summary:%s:%s:%s-%s".data [userID, serviceName, from_, to_])
      = "summary:" ++ userID ++ ":" ++ serviceName ++ ":" ++ from_ ++ "-" ++ to_ := by
  have e : "summary:%s:%s:%s-%s".data
      = ['s', 'u', 'm', 'm', 'a', 'r', 'y', ':', '%', 's', ':', '%', 's', ':', '%', 's', '-',
          '%', 's'] := by decide
  rw [e]
  apply String.ext
  simp [Sprintf, String.data_append]

/-- C10: the key built by `GetSummary` is the text
`"summary:" + userID + ":" + serviceName + ":" + from + "-" + to` on the raw
arguments; whatever the collaborators and the world state, every cache call made
by `GetSummary` (the lookup `Get` and the write-back `Set`) carries that key, the
lookup comes first when a cache is configured, and a run that reaches the
write-back ends with `Set` on the same key. -/
theorem C10_summary_cache_key {σ : Type} (s : SubscriptionService σ) (w : σ)
    (userID serviceName from_ to_ : String) :
    String.mk (Sprintf "summary:%s:%s:%s-%s".data [userID, serviceName, from_, to_])
      = "summary:" ++ userID ++ ":" ++ serviceName ++ ":" ++ from_ ++ "-" ++ to_ ∧
    (∀ c ∈ (s.GetSummary w userID serviceName from_ to_).2.2,
      (∀ k, c = Call.redisGet k →
        k = "summary:" ++ userID ++ ":" ++ serviceName ++ ":" ++ from_ ++ "-" ++ to_) ∧
      (∀ k v e, c = Call.redisSet k v e →
        k = "summary:" ++ userID ++ ":" ++ serviceName ++ ":" ++ from_ ++ "-" ++ to_)) ∧
    (s.redis ≠ none →
      (s.GetSummary w userID serviceName from_ to_).2.2.head?
        = some (Call.redisGet
            ("summary:" ++ userID ++ ":" ++ serviceName ++ ":" ++ from_ ++ "-" ++ to_))) ∧
    (∀ k v e, Call.redisSet k v e ∈ (s.GetSummary w userID serviceName from_ to_).2.2 →
      (s.GetSummary w userID serviceName from_ to_).2.2.getLast?
        = some (Call.redisSet
            ("summary:" ++ userID ++ ":" ++ serviceName ++ ":" ++ from_ ++ "-" ++ to_)
            (s.GetSummary w userID serviceName from_ to_).1.1 s.ttl)) := by
  refine ⟨Sprintf_summary_key userID serviceName from_ to_, ?_, ?_, ?_⟩
  all_goals
    unfold SubscriptionService.GetSummary
    generalize hk : String.mk (Sprintf "summary:%s:%s:%s-%s".data
      [userID, serviceName, from_, to_]) = key
    have hk2 : key = "summary:" ++ userID ++ ":" ++ serviceName ++ ":" ++ from_ ++ "-" ++ to_ := by
      rw [← hk]; exact Sprintf_summary_key userID serviceName from_ to_
    clear hk
    subst hk2
    cases hr : s.redis with
    | none =>
      simp only []
      cases hn : (normalizeRangeMY from_ to_).2.2 with
      | some err => simp
      | none =>
        simp only []
        cases hq : (s.repo.GetSummary w userID serviceName (normalizeRangeMY from_ to_).1
            (normalizeRangeMY from_ to_).2.1).1.2 <;> simp
    | some r =>
      simp only []
      cases hl : (if (r.Get w ("summary:" ++ userID ++ ":" ++ serviceName ++ ":" ++ from_ ++ "-"
          ++ to_)).1.2 = none then Sscanf (r.Get w ("summary:" ++ userID ++ ":" ++ serviceName
          ++ ":" ++ from_ ++ "-" ++ to_)).1.1 else none) with
      | some total => simp
      | none =>
        simp only []
        cases hn : (normalizeRangeMY from_ to_).2.2 with
        | some err => simp
        | none =>
          simp only []
          cases hq : (s.repo.GetSummary (r.Get w ("summary:" ++ userID ++ ":" ++ serviceName ++ ":"
              ++ from_ ++ "-" ++ to_)).2 userID serviceName (normalizeRangeMY from_ to_).1
              (normalizeRangeMY from_ to_).2.1).1.2 <;> simp

/-- C10 on a cache that misses and a table with one active subscription of `u1`:
`GetSummary("u1", "", "01-2025", "")` looks up `summary:u1::01-2025-`, queries
storage, and writes the total back under the same key. -/
theorem C10_summary_cache_key_witness :
    (SubscriptionService.GetSummary
        { repo := tableRepo, redis := some (emptyRedis (List Subscription)), ttl := 60 }
        [rowActiveSince2020] "u1" "" "01-2025" "").2.2
      = [Call.redisGet "summary:u1::01-2025-",
         Call.repoGetSummary "u1" "" (Date 2025 1 1 0 0 0 0) (Date 9999 12 1 0 0 0 0),
         Call.redisSet "summary:u1::01-2025-" 100 60] ∧
    (SubscriptionService.GetSummary
        { repo := tableRepo, redis := some (emptyRedis (List Subscription)), ttl := 60 }
        [rowActiveSince2020] "u1" "" "01-2025" "").2.2.head?
      = some (Call.redisGet ("summary:" ++ "u1" ++ ":" ++ "" ++ ":" ++ "01-2025" ++ "-" ++ "")) :=
  ⟨by decide,
    (C10_summary_cache_key
      { repo := tableRepo, redis := some (emptyRedis (List Subscription)), ttl := 60 }
      [rowActiveSince2020] "u1" "" "01-2025" "").2.2.1 (by simp)⟩

/-! ## Lemmas: invalidation and publication -/

theorem Sprintf_invalidate_pattern (userID : String) :
    String.mk (Sprintf "summary:%s:*".data [userID]) = "summary:" ++ userID ++ ":*" := by
  have e : "summary:%s:*".data
      = ['s', 'u', 'm', 'm', 'a', 'r', 'y', ':', '%', 's', ':', '*'] := by decide
  rw [e]
  apply String.ext
  simp [Sprintf, String.data_append]

theorem deleteKeys_calls {σ : Type} (keys : RedisKeyspace σ) (ks : List String) (w : σ) :
    (deleteKeys keys ks w).2 = ks.map Call.redisDel := by
  induction ks generalizing w with
  | nil => rfl
  | cons k ks ih => simp [deleteKeys, ih]

theorem invalidateCache_calls {σ : Type} (s : Service σ) (w : σ) (userID : String)
    (r : RedisInterface σ) (hr : s.summary.redis = some r) :
    (s.invalidateCache w userID).2
      = Call.redisScan ("summary:" ++ userID ++ ":*") ::
          (s.keys.Scan w ("summary:" ++ userID ++ ":*")).1.map Call.redisDel := by
  unfold Service.invalidateCache
  rw [hr, Sprintf_invalidate_pattern]
  simp only [deleteKeys_calls]

theorem invalidateCache_calls_nil {σ : Type} (s : Service σ) (w : σ) (userID : String)
    (hr : s.summary.redis = none) : s.invalidateCache w userID = (w, []) := by
  unfold Service.invalidateCache
  rw [hr]

theorem invalidateCache_calls_kind {σ : Type} (s : Service σ) (w : σ) (userID : String) :
    ∀ c ∈ (s.invalidateCache w userID).2,
      c = Call.redisScan ("summary:" ++ userID ++ ":*") ∨ ∃ k, c = Call.redisDel k := by
  intro c hc
  cases hr : s.summary.redis with
  | none => rw [invalidateCache_calls_nil s w userID hr] at hc; simp at hc
  | some r =>
    rw [invalidateCache_calls s w userID r hr] at hc
    simp only [List.mem_cons, List.mem_map] at hc
    rcases hc with h | ⟨k, -, h⟩
    · exact Or.inl h
    · exact Or.inr ⟨k, h.symm⟩

theorem publishEvent_calls {σ : Type} (s : Service σ) (w : σ) (exchange routingKey : String)
    (payload : Payload) (p : Publisher σ) (hp : s.publisher = some p) :
    (s.publishEvent w exchange routingKey payload).2 =
      if (jsonMarshal s.render payload).2 = none then
        [Call.publish exchange routingKey (jsonMarshal s.render payload).1]
      else [] := by
  unfold Service.publishEvent
  rw [hp]
  cases h : (jsonMarshal s.render payload).2 <;> simp [h]

theorem jsonMarshal_deleted (render : Payload → String) (id : Int) (userID : String) :
    jsonMarshal render (Payload.deleted id userID) = (render (Payload.deleted id userID), none) :=
  rfl

theorem deleteOwner_world_calls {σ : Type} (s : Service σ) (w : σ) (id : Int)
    (userID : String) :
    (s.deleteOwner w id userID).2 =
      if userID = "" then ((s.repo.GetByID w id).2, [Call.repoGetByID id]) else (w, []) := by
  unfold Service.deleteOwner
  split_ifs with h
  · cases h1 : (s.repo.GetByID w id).1.2 <;> cases h2 : (s.repo.GetByID w id).1.1 <;>
      simp [h1, h2]
  · rfl

theorem deleteOwner_user {σ : Type} (s : Service σ) (w : σ) (id : Int) :
    (s.deleteOwner w id "").1 =
      match (s.repo.GetByID w id).1.2, (s.repo.GetByID w id).1.1 with
      | none, some sub => sub.UserID
      | _, _ => "" := by
  unfold Service.deleteOwner
  cases h1 : (s.repo.GetByID w id).1.2 <;> cases h2 : (s.repo.GetByID w id).1.1 <;>
    simp [h1, h2]

theorem deleteKeys_world {σ : Type} (keys : RedisKeyspace σ) (ks : List String) (w : σ) :
    (deleteKeys keys ks w).1 = ks.foldl (fun w1 k => (keys.Del w1 k).2) w := by
  induction ks generalizing w with
  | nil => rfl
  | cons k ks ih => simp [deleteKeys, ih]

theorem invalidateCache_eq {σ : Type} (s : Service σ) (w : σ) (userID : String) :
    s.invalidateCache w userID = (invalidatedWorld s w userID, invalidationCalls s w userID) := by
  unfold Service.invalidateCache invalidatedWorld invalidationCalls
  rcases hr : s.summary.redis with _ | r
  · rfl
  · rw [Sprintf_invalidate_pattern]
    simp only [deleteKeys_world, deleteKeys_calls]

theorem publishEvent_eq {σ : Type} (s : Service σ) (w : σ) (routingKey : String)
    (payload : Payload) (hm : (jsonMarshal s.render payload).2 = none) :
    s.publishEvent w "subscriptions" routingKey payload =
      (publishedWorld s w routingKey (s.render payload),
        publicationCalls s routingKey (s.render payload)) := by
  have hb : (jsonMarshal s.render payload).1 = s.render payload := by
    cases payload with
    | subscription x =>
      simp only [jsonMarshal] at hm ⊢
      split_ifs at hm ⊢ with hy
      rfl
    | deleted a b => rfl
  unfold Service.publishEvent publishedWorld publicationCalls
  cases hp : s.publisher with
  | none => rfl
  | some p => simp only [hm, hb]

theorem publishEvent_eq_of_marshal_error {σ : Type} (s : Service σ) (w : σ)
    (exchange routingKey : String) (payload : Payload) (err : Error)
    (hm : (jsonMarshal s.render payload).2 = some err) :
    s.publishEvent w exchange routingKey payload = (w, []) := by
  unfold Service.publishEvent
  cases hp : s.publisher with
  | none => rfl
  | some p => simp only [hm]

/-! ## Claims about create, update and delete -/

/-- C16: when the storage call of `Create`, `Update` or `Delete` returns an error,
the operation returns that error, leaves the world as the storage call left it and
makes no call besides the storage calls: no cache scan or deletion, no
publication. -/
theorem C16_storage_error_is_returned {σ : Type} (s : Service σ) (w : σ) (sub : Subscription)
    (id : Int) (userID : String) (e : Error) :
    ((s.repo.Create w sub).1.2 = some e →
      (s.Create w sub).1.2 = some e ∧ (s.Create w sub).2.1 = (s.repo.Create w sub).2 ∧
      (s.Create w sub).2.2 = [Call.repoCreate sub]) ∧
    ((s.repo.Update w sub).1.2 = some e →
      (s.Update w sub).1.2 = some e ∧ (s.Update w sub).2.1 = (s.repo.Update w sub).2 ∧
      (s.Update w sub).2.2 = [Call.repoUpdate sub]) ∧
    ((s.repo.Delete (s.deleteOwner w id userID).2.1 id).1 = some e →
      (s.Delete w id userID).1 = some e ∧
      (s.Delete w id userID).2.1 = (s.repo.Delete (s.deleteOwner w id userID).2.1 id).2 ∧
      ((s.Delete w id userID).2.2 = [Call.repoDelete id] ∨
        (s.Delete w id userID).2.2 = [Call.repoGetByID id, Call.repoDelete id])) := by
  refine ⟨?_, ?_, ?_⟩
  · intro h
    simp [Service.Create, h]
  · intro h
    simp [Service.Update, h]
  · intro h
    simp only [Service.Delete, h, true_and]
    rw [deleteOwner_world_calls]
    split_ifs
    · right
      rfl
    · left
      rfl

/-- C16 on the in-memory service: updating and deleting the absent id 7 return
`no rows in result set` and make only the storage calls. -/
theorem C16_storage_error_is_returned_witness :
    (Service.Update (memService 60) (worldOf []) { rowActiveSince2020 with ID := 7 }).1.2
      = some ErrNoRows ∧
    (Service.Update (memService 60) (worldOf []) { rowActiveSince2020 with ID := 7 }).2.2
      = [Call.repoUpdate { rowActiveSince2020 with ID := 7 }] ∧
    (Service.Delete (memService 60) (worldOf []) 7 "").1 = some ErrNoRows :=
  have h := C16_storage_error_is_returned (memService 60) (worldOf [])
    { rowActiveSince2020 with ID := 7 } 7 "" ErrNoRows
  ⟨(h.2.1 (by decide)).1, (h.2.1 (by decide)).2.2, (h.2.2 (by decide)).1⟩

/-- C17: when the storage call of `Create`, `Update` or `Delete` returns no error,
the operation returns no error, whatever the cache scan, the key deletions, the
serialisation of the payload and `Publish` do. -/
theorem C17_side_effects_never_fail_the_operation {σ : Type} (s : Service σ) (w : σ)
    (sub : Subscription) (id : Int) (userID : String) :
    ((s.repo.Create w sub).1.2 = none → (s.Create w sub).1.2 = none) ∧
    ((s.repo.Update w sub).1.2 = none → (s.Update w sub).1.2 = none) ∧
    ((s.repo.Delete (s.deleteOwner w id userID).2.1 id).1 = none →
      (s.Delete w id userID).1 = none) := by
  refine ⟨?_, ?_, ?_⟩
  · intro h
    unfold Service.Create
    simp only [h]
  · intro h
    unfold Service.Update
    simp only [h]
  · intro h
    unfold Service.Delete
    simp only [h]

/-- C17 on the degraded in-memory service, where every key deletion fails and the
publisher queue is full: creating a subscription and updating one whose
`created_at` cannot be serialised (year 10000) still return no error. -/
theorem C17_side_effects_never_fail_the_operation_witness :
    (Service.Create (degradedService 60) (worldOf [rowActiveSince2020]) rowFebToApr2025).1.2
      = none ∧
    (Service.Update (degradedService 60) (worldOf [rowActiveSince2020])
      { rowActiveSince2020 with CreatedAt := Date 10000 1 1 0 0 0 0 }).1.2 = none :=
  ⟨(C17_side_effects_never_fail_the_operation (degradedService 60)
      (worldOf [rowActiveSince2020]) rowFebToApr2025 1 "").1 (by decide),
    (C17_side_effects_never_fail_the_operation (degradedService 60)
      (worldOf [rowActiveSince2020])
      { rowActiveSince2020 with CreatedAt := Date 10000 1 1 0 0 0 0 } 1 "").2.1 (by decide)⟩

/-- C18 fails on a subscription whose `created_at` is in the year 10000: the update
of row 1 succeeds, `json.Marshal` of the subscription fails, and `Update` returns
without calling `Publish`; no message is recorded. -/
theorem C18_update_without_publish :
    (Service.Update (memService 60) (worldOf [rowActiveSince2020])
      { rowActiveSince2020 with CreatedAt := Date 10000 1 1 0 0 0 0 }).1.2 = none ∧
    (Service.Update (memService 60) (worldOf [rowActiveSince2020])
      { rowActiveSince2020 with CreatedAt := Date 10000 1 1 0 0 0 0 }).2.2
      = [Call.repoUpdate { rowActiveSince2020 with CreatedAt := Date 10000 1 1 0 0 0 0 },
         Call.redisScan "summary:u1:*"] ∧
    (Service.Update (memService 60) (worldOf [rowActiveSince2020])
      { rowActiveSince2020 with CreatedAt := Date 10000 1 1 0 0 0 0 }).2.1.sent = [] := by
  decide

/-- C18 as amended: with a publisher configured, a `Create`, `Update` or `Delete`
whose storage call succeeds does the following, in this order: the storage call,
the cache invalidation (the scan and one deletion per key found, each carried out
on the cache), and the publication.  `Delete` always calls
`Publish("subscriptions", "deleted", body)` exactly once, on the world left by the
invalidation, the body encoding the id and the user; the world it returns is the
one `Publish` leaves.  `Create` and `Update` call `Publish` exactly once, with
routing key `created`, `updated` and the encoding of the subscription as body,
when `json.Marshal` succeeds, and return the world that `Publish` leaves; when it
fails they make no `Publish` call and return the world left by the invalidation. -/
theorem C18_publish_after_invalidation {σ : Type} (s : Service σ) (w : σ) (sub : Subscription)
    (id : Int) (userID : String) (p : Publisher σ) (hp : s.publisher = some p) :
    ((s.repo.Create w sub).1.2 = none →
      (s.Create w sub).2 =
        if (jsonMarshal s.render (Payload.subscription (s.repo.Create w sub).1.1)).2 = none then
          ((p.Publish
              (invalidatedWorld s (s.repo.Create w sub).2 (s.repo.Create w sub).1.1.UserID)
              "subscriptions" "created"
              (s.render (Payload.subscription (s.repo.Create w sub).1.1))).2,
            [Call.repoCreate sub]
              ++ invalidationCalls s (s.repo.Create w sub).2 (s.repo.Create w sub).1.1.UserID
              ++ [Call.publish "subscriptions" "created"
                    (s.render (Payload.subscription (s.repo.Create w sub).1.1))])
        else
          (invalidatedWorld s (s.repo.Create w sub).2 (s.repo.Create w sub).1.1.UserID,
            [Call.repoCreate sub]
              ++ invalidationCalls s (s.repo.Create w sub).2
                  (s.repo.Create w sub).1.1.UserID)) ∧
    ((s.repo.Update w sub).1.2 = none →
      (s.Update w sub).2 =
        if (jsonMarshal s.render (Payload.subscription (s.repo.Update w sub).1.1)).2 = none then
          ((p.Publish
              (invalidatedWorld s (s.repo.Update w sub).2 (s.repo.Update w sub).1.1.UserID)
              "subscriptions" "updated"
              (s.render (Payload.subscription (s.repo.Update w sub).1.1))).2,
            [Call.repoUpdate sub]
              ++ invalidationCalls s (s.repo.Update w sub).2 (s.repo.Update w sub).1.1.UserID
              ++ [Call.publish "subscriptions" "updated"
                    (s.render (Payload.subscription (s.repo.Update w sub).1.1))])
        else
          (invalidatedWorld s (s.repo.Update w sub).2 (s.repo.Update w sub).1.1.UserID,
            [Call.repoUpdate sub]
              ++ invalidationCalls s (s.repo.Update w sub).2
                  (s.repo.Update w sub).1.1.UserID)) ∧
    ((s.repo.Delete (s.deleteOwner w id userID).2.1 id).1 = none →
      (s.Delete w id userID).2 =
        ((p.Publish
            (invalidatedWorld s (s.repo.Delete (s.deleteOwner w id userID).2.1 id).2
              (s.deleteOwner w id userID).1)
            "subscriptions" "deleted"
            (s.render (Payload.deleted id (s.deleteOwner w id userID).1))).2,
          (s.deleteOwner w id userID).2.2 ++ [Call.repoDelete id]
            ++ invalidationCalls s (s.repo.Delete (s.deleteOwner w id userID).2.1 id).2
                (s.deleteOwner w id userID).1
            ++ [Call.publish "subscriptions" "deleted"
                  (s.render (Payload.deleted id (s.deleteOwner w id userID).1))])) ∧
    (∀ (w1 : σ) (u : String), ∀ c ∈ invalidationCalls s w1 u,
      c = Call.redisScan ("summary:" ++ u ++ ":*") ∨ ∃ k, c = Call.redisDel k) := by
  have hpw : ∀ (w1 : σ) (rk body : String),
      publishedWorld s w1 rk body = (p.Publish w1 "subscriptions" rk body).2 := by
    intro w1 rk body
    unfold publishedWorld
    rw [hp]
  have hpc : ∀ (rk body : String),
      publicationCalls s rk body = [Call.publish "subscriptions" rk body] := by
    intro rk body
    unfold publicationCalls
    rw [hp]
  refine ⟨?_, ?_, ?_, ?_⟩
  · intro h
    unfold Service.Create
    simp only [h, invalidateCache_eq]
    cases hj : (jsonMarshal s.render (Payload.subscription (s.repo.Create w sub).1.1)).2 with
    | none =>
      rw [publishEvent_eq s _ _ _ hj, hpw, hpc]
      simp
    | some err =>
      rw [publishEvent_eq_of_marshal_error s _ _ _ _ err hj]
      simp
  · intro h
    unfold Service.Update
    simp only [h, invalidateCache_eq]
    cases hj : (jsonMarshal s.render (Payload.subscription (s.repo.Update w sub).1.1)).2 with
    | none =>
      rw [publishEvent_eq s _ _ _ hj, hpw, hpc]
      simp
    | some err =>
      rw [publishEvent_eq_of_marshal_error s _ _ _ _ err hj]
      simp
  · intro h
    unfold Service.Delete
    simp only [h, invalidateCache_eq]
    rw [publishEvent_eq s _ _ _ (by rw [jsonMarshal_deleted]), hpw, hpc]
  · intro w1 u c hc
    have hk := invalidateCache_calls_kind s w1 u c
    rw [invalidateCache_eq] at hk
    exact hk hc

/-- C18 as amended, on the in-memory service: updating row 1 of `u1` scans the
keys of `u1` and then publishes once, with routing key `updated`; the publisher
has recorded that message and no other. -/
theorem C18_publish_after_invalidation_witness :
    (Service.Update (memService 60) (worldOf [rowActiveSince2020]) rowActiveSince2020).2.2
      = [Call.repoUpdate rowActiveSince2020, Call.redisScan "summary:u1:*",
         Call.publish "subscriptions" "updated" "subscription:1:u1"] ∧
    (Service.Update (memService 60) (worldOf [rowActiveSince2020]) rowActiveSince2020).2.1.sent
      = [("subscriptions", "updated", "subscription:1:u1")] :=
  ⟨(congrArg Prod.snd
      ((C18_publish_after_invalidation (memService 60) (worldOf [rowActiveSince2020])
        rowActiveSince2020 1 "" recordingPublisher rfl).2.1 (by decide))).trans (by decide),
    (congrArg (fun x => x.1.sent)
      ((C18_publish_after_invalidation (memService 60) (worldOf [rowActiveSince2020])
        rowActiveSince2020 1 "" recordingPublisher rfl).2.1 (by decide))).trans (by decide)⟩

/-- C19: for `Delete(id, "")` where the lookup `GetByID(id)` returns a subscription
and no error, the user of the deletion is the owner `u` of that subscription, not
the empty string.  When the storage deletion succeeds, `Delete` returns no error
and the world it leaves is the one obtained from the world after the storage
deletion by the cache invalidation for `u` (if a cache is configured: every key
that the scan of `summary:u:*` yields is deleted on the cache) followed by the
publication (if a publisher is configured: `Publish` is called once with routing
key `deleted` and the payload `{id, user_id: u}`); the calls are the lookup, the
storage deletion, the scan, the deletions and the publication, in this order. -/
theorem C19_delete_uses_owner_from_storage {σ : Type} (s : Service σ) (w : σ) (id : Int)
    (owner : Subscription) (hg : (s.repo.GetByID w id).1 = (some owner, none)) :
    (s.deleteOwner w id "").1 = owner.UserID ∧
    ((s.repo.Delete (s.repo.GetByID w id).2 id).1 = none →
      (s.Delete w id "").1 = none ∧
      (s.Delete w id "").2 =
        (publishedWorld s
            (invalidatedWorld s (s.repo.Delete (s.repo.GetByID w id).2 id).2 owner.UserID)
            "deleted" (s.render (Payload.deleted id owner.UserID)),
          [Call.repoGetByID id, Call.repoDelete id]
            ++ invalidationCalls s (s.repo.Delete (s.repo.GetByID w id).2 id).2 owner.UserID
            ++ publicationCalls s "deleted" (s.render (Payload.deleted id owner.UserID)))) ∧
    (∀ r p, s.summary.redis = some r → s.publisher = some p →
      (s.repo.Delete (s.repo.GetByID w id).2 id).1 = none →
      (s.Delete w id "").2 =
        ((p.Publish
            ((s.keys.Scan (s.repo.Delete (s.repo.GetByID w id).2 id).2
                ("summary:" ++ owner.UserID ++ ":*")).1.foldl
              (fun w1 k => (s.keys.Del w1 k).2)
              (s.keys.Scan (s.repo.Delete (s.repo.GetByID w id).2 id).2
                ("summary:" ++ owner.UserID ++ ":*")).2)
            "subscriptions" "deleted" (s.render (Payload.deleted id owner.UserID))).2,
          [Call.repoGetByID id, Call.repoDelete id]
            ++ Call.redisScan ("summary:" ++ owner.UserID ++ ":*") ::
                (s.keys.Scan (s.repo.Delete (s.repo.GetByID w id).2 id).2
                  ("summary:" ++ owner.UserID ++ ":*")).1.map Call.redisDel
            ++ [Call.publish "subscriptions" "deleted"
                  (s.render (Payload.deleted id owner.UserID))])) := by
  have hu : (s.deleteOwner w id "").1 = owner.UserID := by
    rw [deleteOwner_user]
    have h1 : (s.repo.GetByID w id).1.2 = none := by rw [hg]
    have h2 : (s.repo.GetByID w id).1.1 = some owner := by rw [hg]
    simp only [h1, h2]
  have hw : (s.deleteOwner w id "").2 = ((s.repo.GetByID w id).2, [Call.repoGetByID id]) := by
    rw [deleteOwner_world_calls]
    simp
  have hw1 : (s.deleteOwner w id "").2.1 = (s.repo.GetByID w id).2 := by rw [hw]
  have hw2 : (s.deleteOwner w id "").2.2 = [Call.repoGetByID id] := by rw [hw]
  have main : (s.repo.Delete (s.repo.GetByID w id).2 id).1 = none →
      (s.Delete w id "").2 =
        (publishedWorld s
            (invalidatedWorld s (s.repo.Delete (s.repo.GetByID w id).2 id).2 owner.UserID)
            "deleted" (s.render (Payload.deleted id owner.UserID)),
          [Call.repoGetByID id, Call.repoDelete id]
            ++ invalidationCalls s (s.repo.Delete (s.repo.GetByID w id).2 id).2 owner.UserID
            ++ publicationCalls s "deleted" (s.render (Payload.deleted id owner.UserID))) := by
    intro hd
    unfold Service.Delete
    simp only [hw1, hw2, hu, hd, invalidateCache_eq]
    rw [publishEvent_eq s _ _ _ (by rw [jsonMarshal_deleted])]
    simp
  refine ⟨hu, ?_, ?_⟩
  · intro hd
    refine ⟨?_, main hd⟩
    simp only [Service.Delete, hw1, hd]
  · intro r p hr hp hd
    rw [main hd]
    simp only [publishedWorld, invalidatedWorld, invalidationCalls, publicationCalls, hr, hp]

/-- C19 on the in-memory service with owner `user1` and a cached summary of that
user: `Delete(1, "")` finds the owner, deletes the row, scans `summary:user1:*`,
deletes the key found and publishes the event for `user1`; afterwards the table
is empty, the cache holds no entry under the key and the publisher has recorded
the one event. -/
theorem C19_delete_uses_owner_from_storage_witness :
    (Service.Delete (memService 60)
      ((memService 60).summary.GetSummary
        (worldOf [{ rowActiveSince2020 with UserID := "user1" }]) "user1" "" "" "").2.1
      1 "").2.2
      = [Call.repoGetByID 1, Call.repoDelete 1, Call.redisScan "summary:user1:*",
         Call.redisDel "summary:user1::-",
         Call.publish "subscriptions" "deleted" "deleted:1:user1"] ∧
    (Service.deleteOwner (memService 60)
      ((memService 60).summary.GetSummary
        (worldOf [{ rowActiveSince2020 with UserID := "user1" }]) "user1" "" "" "").2.1
      1 "").1 = "user1" ∧
    cacheLookup
      ((memService 60).summary.GetSummary
        (worldOf [{ rowActiveSince2020 with UserID := "user1" }]) "user1" "" "" "").2.1.cache
      "summary:user1::-" = some ("100", 60) ∧
    (Service.Delete (memService 60)
      ((memService 60).summary.GetSummary
        (worldOf [{ rowActiveSince2020 with UserID := "user1" }]) "user1" "" "" "").2.1
      1 "").2.1
      = { worldOf [] with sent := [("subscriptions", "deleted", "deleted:1:user1")] } :=
  ⟨by decide,
    (C19_delete_uses_owner_from_storage (memService 60)
      ((memService 60).summary.GetSummary
        (worldOf [{ rowActiveSince2020 with UserID := "user1" }]) "user1" "" "" "").2.1
      1 { rowActiveSince2020 with UserID := "user1" } (by decide)).1,
    by decide,
    (congrArg Prod.fst
      ((C19_delete_uses_owner_from_storage (memService 60)
        ((memService 60).summary.GetSummary
          (worldOf [{ rowActiveSince2020 with UserID := "user1" }]) "user1" "" "" "").2.1
        1 { rowActiveSince2020 with UserID := "user1" } (by decide)).2.2
        memRedis recordingPublisher rfl rfl (by decide))).trans (by decide)⟩

/-- C20: for `Delete(id, "")` where the lookup `GetByID(id)` returns an error or no
subscription, the storage `Delete(id)` is still carried out, right after the
lookup and on the world the lookup left, and its result is the result of the
operation.  When it fails, the world returned is the one the storage deletion
left and nothing else is called.  When it succeeds, the world returned is the one
obtained from the world after the storage deletion by the cache invalidation and
the publication with the empty string as user: the pattern scanned is
`summary::*`, every key found is deleted on the cache, and `Publish` is called
once with the payload `{id, user_id: ""}`. -/
theorem C20_delete_with_failed_lookup {σ : Type} (s : Service σ) (w : σ) (id : Int)
    (hg : (s.repo.GetByID w id).1.2 ≠ none ∨ (s.repo.GetByID w id).1.1 = none) :
    (s.deleteOwner w id "").1 = "" ∧
    (s.Delete w id "").1 = (s.repo.Delete (s.repo.GetByID w id).2 id).1 ∧
    (∃ rest, (s.Delete w id "").2.2 = [Call.repoGetByID id, Call.repoDelete id] ++ rest) ∧
    (∀ err, (s.repo.Delete (s.repo.GetByID w id).2 id).1 = some err →
      (s.Delete w id "").2 =
        ((s.repo.Delete (s.repo.GetByID w id).2 id).2,
          [Call.repoGetByID id, Call.repoDelete id])) ∧
    ((s.repo.Delete (s.repo.GetByID w id).2 id).1 = none →
      (s.Delete w id "").2 =
        (publishedWorld s
            (invalidatedWorld s (s.repo.Delete (s.repo.GetByID w id).2 id).2 "")
            "deleted" (s.render (Payload.deleted id "")),
          [Call.repoGetByID id, Call.repoDelete id]
            ++ invalidationCalls s (s.repo.Delete (s.repo.GetByID w id).2 id).2 ""
            ++ publicationCalls s "deleted" (s.render (Payload.deleted id ""))) ∧
      (∀ r p, s.summary.redis = some r → s.publisher = some p →
        (s.Delete w id "").2 =
          ((p.Publish
              ((s.keys.Scan (s.repo.Delete (s.repo.GetByID w id).2 id).2
                  "summary::*").1.foldl
                (fun w1 k => (s.keys.Del w1 k).2)
                (s.keys.Scan (s.repo.Delete (s.repo.GetByID w id).2 id).2 "summary::*").2)
              "subscriptions" "deleted" (s.render (Payload.deleted id ""))).2,
            [Call.repoGetByID id, Call.repoDelete id]
              ++ Call.redisScan "summary::*" ::
                  (s.keys.Scan (s.repo.Delete (s.repo.GetByID w id).2 id).2
                    "summary::*").1.map Call.redisDel
              ++ [Call.publish "subscriptions" "deleted"
                    (s.render (Payload.deleted id ""))]))) := by
  have hu : (s.deleteOwner w id "").1 = "" := by
    rw [deleteOwner_user]
    rcases hg with h | h
    · cases h1 : (s.repo.GetByID w id).1.2 with
      | none => exact absurd h1 h
      | some e => rfl
    · rw [h]
      cases h1 : (s.repo.GetByID w id).1.2 <;> rfl
  have hw : (s.deleteOwner w id "").2 = ((s.repo.GetByID w id).2, [Call.repoGetByID id]) := by
    rw [deleteOwner_world_calls]
    simp
  have hw1 : (s.deleteOwner w id "").2.1 = (s.repo.GetByID w id).2 := by rw [hw]
  have hw2 : (s.deleteOwner w id "").2.2 = [Call.repoGetByID id] := by rw [hw]
  have hpat : ("summary:" ++ "" ++ ":*" : String) = "summary::*" := by decide
  have main : (s.repo.Delete (s.repo.GetByID w id).2 id).1 = none →
      (s.Delete w id "").2 =
        (publishedWorld s
            (invalidatedWorld s (s.repo.Delete (s.repo.GetByID w id).2 id).2 "")
            "deleted" (s.render (Payload.deleted id "")),
          [Call.repoGetByID id, Call.repoDelete id]
            ++ invalidationCalls s (s.repo.Delete (s.repo.GetByID w id).2 id).2 ""
            ++ publicationCalls s "deleted" (s.render (Payload.deleted id ""))) := by
    intro hd
    unfold Service.Delete
    simp only [hw1, hw2, hu, hd, invalidateCache_eq]
    rw [publishEvent_eq s _ _ _ (by rw [jsonMarshal_deleted])]
    simp
  refine ⟨hu, ?_, ?_, ?_, ?_⟩
  · cases hd : (s.repo.Delete (s.repo.GetByID w id).2 id).1 <;>
      simp only [Service.Delete, hw1, hd]
  · cases hd : (s.repo.Delete (s.repo.GetByID w id).2 id).1 <;>
      simp [Service.Delete, hw1, hw2, hd]
  · intro err hd
    simp only [Service.Delete, hw1, hw2, hd]
    simp
  · intro hd
    refine ⟨main hd, ?_⟩
    intro r p hr hp
    rw [main hd]
    simp only [publishedWorld, invalidatedWorld, invalidationCalls, publicationCalls, hr, hp,
      hpat]

/-- C20 on the in-memory service whose lookup fails, with one row of `u1` and the
cached summaries of the users `u1` and `""`: `Delete(1, "")` still deletes the
row, scans `summary::*`, deletes the key of the user `""` and publishes the event
with an empty user; the table is empty afterwards and the publisher has recorded
the one event. -/
theorem C20_delete_with_failed_lookup_witness :
    (Service.Delete (blindLookupService 60)
      ((memService 60).summary.GetSummary
        ((memService 60).summary.GetSummary (worldOf [rowActiveSince2020])
          "u1" "" "" "").2.1 "" "" "" "").2.1 1 "").1 = none ∧
    (Service.Delete (blindLookupService 60)
      ((memService 60).summary.GetSummary
        ((memService 60).summary.GetSummary (worldOf [rowActiveSince2020])
          "u1" "" "" "").2.1 "" "" "" "").2.1 1 "").2.2
      = [Call.repoGetByID 1, Call.repoDelete 1, Call.redisScan "summary::*",
         Call.redisDel "summary:::-", Call.publish "subscriptions" "deleted" "deleted:1:"] ∧
    (Service.Delete (blindLookupService 60)
      ((memService 60).summary.GetSummary
        ((memService 60).summary.GetSummary (worldOf [rowActiveSince2020])
          "u1" "" "" "").2.1 "" "" "" "").2.1 1 "").2.1
      = { worldOf [] with
          cache := [("summary:u1::-", "100", 60)],
          sent := [("subscriptions", "deleted", "deleted:1:")] } :=
  ⟨((C20_delete_with_failed_lookup (blindLookupService 60)
      ((memService 60).summary.GetSummary
        ((memService 60).summary.GetSummary (worldOf [rowActiveSince2020])
          "u1" "" "" "").2.1 "" "" "" "").2.1 1 (Or.inl (by decide))).2.1).trans (by decide),
    by decide, by decide⟩

/-! ## Lemmas: the cached text of a total -/

theorem toDigitsCore_spec (fuel n : Nat) (ds : List Char) (h : n < fuel) :
    ∃ pre : List Char, Nat.toDigitsCore 10 fuel n ds = pre ++ ds ∧ pre ≠ [] ∧
      (∀ c ∈ pre, 48 ≤ c.toNat ∧ c.toNat ≤ 57) ∧
      pre.foldl (fun acc c => acc * 10 + digitVal c) 0 = n := by
  induction fuel generalizing n ds with
  | zero => omega
  | succ fuel ih =>
    rw [toDigitsCore_succ]
    have hd : Nat.digitChar (n % 10) = digitChar (n % 10) := Nat_digitChar_eq _ (by omega)
    have hn : (digitChar (n % 10)).toNat = 48 + n % 10 := digitChar_toNat _ (by omega)
    split_ifs with h0
    · refine ⟨[Nat.digitChar (n % 10)], rfl, by simp, ?_, ?_⟩
      · intro c hc
        simp only [List.mem_singleton] at hc
        rw [hc, hd, hn]; omega
      · simp only [List.foldl, hd, digitVal, hn]
        omega
    · obtain ⟨pre, e1, -, e3, e4⟩ := ih (n / 10) (Nat.digitChar (n % 10) :: ds) (by omega)
      refine ⟨pre ++ [Nat.digitChar (n % 10)], by rw [e1]; simp, by simp, ?_, ?_⟩
      · intro c hc
        rcases List.mem_append.mp hc with hc | hc
        · exact e3 c hc
        · simp only [List.mem_singleton] at hc
          rw [hc, hd, hn]; omega
      · rw [List.foldl_append, e4]
        simp only [List.foldl, hd, digitVal, hn]
        omega

theorem fmtNat_spec (n : Nat) :
    fmtNat n ≠ [] ∧ (∀ c ∈ fmtNat n, 48 ≤ c.toNat ∧ c.toNat ≤ 57) ∧
      (fmtNat n).foldl (fun acc c => acc * 10 + digitVal c) 0 = n := by
  obtain ⟨pre, e1, e2, e3, e4⟩ := toDigitsCore_spec (n + 1) n [] (by omega)
  have e : fmtNat n = pre := by
    unfold fmtNat Nat.toDigits
    rw [e1]; simp
  rw [e]
  exact ⟨e2, e3, e4⟩

theorem Sscanf_digits (l : List Char) (neg : Bool) (h1 : l ≠ [])
    (h2 : ∀ c ∈ l, 48 ≤ c.toNat ∧ c.toNat ≤ 57)
    (h3 : if neg then (l.foldl (fun acc c => acc * 10 + digitVal c) 0 : Nat) ≤ 2 ^ 63
          else (l.foldl (fun acc c => acc * 10 + digitVal c) 0 : Nat) ≤ 2 ^ 63 - 1) :
    Sscanf (String.mk (if neg then '-' :: l else l)) =
      some (if neg then -((l.foldl (fun acc c => acc * 10 + digitVal c) 0 : Nat) : Int)
            else ((l.foldl (fun acc c => acc * 10 + digitVal c) 0 : Nat) : Int)) := by
  obtain ⟨c0, l0, rfl⟩ := List.exists_cons_of_ne_nil h1
  have hc0 := h2 c0 (by simp)
  have htw : (c0 :: l0).takeWhile
      (fun c => decide (48 ≤ c.toNat) && decide (c.toNat ≤ 57)) = c0 :: l0 := by
    rw [List.takeWhile_eq_self_iff]
    intro c hc
    have := h2 c hc
    simp [this.1, this.2]
  have n0 : c0 ≠ '\n' := char_ne_of_toNat (by simp; omega)
  have n1 : c0 ≠ '+' := char_ne_of_toNat (by simp; omega)
  have n2 : c0 ≠ '-' := char_ne_of_toNat (by simp; omega)
  have s0 : isSpace c0 = false := by
    simp only [isSpace]
    simp
    omega
  have hs : skipSpace (c0 :: l0) = some (c0 :: l0) := by simp [skipSpace, n0, s0]
  have hsm : skipSpace ('-' :: c0 :: l0) = some ('-' :: c0 :: l0) := by
    have sm : isSpace '-' = false := by decide
    simp [skipSpace, sm]
  cases neg with
  | false =>
    simp only [Bool.false_eq_true, if_false] at h3 ⊢
    simp only [Sscanf, hs, n1, n2, or_self, if_false, htw, decide_False]
    generalize List.foldl (fun acc c => acc * 10 + digitVal c) 0 (c0 :: l0) = v at h3 ⊢
    rw [if_neg (by simp), if_pos ⟨by omega, by omega⟩]
    simp
  | true =>
    simp only [if_true] at h3 ⊢
    simp only [Sscanf, hsm, or_true, if_true, htw, decide_True]
    generalize List.foldl (fun acc c => acc * 10 + digitVal c) 0 (c0 :: l0) = v at h3 ⊢
    rw [if_neg (by simp), if_pos ⟨by omega, by omega⟩]

/-- A total in the range of a Go `int` (64 bits). -/
theorem Sscanf_fmtd (total : Int) (h1 : -(2 ^ 63 : Int) ≤ total) (h2 : total ≤ 2 ^ 63 - 1) :
    Sscanf (String.mk (fmtd total)) = some total := by
  cases total with
  | ofNat n =>
    obtain ⟨a, b, c⟩ := fmtNat_spec n
    have h := Sscanf_digits (fmtNat n) false a b (by
      simp only [Bool.false_eq_true, if_false]
      rw [c]
      have : (n : Int) ≤ 2 ^ 63 - 1 := h2
      omega)
    simp only [Bool.false_eq_true, if_false, c] at h
    exact h
  | negSucc n =>
    obtain ⟨a, b, c⟩ := fmtNat_spec (n + 1)
    have h := Sscanf_digits (fmtNat (n + 1)) true a b (by
      simp only [if_true]
      rw [c]
      have : -(2 ^ 63 : Int) ≤ Int.negSucc n := h1
      have e : Int.negSucc n = -((n : Int) + 1) := Int.negSucc_eq n
      omega)
    simp only [if_true, c] at h
    have e : Int.negSucc n = -(((n + 1 : Nat)) : Int) := by
      rw [Int.negSucc_eq]; push_cast; rfl
    rw [e]
    exact h

theorem Sscanf_stops_at_first_non_digit :
    Sscanf "1_000" = some 1 ∧ Sscanf "1_" = some 1 ∧ Sscanf "100abc" = some 100 ∧
    Sscanf " +7" = some 7 ∧ Sscanf "_1" = none ∧ Sscanf "not-a-number" = none ∧
    Sscanf "" = none ∧ Sscanf "-" = none ∧ Sscanf "9223372036854775808" = none := by
  decide

/-! ## Lemmas: the paths of `GetSummary` -/

theorem GetSummary_hit {σ : Type} (s : SubscriptionService σ) (w : σ)
    (userID serviceName from_ to_ : String) (r : RedisInterface σ) (hr : s.redis = some r)
    (total : Int)
    (h1 : (r.Get w ("summary:" ++ userID ++ ":" ++ serviceName ++ ":" ++ from_ ++ "-"
      ++ to_)).1.2 = none)
    (h2 : Sscanf (r.Get w ("summary:" ++ userID ++ ":" ++ serviceName ++ ":" ++ from_ ++ "-"
      ++ to_)).1.1 = some total) :
    s.GetSummary w userID serviceName from_ to_ =
      ((total, none),
        (r.Get w ("summary:" ++ userID ++ ":" ++ serviceName ++ ":" ++ from_ ++ "-" ++ to_)).2,
        [Call.redisGet ("summary:" ++ userID ++ ":" ++ serviceName ++ ":" ++ from_ ++ "-"
          ++ to_)]) := by
  unfold SubscriptionService.GetSummary
  generalize hk : String.mk (Sprintf "summary:%s:%s:%s-%s".data
    [userID, serviceName, from_, to_]) = key
  have hk2 : key = "summary:" ++ userID ++ ":" ++ serviceName ++ ":" ++ from_ ++ "-" ++ to_ := by
    rw [← hk]; exact Sprintf_summary_key userID serviceName from_ to_
  clear hk
  subst hk2
  simp only [hr, h1, h2, if_true]

theorem GetSummary_miss {σ : Type} (s : SubscriptionService σ) (w : σ)
    (userID serviceName from_ to_ : String) (r : RedisInterface σ) (hr : s.redis = some r)
    (hmiss : (r.Get w ("summary:" ++ userID ++ ":" ++ serviceName ++ ":" ++ from_ ++ "-"
        ++ to_)).1.2 ≠ none ∨
      Sscanf (r.Get w ("summary:" ++ userID ++ ":" ++ serviceName ++ ":" ++ from_ ++ "-"
        ++ to_)).1.1 = none) :
    s.GetSummary w userID serviceName from_ to_ =
      match (normalizeRangeMY from_ to_).2.2 with
      | some err =>
        ((0, some err),
          (r.Get w ("summary:" ++ userID ++ ":" ++ serviceName ++ ":" ++ from_ ++ "-"
            ++ to_)).2,
          [Call.redisGet ("summary:" ++ userID ++ ":" ++ serviceName ++ ":" ++ from_ ++ "-"
            ++ to_)])
      | none =>
        match (s.repo.GetSummary
            (r.Get w ("summary:" ++ userID ++ ":" ++ serviceName ++ ":" ++ from_ ++ "-"
              ++ to_)).2
            userID serviceName (normalizeRangeMY from_ to_).1 (normalizeRangeMY from_ to_).2.1).1.2 with
        | some err =>
          ((0, some err),
            (s.repo.GetSummary
              (r.Get w ("summary:" ++ userID ++ ":" ++ serviceName ++ ":" ++ from_ ++ "-"
                ++ to_)).2
              userID serviceName (normalizeRangeMY from_ to_).1 (normalizeRangeMY from_ to_).2.1).2,
            [Call.redisGet ("summary:" ++ userID ++ ":" ++ serviceName ++ ":" ++ from_ ++ "-"
                ++ to_),
              Call.repoGetSummary userID serviceName (normalizeRangeMY from_ to_).1
                (normalizeRangeMY from_ to_).2.1])
        | none =>
          (((s.repo.GetSummary
              (r.Get w ("summary:" ++ userID ++ ":" ++ serviceName ++ ":" ++ from_ ++ "-"
                ++ to_)).2
              userID serviceName (normalizeRangeMY from_ to_).1
              (normalizeRangeMY from_ to_).2.1).1.1, none),
            (r.Set
              (s.repo.GetSummary
                (r.Get w ("summary:" ++ userID ++ ":" ++ serviceName ++ ":" ++ from_ ++ "-"
                  ++ to_)).2
                userID serviceName (normalizeRangeMY from_ to_).1
                (normalizeRangeMY from_ to_).2.1).2
              ("summary:" ++ userID ++ ":" ++ serviceName ++ ":" ++ from_ ++ "-" ++ to_)
              (s.repo.GetSummary
                (r.Get w ("summary:" ++ userID ++ ":" ++ serviceName ++ ":" ++ from_ ++ "-"
                  ++ to_)).2
                userID serviceName (normalizeRangeMY from_ to_).1
                (normalizeRangeMY from_ to_).2.1).1.1
              s.ttl).2,
            [Call.redisGet ("summary:" ++ userID ++ ":" ++ serviceName ++ ":" ++ from_ ++ "-"
                ++ to_),
              Call.repoGetSummary userID serviceName (normalizeRangeMY from_ to_).1
                (normalizeRangeMY from_ to_).2.1,
              Call.redisSet ("summary:" ++ userID ++ ":" ++ serviceName ++ ":" ++ from_ ++ "-"
                ++ to_)
                (s.repo.GetSummary
                  (r.Get w ("summary:" ++ userID ++ ":" ++ serviceName ++ ":" ++ from_ ++ "-"
                    ++ to_)).2
                  userID serviceName (normalizeRangeMY from_ to_).1
                  (normalizeRangeMY from_ to_).2.1).1.1
                s.ttl]) := by
  unfold SubscriptionService.GetSummary
  generalize hk : String.mk (Sprintf "summary:%s:%s:%s-%s".data
    [userID, serviceName, from_, to_]) = key
  have hk2 : key = "summary:" ++ userID ++ ":" ++ serviceName ++ ":" ++ from_ ++ "-" ++ to_ := by
    rw [← hk]; exact Sprintf_summary_key userID serviceName from_ to_
  clear hk
  subst hk2
  have hl : (if (r.Get w ("summary:" ++ userID ++ ":" ++ serviceName ++ ":" ++ from_ ++ "-"
      ++ to_)).1.2 = none then Sscanf (r.Get w ("summary:" ++ userID ++ ":" ++ serviceName
      ++ ":" ++ from_ ++ "-" ++ to_)).1.1 else none) = none := by
    rcases hmiss with h | h
    · rw [if_neg h]
    · rw [h]; simp
  simp only [hr, hl]
  cases hn : (normalizeRangeMY from_ to_).2.2 with
  | some err => rfl
  | none =>
    simp only []
    cases hq : (s.repo.GetSummary (r.Get w ("summary:" ++ userID ++ ":" ++ serviceName ++ ":"
        ++ from_ ++ "-" ++ to_)).2 userID serviceName (normalizeRangeMY from_ to_).1
        (normalizeRangeMY from_ to_).2.1).1.2 <;> simp

theorem GetSummary_nocache {σ : Type} (s : SubscriptionService σ) (w : σ)
    (userID serviceName from_ to_ : String) (hr : s.redis = none) :
    s.GetSummary w userID serviceName from_ to_ =
      match (normalizeRangeMY from_ to_).2.2 with
      | some err => ((0, some err), w, [])
      | none =>
        match (s.repo.GetSummary w userID serviceName (normalizeRangeMY from_ to_).1
            (normalizeRangeMY from_ to_).2.1).1.2 with
        | some err =>
          ((0, some err),
            (s.repo.GetSummary w userID serviceName (normalizeRangeMY from_ to_).1
              (normalizeRangeMY from_ to_).2.1).2,
            [Call.repoGetSummary userID serviceName (normalizeRangeMY from_ to_).1
              (normalizeRangeMY from_ to_).2.1])
        | none =>
          (((s.repo.GetSummary w userID serviceName (normalizeRangeMY from_ to_).1
              (normalizeRangeMY from_ to_).2.1).1.1, none),
            (s.repo.GetSummary w userID serviceName (normalizeRangeMY from_ to_).1
              (normalizeRangeMY from_ to_).2.1).2,
            [Call.repoGetSummary userID serviceName (normalizeRangeMY from_ to_).1
              (normalizeRangeMY from_ to_).2.1]) := by
  unfold SubscriptionService.GetSummary
  simp only [hr]
  cases hn : (normalizeRangeMY from_ to_).2.2 with
  | some err => rfl
  | none =>
    simp only []
    cases hq : (s.repo.GetSummary w userID serviceName (normalizeRangeMY from_ to_).1
        (normalizeRangeMY from_ to_).2.1).1.2 <;> simp

theorem normalizeRangeMY_no_error_of_valid {from_ to_ : String}
    (hf : from_ = "" ∨ IsMonthYearText from_) (ht : to_ = "" ∨ IsMonthYearText to_) :
    (normalizeRangeMY from_ to_).2.2 = none := by
  rw [normalizeRangeMY_eq]
  simp [parseMonthYear_no_error_of_valid hf, parseMonthYear_no_error_of_valid ht]

theorem memRedis_Get_missing (w : World) (key : String) (h : cacheLookup w.cache key = none) :
    memRedis.Get w key = (("", some (Error.external "redis: nil")), w) := by
  simp [memRedis, h]

theorem memRedis_Get_present (w : World) (key : String) (e : String × Nat)
    (h : cacheLookup w.cache key = some e) : memRedis.Get w key = ((e.1, none), w) := by
  simp [memRedis, h]

theorem cacheLookup_after_Set (w : World) (key : String) (value : Int) (ttl : Nat) :
    cacheLookup (memRedis.Set w key value ttl).2.cache key = some (String.mk (fmtd value), ttl) := by
  simp [memRedis, cacheLookup]

/-! ## Claims about the cache-aside summary -/

/-- C11: on the in-memory cache holding no entry for the key, with bounds that are
empty or of the form `MM-YYYY` and a storage query that returns `total` (a Go
`int`, 64 bits) and no error, the first `GetSummary` looks the key up, calls
the storage query once and stores the total under the key with the configured
TTL; a second `GetSummary` with the same arguments on the resulting state returns
the same total after the lookup alone, with no storage call. -/
theorem C11_first_call_computes_second_call_hits (repo : SubscriptionRepoInterface World)
    (ttl : Nat) (w w1 : World) (userID serviceName from_ to_ : String) (total : Int)
    (hf : from_ = "" ∨ IsMonthYearText from_) (ht : to_ = "" ∨ IsMonthYearText to_)
    (hfresh : cacheLookup w.cache
      ("summary:" ++ userID ++ ":" ++ serviceName ++ ":" ++ from_ ++ "-" ++ to_) = none)
    (hq : repo.GetSummary w userID serviceName (normalizeRangeMY from_ to_).1
      (normalizeRangeMY from_ to_).2.1 = ((total, none), w1))
    (hrange : -(2 ^ 63 : Int) ≤ total ∧ total ≤ 2 ^ 63 - 1) :
    (SubscriptionService.GetSummary { repo := repo, redis := some memRedis, ttl := ttl }
        w userID serviceName from_ to_).1 = (total, none) ∧
    (SubscriptionService.GetSummary { repo := repo, redis := some memRedis, ttl := ttl }
        w userID serviceName from_ to_).2.2
      = [Call.redisGet ("summary:" ++ userID ++ ":" ++ serviceName ++ ":" ++ from_ ++ "-" ++ to_),
         Call.repoGetSummary userID serviceName (normalizeRangeMY from_ to_).1
           (normalizeRangeMY from_ to_).2.1,
         Call.redisSet ("summary:" ++ userID ++ ":" ++ serviceName ++ ":" ++ from_ ++ "-" ++ to_)
           total ttl] ∧
    cacheLookup
        (SubscriptionService.GetSummary { repo := repo, redis := some memRedis, ttl := ttl }
          w userID serviceName from_ to_).2.1.cache
        ("summary:" ++ userID ++ ":" ++ serviceName ++ ":" ++ from_ ++ "-" ++ to_)
      = some (String.mk (fmtd total), ttl) ∧
    (SubscriptionService.GetSummary { repo := repo, redis := some memRedis, ttl := ttl }
        (SubscriptionService.GetSummary { repo := repo, redis := some memRedis, ttl := ttl }
          w userID serviceName from_ to_).2.1
        userID serviceName from_ to_).1 = (total, none) ∧
    (SubscriptionService.GetSummary { repo := repo, redis := some memRedis, ttl := ttl }
        (SubscriptionService.GetSummary { repo := repo, redis := some memRedis, ttl := ttl }
          w userID serviceName from_ to_).2.1
        userID serviceName from_ to_).2.2
      = [Call.redisGet ("summary:" ++ userID ++ ":" ++ serviceName ++ ":" ++ from_ ++ "-"
          ++ to_)] := by
  have hn := normalizeRangeMY_no_error_of_valid hf ht
  have hg := memRedis_Get_missing w _ hfresh
  have first : SubscriptionService.GetSummary
      { repo := repo, redis := some memRedis, ttl := ttl } w userID serviceName from_ to_
      = ((total, none),
          (memRedis.Set w1 ("summary:" ++ userID ++ ":" ++ serviceName ++ ":" ++ from_ ++ "-"
            ++ to_) total ttl).2,
          [Call.redisGet ("summary:" ++ userID ++ ":" ++ serviceName ++ ":" ++ from_ ++ "-"
            ++ to_),
           Call.repoGetSummary userID serviceName (normalizeRangeMY from_ to_).1
             (normalizeRangeMY from_ to_).2.1,
           Call.redisSet ("summary:" ++ userID ++ ":" ++ serviceName ++ ":" ++ from_ ++ "-"
            ++ to_) total ttl]) := by
    rw [GetSummary_miss _ w userID serviceName from_ to_ memRedis rfl
      (Or.inl (by rw [hg]; simp))]
    simp only [hn, hg, hq]
  have hstored := cacheLookup_after_Set w1
    ("summary:" ++ userID ++ ":" ++ serviceName ++ ":" ++ from_ ++ "-" ++ to_) total ttl
  have hg2 := memRedis_Get_present _ _ _ hstored
  have second : SubscriptionService.GetSummary
      { repo := repo, redis := some memRedis, ttl := ttl }
      (memRedis.Set w1 ("summary:" ++ userID ++ ":" ++ serviceName ++ ":" ++ from_ ++ "-"
        ++ to_) total ttl).2 userID serviceName from_ to_
      = ((total, none),
          (memRedis.Set w1 ("summary:" ++ userID ++ ":" ++ serviceName ++ ":" ++ from_ ++ "-"
            ++ to_) total ttl).2,
          [Call.redisGet ("summary:" ++ userID ++ ":" ++ serviceName ++ ":" ++ from_ ++ "-"
            ++ to_)]) := by
    rw [GetSummary_hit _ _ userID serviceName from_ to_ memRedis rfl total
      (by rw [hg2]) (by rw [hg2]; exact Sscanf_fmtd total hrange.1 hrange.2)]
    rw [hg2]
  rw [first]
  refine ⟨rfl, rfl, hstored, ?_, ?_⟩
  · simp only [second]
  · simp only [second]

/-- C11 on the in-memory service: the first summary of `u1` over all months
queries the table once and caches `100` under `summary:u1::-` for 60; the second
is answered from the cache. -/
theorem C11_first_call_computes_second_call_hits_witness :
    (SubscriptionService.GetSummary { repo := worldRepo, redis := some memRedis, ttl := 60 }
        (worldOf [rowActiveSince2020]) "u1" "" "" "").2.2
      = [Call.redisGet "summary:u1::-",
         Call.repoGetSummary "u1" "" (Date 1 1 1 0 0 0 0) (Date 9999 12 1 0 0 0 0),
         Call.redisSet "summary:u1::-" 100 60] ∧
    (SubscriptionService.GetSummary { repo := worldRepo, redis := some memRedis, ttl := 60 }
        (SubscriptionService.GetSummary { repo := worldRepo, redis := some memRedis, ttl := 60 }
          (worldOf [rowActiveSince2020]) "u1" "" "" "").2.1
        "u1" "" "" "").2.2
      = [Call.redisGet ("summary:" ++ "u1" ++ ":" ++ "" ++ ":" ++ "" ++ "-" ++ "")] :=
  ⟨by decide,
    (C11_first_call_computes_second_call_hits worldRepo 60 (worldOf [rowActiveSince2020])
      (worldOf [rowActiveSince2020]) "u1" "" "" "" 100 (Or.inl rfl) (Or.inl rfl)
      (by decide) (by decide) (by decide)).2.2.2.2⟩

theorem parseMonthYear_rejects {s : String} (h1 : Trim s '"' ≠ "")
    (h2 : ¬ IsMonthYearText (Trim s '"')) :
    s ≠ "" ∧ ∃ pe : ParseError,
      parseMonthYear s = (MonthYear.mk Time.zero, some (Error.invalidDateFormat pe)) := by
  constructor
  · intro h
    rw [h] at h1
    exact h1 (by decide)
  · cases hp : Parse (Trim s '"') with
    | ok t =>
      obtain ⟨m, y, a, b, c, d, -⟩ := Parse_ok_inv hp
      exact absurd ⟨m, y, a, b, c, d⟩ h2
    | error pe =>
      exact ⟨pe, by rw [parseMonthYear_eq, if_neg h1, hp]⟩

theorem normalizeRangeMY_error_of_rejected {from_ to_ : String}
    (h : (Trim from_ '"' ≠ "" ∧ ¬ IsMonthYearText (Trim from_ '"')) ∨
      (Trim to_ '"' ≠ "" ∧ ¬ IsMonthYearText (Trim to_ '"'))) :
    ∃ pe : ParseError, (normalizeRangeMY from_ to_).2.2 = some (Error.invalidDateFormat pe) := by
  rw [normalizeRangeMY_eq]
  by_cases hf : from_ ≠ "" ∧ (parseMonthYear from_).2 ≠ none
  · rw [if_pos hf]
    rcases parseMonthYear_cases from_ with ⟨u, -, e⟩ | ⟨pe, e⟩
    · rw [e] at hf; exact absurd rfl hf.2
    · exact ⟨pe, by rw [e]⟩
  · rw [if_neg hf]
    rcases h with ⟨a, b⟩ | ⟨a, b⟩
    · obtain ⟨n, pe, e⟩ := parseMonthYear_rejects a b
      exact absurd ⟨n, by rw [e]; simp⟩ hf
    · obtain ⟨n, pe, e⟩ := parseMonthYear_rejects a b
      rw [if_pos ⟨n, by rw [e]; simp⟩]
      exact ⟨pe, by rw [e]⟩

/-- C12 fails when the cache holds a total under the key of the request: after
`GetSummary("u1", "s:a", "", "")` has cached 100 under `summary:u1:s:a:-`, the call
`GetSummary("u1", "s", "a:", "")`, whose `from` text `a:` is rejected by
`parseMonthYear`, builds the same key and returns the cached 100 with no error. -/
theorem C12_cached_total_returned_for_malformed_bound :
    "a:" ≠ "" ∧ ¬ IsMonthYearText "a:" ∧ (parseMonthYear "a:").2 ≠ none ∧
    (SubscriptionService.GetSummary { repo := worldRepo, redis := some memRedis, ttl := 60 }
        (worldOf [{ rowActiveSince2020 with Service := "s:a" }]) "u1" "s:a" "" "").1
      = (100, none) ∧
    (SubscriptionService.GetSummary { repo := worldRepo, redis := some memRedis, ttl := 60 }
        (SubscriptionService.GetSummary { repo := worldRepo, redis := some memRedis, ttl := 60 }
          (worldOf [{ rowActiveSince2020 with Service := "s:a" }]) "u1" "s:a" "" "").2.1
        "u1" "s" "a:" "")
      = ((100, none),
          (SubscriptionService.GetSummary
            { repo := worldRepo, redis := some memRedis, ttl := 60 }
            (worldOf [{ rowActiveSince2020 with Service := "s:a" }]) "u1" "s:a" "" "").2.1,
          [Call.redisGet "summary:u1:s:a:-"]) := by
  refine ⟨by decide, ?_, by decide, by decide, by decide⟩
  rintro ⟨m, y, -, -, -, h⟩
  have := congrArg String.length h
  simp [monthYearText, String.length] at this

/-- C12 as amended: when the cache lookup does not hit (no cache configured, `Get`
returns an error, or the stored value does not scan as an integer) and `from` or
`to`, once its leading and trailing double quotes are removed, is neither empty
nor of the form `MM-YYYY`, `GetSummary` returns total 0 with the format error,
makes no storage call and no cache write, and returns the world as the lookup
left it. -/
theorem C12_format_error_on_cache_miss {σ : Type} (s : SubscriptionService σ) (w : σ)
    (userID serviceName from_ to_ : String)
    (hbad : (Trim from_ '"' ≠ "" ∧ ¬ IsMonthYearText (Trim from_ '"')) ∨
      (Trim to_ '"' ≠ "" ∧ ¬ IsMonthYearText (Trim to_ '"')))
    (hmiss : ∀ r, s.redis = some r →
      (r.Get w ("summary:" ++ userID ++ ":" ++ serviceName ++ ":" ++ from_ ++ "-"
        ++ to_)).1.2 ≠ none ∨
      Sscanf (r.Get w ("summary:" ++ userID ++ ":" ++ serviceName ++ ":" ++ from_ ++ "-"
        ++ to_)).1.1 = none) :
    ∃ pe : ParseError,
      (s.GetSummary w userID serviceName from_ to_).1 = (0, some (Error.invalidDateFormat pe)) ∧
      (normalizeRangeMY from_ to_).2.2 = some (Error.invalidDateFormat pe) ∧
      ((s.GetSummary w userID serviceName from_ to_).2.2 = [] ∨
        (s.GetSummary w userID serviceName from_ to_).2.2
          = [Call.redisGet ("summary:" ++ userID ++ ":" ++ serviceName ++ ":" ++ from_ ++ "-"
              ++ to_)]) ∧
      (s.GetSummary w userID serviceName from_ to_).2.1 =
        (match s.redis with
          | none => w
          | some r => (r.Get w ("summary:" ++ userID ++ ":" ++ serviceName ++ ":" ++ from_
              ++ "-" ++ to_)).2) := by
  obtain ⟨pe, hn⟩ := normalizeRangeMY_error_of_rejected hbad
  refine ⟨pe, ?_, hn, ?_, ?_⟩
  · cases hr : s.redis with
    | none => rw [GetSummary_nocache s w userID serviceName from_ to_ hr]; simp only [hn]
    | some r =>
      rw [GetSummary_miss s w userID serviceName from_ to_ r hr (hmiss r hr)]
      simp only [hn]
  · cases hr : s.redis with
    | none =>
      left
      rw [GetSummary_nocache s w userID serviceName from_ to_ hr]; simp only [hn]
    | some r =>
      right
      rw [GetSummary_miss s w userID serviceName from_ to_ r hr (hmiss r hr)]
      simp only [hn]
  · cases hr : s.redis with
    | none => rw [GetSummary_nocache s w userID serviceName from_ to_ hr]; simp only [hn]
    | some r =>
      rw [GetSummary_miss s w userID serviceName from_ to_ r hr (hmiss r hr)]
      simp only [hn]

/-- C12 as amended, on `from = "invalid-date"` with an empty cache: the format
error is returned after the lookup alone, and the world is the one the lookup
left. -/
theorem C12_format_error_on_cache_miss_witness :
    ∃ pe : ParseError,
      (SubscriptionService.GetSummary { repo := worldRepo, redis := some memRedis, ttl := 60 }
        (worldOf [rowActiveSince2020]) "u1" "" "invalid-date" "").1
        = (0, some (Error.invalidDateFormat pe)) ∧
      (normalizeRangeMY "invalid-date" "").2.2 = some (Error.invalidDateFormat pe) ∧
      ((SubscriptionService.GetSummary { repo := worldRepo, redis := some memRedis, ttl := 60 }
          (worldOf [rowActiveSince2020]) "u1" "" "invalid-date" "").2.2 = [] ∨
        (SubscriptionService.GetSummary { repo := worldRepo, redis := some memRedis, ttl := 60 }
          (worldOf [rowActiveSince2020]) "u1" "" "invalid-date" "").2.2
          = [Call.redisGet ("summary:" ++ "u1" ++ ":" ++ "" ++ ":" ++ "invalid-date" ++ "-"
              ++ "")]) ∧
      (SubscriptionService.GetSummary { repo := worldRepo, redis := some memRedis, ttl := 60 }
          (worldOf [rowActiveSince2020]) "u1" "" "invalid-date" "").2.1 =
        (memRedis.Get (worldOf [rowActiveSince2020])
          ("summary:" ++ "u1" ++ ":" ++ "" ++ ":" ++ "invalid-date" ++ "-" ++ "")).2 :=
  C12_format_error_on_cache_miss
    { repo := worldRepo, redis := some memRedis, ttl := 60 }
    (worldOf [rowActiveSince2020]) "u1" "" "invalid-date" ""
    (Or.inl ⟨by decide, by
      rintro ⟨m, y, -, -, -, h⟩
      have := congrArg String.length h
      have e : Trim "invalid-date" '"' = "invalid-date" := by decide
      rw [e] at this
      simp [monthYearText, String.length] at this⟩)
    (by
      intro r hr
      simp only [Option.some.injEq] at hr
      subst hr
      left
      decide)

/-! ## Lemmas: glob patterns and the in-memory keyspace -/

theorem anySuffix_of_nil (f : List Char → Bool) (h : f [] = true) (s : List Char) :
    anySuffix f s = true := by
  induction s with
  | nil => simpa [anySuffix] using h
  | cons c s ih => simp [anySuffix, ih]

theorem globMatchFuel_literal (lit : List Char)
    (hlit : ∀ c ∈ lit, c ≠ '*' ∧ c ≠ '?' ∧ c ≠ '[' ∧ c ≠ '\\') (fuel : Nat)
    (hfuel : lit.length + 2 ≤ fuel) (s : List Char) :
    globMatchFuel fuel none (lit ++ ['*']) s = true ↔ lit <+: s := by
  induction lit generalizing fuel s with
  | nil =>
    obtain ⟨f, rfl⟩ : ∃ f, fuel = f + 2 := ⟨fuel - 2, by simp at hfuel; omega⟩
    simp only [List.nil_append, List.nil_prefix, iff_true]
    simp only [globMatchFuel, if_true]
    exact anySuffix_of_nil _ (by simp [globMatchFuel]) s
  | cons c lit ih =>
    obtain ⟨f, rfl⟩ : ∃ f, fuel = f + 1 := ⟨fuel - 1, by simp at hfuel; omega⟩
    have hc := hlit c (by simp)
    have hf : lit.length + 2 ≤ f := by simp at hfuel; omega
    cases s with
    | nil => simp [globMatchFuel, hc.1]
    | cons x s1 =>
      simp only [List.cons_append, globMatchFuel, hc.1, hc.2.1, hc.2.2.1, hc.2.2.2, if_false,
        Bool.and_eq_true, decide_eq_true_eq]
      have key := ih (fun d hd => hlit d (List.mem_cons_of_mem _ hd)) f hf s1
      change (x = c ∧ globMatchFuel f none (lit ++ ['*']) s1 = true) ↔ _
      rw [key, List.cons_prefix_cons]
      constructor
      · rintro ⟨a, b⟩; exact ⟨a.symm, b⟩
      · rintro ⟨a, b⟩; exact ⟨a.symm, b⟩

/-- A user id free of the glob metacharacters `*`, `?`, `[` and `\`. -/
theorem globMatch_user_pattern (userID : String)
    (hu : ∀ c ∈ userID.data, c ≠ '*' ∧ c ≠ '?' ∧ c ≠ '[' ∧ c ≠ '\\') (key : String) :
    globMatch ("summary:" ++ userID ++ ":*").data key.data = true ↔
      ("summary:" ++ userID ++ ":").data <+: key.data := by
  have e : ("summary:" ++ userID ++ ":*").data = ("summary:" ++ userID ++ ":").data ++ ['*'] := by
    simp [String.data_append]
  unfold globMatch
  rw [e]
  apply globMatchFuel_literal
  · intro c hc
    simp only [String.data_append, List.mem_append] at hc
    rcases hc with (hc | hc) | hc
    · have : ∀ d ∈ "summary:".data, d ≠ '*' ∧ d ≠ '?' ∧ d ≠ '[' ∧ d ≠ '\\' := by decide
      exact this c hc
    · exact hu c hc
    · have : ∀ d ∈ ":".data, d ≠ '*' ∧ d ≠ '?' ∧ d ≠ '[' ∧ d ≠ '\\' := by decide
      exact this c hc
  · simp

theorem cacheLookup_cacheRemove (cache : List (String × String × Nat)) (k key : String) :
    cacheLookup (cacheRemove cache k) key = if k = key then none else cacheLookup cache key := by
  induction cache with
  | nil => simp [cacheRemove, cacheLookup]
  | cons e rest ih =>
    have ih2 : cacheLookup (rest.filter (fun e => !decide (e.1 = k))) key
        = if k = key then none else cacheLookup rest key := ih
    show cacheLookup ((e :: rest).filter (fun e => !decide (e.1 = k))) key = _
    rw [List.filter_cons]
    by_cases h1 : e.1 = k
    · simp only [h1, decide_True, Bool.not_true, Bool.false_eq_true, if_false]
      rw [ih2]
      by_cases h2 : k = key
      · rw [if_pos h2, if_pos h2]
      · rw [if_neg h2, if_neg h2]
        simp only [cacheLookup]
        rw [if_neg (by rw [h1]; exact h2)]
    · simp only [h1, decide_False, Bool.not_false, if_true, cacheLookup]
      rw [ih2]
      by_cases h2 : k = key
      · rw [if_pos h2, if_pos h2, if_neg (by rw [← h2]; exact h1)]
      · rw [if_neg h2, if_neg h2]

theorem cacheLookup_eq_none_of_not_mem (cache : List (String × String × Nat)) (key : String)
    (h : key ∉ cache.map (fun e => e.1)) : cacheLookup cache key = none := by
  induction cache with
  | nil => rfl
  | cons e rest ih =>
    simp only [List.map_cons, List.mem_cons, not_or] at h
    simp only [cacheLookup]
    rw [if_neg (fun a => h.1 a.symm)]
    exact ih h.2

theorem deleteKeys_memKeys_lookup (ks : List String) (w : World) (key : String) :
    cacheLookup (deleteKeys memKeys ks w).1.cache key =
      if key ∈ ks then none else cacheLookup w.cache key := by
  induction ks generalizing w with
  | nil => simp [deleteKeys]
  | cons k ks ih =>
    simp only [deleteKeys]
    rw [ih]
    by_cases h1 : key ∈ ks
    · simp [h1]
    · have e : (memKeys.Del w k).2.cache = cacheRemove w.cache k := rfl
      rw [if_neg h1, e, cacheLookup_cacheRemove]
      by_cases h2 : k = key
      · simp [h2]
      · have h3 : key ∉ k :: ks := by
          simp only [List.mem_cons, not_or]
          exact ⟨fun a => h2 a.symm, h1⟩
        rw [if_neg h2, if_neg h3]

theorem invalidateCache_memKeys_lookup (s : Service World) (hk : s.keys = memKeys)
    (r : RedisInterface World) (hr : s.summary.redis = some r) (w : World)
    (userID key : String) :
    cacheLookup (s.invalidateCache w userID).1.cache key =
      if globMatch ("summary:" ++ userID ++ ":*").data key.data = true then none
      else cacheLookup w.cache key := by
  unfold Service.invalidateCache
  rw [hr, Sprintf_invalidate_pattern, hk]
  simp only [deleteKeys_memKeys_lookup]
  have e : (memKeys.Scan w ("summary:" ++ userID ++ ":*")).2 = w := rfl
  have e1 : (memKeys.Scan w ("summary:" ++ userID ++ ":*")).1 =
      (w.cache.map (fun e => e.1)).filter
        (fun k => globMatch ("summary:" ++ userID ++ ":*").data k.data) := rfl
  rw [e, e1]
  by_cases hm : globMatch ("summary:" ++ userID ++ ":*").data key.data = true
  · rw [if_pos hm]
    by_cases hin : key ∈ w.cache.map (fun e => e.1)
    · have hmem : key ∈ (w.cache.map (fun e => e.1)).filter
          (fun k => globMatch ("summary:" ++ userID ++ ":*").data k.data) :=
        List.mem_filter.mpr ⟨hin, hm⟩
      rw [if_pos hmem]
    · have hmem : key ∉ (w.cache.map (fun e => e.1)).filter
          (fun k => globMatch ("summary:" ++ userID ++ ":*").data k.data) :=
        fun a => hin (List.mem_filter.mp a).1
      rw [if_neg hmem]
      exact cacheLookup_eq_none_of_not_mem _ _ hin
  · have hmem : key ∉ (w.cache.map (fun e => e.1)).filter
        (fun k => globMatch ("summary:" ++ userID ++ ":*").data k.data) :=
      fun a => hm (List.mem_filter.mp a).2
    rw [if_neg hm, if_neg hmem]

theorem eq_of_append_colon_eq (a b x y : List Char) (ha : ':' ∉ a) (hb : ':' ∉ b)
    (h : a ++ ':' :: x = b ++ ':' :: y) : a = b := by
  induction a generalizing b with
  | nil =>
    cases b with
    | nil => rfl
    | cons d b =>
      simp only [List.nil_append, List.cons_append, List.cons.injEq] at h
      exact absurd (by rw [← h.1]; simp) hb
  | cons c a ih =>
    cases b with
    | nil =>
      simp only [List.nil_append, List.cons_append, List.cons.injEq] at h
      exact absurd (by rw [h.1]; simp) ha
    | cons d b =>
      simp only [List.cons_append, List.cons.injEq] at h
      rw [h.1, ih b (fun m => ha (List.mem_cons_of_mem _ m))
        (fun m => hb (List.mem_cons_of_mem _ m)) h.2]

/-! ## Claims about the invalidation -/

/-- C13, evaluated on the user id `corp\alice`: the summary of that user is cached
under `summary:corp\alice::-`; `invalidateCache` scans with the pattern
`summary:corp\alice:*`, in which `\a` stands for a literal `a`, so the scan yields
no key, nothing is deleted and the cached total is still there. -/
theorem C13_backslash_user_keeps_cached_summary :
    cacheLookup
        ((memService 60).summary.GetSummary
          (worldOf [{ rowActiveSince2020 with UserID := "corp\\alice" }])
          "corp\\alice" "" "" "").2.1.cache
        "summary:corp\\alice::-" = some ("100", 60) ∧
    (Service.invalidateCache (memService 60)
        ((memService 60).summary.GetSummary
          (worldOf [{ rowActiveSince2020 with UserID := "corp\\alice" }])
          "corp\\alice" "" "" "").2.1
        "corp\\alice").2 = [Call.redisScan "summary:corp\\alice:*"] ∧
    cacheLookup
        (Service.invalidateCache (memService 60)
          ((memService 60).summary.GetSummary
            (worldOf [{ rowActiveSince2020 with UserID := "corp\\alice" }])
            "corp\\alice" "" "" "").2.1
          "corp\\alice").1.cache
        "summary:corp\\alice::-" = some ("100", 60) := by
  decide

/-- For a user id free of the glob metacharacters `*`, `?`, `[` and `\`, on the
in-memory keyspace, no key written by `GetSummary` for that user is left in the
cache after `invalidateCache`. -/
theorem invalidateCache_removes_keys_of_plain_user (s : Service World) (hk : s.keys = memKeys)
    (r : RedisInterface World) (hr : s.summary.redis = some r) (w : World)
    (userID serviceName from_ to_ : String)
    (hu : ∀ c ∈ userID.data, c ≠ '*' ∧ c ≠ '?' ∧ c ≠ '[' ∧ c ≠ '\\') :
    cacheLookup (s.invalidateCache w userID).1.cache
      ("summary:" ++ userID ++ ":" ++ serviceName ++ ":" ++ from_ ++ "-" ++ to_) = none := by
  rw [invalidateCache_memKeys_lookup s hk r hr, if_pos]
  rw [globMatch_user_pattern userID hu]
  simp only [String.data_append, List.append_assoc]
  exact ⟨serviceName.data ++ ([':'] ++ (from_.data ++ (['-'] ++ to_.data))), by simp⟩

/-- C14, evaluated on the users `team` and `team:alice`: the summary of
`team:alice` is cached under `summary:team:alice::-`, which the pattern
`summary:team:*` of `invalidateCache("team")` matches; the entry of the other
user is deleted. -/
theorem C14_prefix_user_deletes_other_users_key :
    ("team" : String) ≠ "team:alice" ∧
    cacheLookup
        ((memService 60).summary.GetSummary
          (worldOf [{ rowActiveSince2020 with UserID := "team:alice" }])
          "team:alice" "" "" "").2.1.cache
        "summary:team:alice::-" = some ("100", 60) ∧
    (Service.invalidateCache (memService 60)
        ((memService 60).summary.GetSummary
          (worldOf [{ rowActiveSince2020 with UserID := "team:alice" }])
          "team:alice" "" "" "").2.1
        "team").2 = [Call.redisScan "summary:team:*", Call.redisDel "summary:team:alice::-"] ∧
    cacheLookup
        (Service.invalidateCache (memService 60)
          ((memService 60).summary.GetSummary
            (worldOf [{ rowActiveSince2020 with UserID := "team:alice" }])
            "team:alice" "" "" "").2.1
          "team").1.cache
        "summary:team:alice::-" = none := by
  decide

/-- For two distinct user ids without `:`, the first free of the glob
metacharacters `*`, `?`, `[` and `\`, on the in-memory keyspace,
`invalidateCache` of the first leaves every key written by `GetSummary` for the
second as it was. -/
theorem invalidateCache_keeps_keys_of_other_plain_user (s : Service World)
    (hk : s.keys = memKeys) (r : RedisInterface World) (hr : s.summary.redis = some r)
    (w : World) (u v serviceName from_ to_ : String) (huv : u ≠ v)
    (hu : ∀ c ∈ u.data, c ≠ '*' ∧ c ≠ '?' ∧ c ≠ '[' ∧ c ≠ '\\')
    (hcu : ':' ∉ u.data) (hcv : ':' ∉ v.data) :
    cacheLookup (s.invalidateCache w u).1.cache
        ("summary:" ++ v ++ ":" ++ serviceName ++ ":" ++ from_ ++ "-" ++ to_)
      = cacheLookup w.cache
        ("summary:" ++ v ++ ":" ++ serviceName ++ ":" ++ from_ ++ "-" ++ to_) := by
  rw [invalidateCache_memKeys_lookup s hk r hr, if_neg]
  rw [globMatch_user_pattern u hu]
  simp only [String.data_append, List.append_assoc]
  rw [List.prefix_append_right_inj]
  rintro ⟨t, ht⟩
  simp only [List.append_assoc, List.singleton_append, List.cons_append] at ht
  exact huv (String.ext (eq_of_append_colon_eq _ _ _ _ hcu hcv ht))

/-- C15, evaluated on an update whose body names no user: row 1 belongs to `u1`,
whose summary 100 is cached; `Update` of row 1 with `user_id` empty and price 250
succeeds, the row keeps its owner `u1` and gets the new price, the invalidation
scans `summary::*`, the entry of `u1` stays, and the next `GetSummary` of `u1`
returns the cached 100 without a storage call while the table sums to 250. -/
theorem C15_update_keeps_owner_cache :
    (Service.Update (memService 60)
        ((memService 60).summary.GetSummary (worldOf [rowActiveSince2020]) "u1" "" "" "").2.1
        { rowActiveSince2020 with UserID := "", Price := 250 }).1.2 = none ∧
    (Service.Update (memService 60)
        ((memService 60).summary.GetSummary (worldOf [rowActiveSince2020]) "u1" "" "" "").2.1
        { rowActiveSince2020 with UserID := "", Price := 250 }).2.2
      = [Call.repoUpdate { rowActiveSince2020 with UserID := "", Price := 250 },
         Call.redisScan "summary::*",
         Call.publish "subscriptions" "updated" "subscription:1:"] ∧
    (Service.Update (memService 60)
        ((memService 60).summary.GetSummary (worldOf [rowActiveSince2020]) "u1" "" "" "").2.1
        { rowActiveSince2020 with UserID := "", Price := 250 }).2.1.table.map
          (fun r => (r.ID, r.UserID, r.Price)) = [(1, "u1", 250)] ∧
    ((memService 60).summary.GetSummary
        (Service.Update (memService 60)
          ((memService 60).summary.GetSummary (worldOf [rowActiveSince2020]) "u1" "" "" "").2.1
          { rowActiveSince2020 with UserID := "", Price := 250 }).2.1
        "u1" "" "" "").1 = (100, none) ∧
    ((memService 60).summary.GetSummary
        (Service.Update (memService 60)
          ((memService 60).summary.GetSummary (worldOf [rowActiveSince2020]) "u1" "" "" "").2.1
          { rowActiveSince2020 with UserID := "", Price := 250 }).2.1
        "u1" "" "" "").2.2 = [Call.redisGet "summary:u1::-"] ∧
    SubscriptionRepo.GetSummary
        (Service.Update (memService 60)
          ((memService 60).summary.GetSummary (worldOf [rowActiveSince2020]) "u1" "" "" "").2.1
          { rowActiveSince2020 with UserID := "", Price := 250 }).2.1.table
        "u1" "" (Date 1 1 1 0 0 0 0) (Date 9999 12 1 0 0 0 0) = (250, none) := by
  decide
/-! ## Claims about the summary without a cached value -/

/-- C21: with no cache configured, or when the lookup of the key misses (the read
fails or the stored text does not scan as an integer), `GetSummary` with bounds
that are empty or of the form `MM-YYYY` calls the storage summary query once,
with the user, the service filter and the two bounds of `normalizeRangeMY`, and,
the query returning `total` with no error, returns `total` with no error.  The
trace holds the lookup (if a cache is configured), the storage call, and the
write-back (if a cache is configured), in this order; the world returned is the
one the storage query left, after the write-back `Set(key, total, ttl)` if a
cache is configured. -/
theorem C21_miss_delegates_to_storage {σ : Type} (s : SubscriptionService σ) (w w1 : σ)
    (userID serviceName from_ to_ : String) (total : Int)
    (hf : from_ = "" ∨ IsMonthYearText from_) (ht : to_ = "" ∨ IsMonthYearText to_)
    (hmiss : ∀ r, s.redis = some r →
      (r.Get w ("summary:" ++ userID ++ ":" ++ serviceName ++ ":" ++ from_ ++ "-"
        ++ to_)).1.2 ≠ none ∨
      Sscanf (r.Get w ("summary:" ++ userID ++ ":" ++ serviceName ++ ":" ++ from_ ++ "-"
        ++ to_)).1.1 = none)
    (hq : s.repo.GetSummary
        (match s.redis with
          | none => w
          | some r => (r.Get w ("summary:" ++ userID ++ ":" ++ serviceName ++ ":" ++ from_
              ++ "-" ++ to_)).2)
        userID serviceName (normalizeRangeMY from_ to_).1 (normalizeRangeMY from_ to_).2.1
      = ((total, none), w1)) :
    (s.GetSummary w userID serviceName from_ to_).1 = (total, none) ∧
    (s.GetSummary w userID serviceName from_ to_).2.2 =
      (match s.redis with
        | none => []
        | some _ => [Call.redisGet ("summary:" ++ userID ++ ":" ++ serviceName ++ ":" ++ from_
            ++ "-" ++ to_)]) ++
      [Call.repoGetSummary userID serviceName (normalizeRangeMY from_ to_).1
        (normalizeRangeMY from_ to_).2.1] ++
      (match s.redis with
        | none => []
        | some _ => [Call.redisSet ("summary:" ++ userID ++ ":" ++ serviceName ++ ":" ++ from_
            ++ "-" ++ to_) total s.ttl]) ∧
    (s.GetSummary w userID serviceName from_ to_).2.1 =
      (match s.redis with
        | none => w1
        | some r => (r.Set w1 ("summary:" ++ userID ++ ":" ++ serviceName ++ ":" ++ from_
            ++ "-" ++ to_) total s.ttl).2) := by
  have hn := normalizeRangeMY_no_error_of_valid hf ht
  cases hr : s.redis with
  | none =>
    rw [hr] at hq
    rw [GetSummary_nocache s w userID serviceName from_ to_ hr]
    simp [hn, hq]
  | some r =>
    rw [hr] at hq
    rw [GetSummary_miss s w userID serviceName from_ to_ r hr (hmiss r hr)]
    simp [hn, hq]

/-- C21 on the table repository with no cache: the summary of `user1` for service
`test` from `01-2025` to `12-2025` queries storage once, with 2025-01-01T00:00:00Z
and 2025-12-01T00:00:00Z, and returns the total 100 of the table. -/
theorem C21_miss_delegates_to_storage_witness :
    (SubscriptionService.GetSummary { repo := tableRepo, redis := none, ttl := 60 }
        [{ rowActiveSince2020 with UserID := "user1", Service := "test" }]
        "user1" "test" "01-2025" "12-2025").1 = (100, none) ∧
    (SubscriptionService.GetSummary { repo := tableRepo, redis := none, ttl := 60 }
        [{ rowActiveSince2020 with UserID := "user1", Service := "test" }]
        "user1" "test" "01-2025" "12-2025").2.2 =
      [] ++ [Call.repoGetSummary "user1" "test" (Date 2025 1 1 0 0 0 0)
        (Date 2025 12 1 0 0 0 0)] ++ [] ∧
    (SubscriptionService.GetSummary { repo := tableRepo, redis := none, ttl := 60 }
        [{ rowActiveSince2020 with UserID := "user1", Service := "test" }]
        "user1" "test" "01-2025" "12-2025").2.1 =
      [{ rowActiveSince2020 with UserID := "user1", Service := "test" }] :=
  C21_miss_delegates_to_storage { repo := tableRepo, redis := none, ttl := 60 }
    [{ rowActiveSince2020 with UserID := "user1", Service := "test" }]
    [{ rowActiveSince2020 with UserID := "user1", Service := "test" }]
    "user1" "test" "01-2025" "12-2025" 100
    (Or.inr ⟨1, 2025, by decide, by decide, by decide, by decide⟩)
    (Or.inr ⟨12, 2025, by decide, by decide, by decide, by decide⟩)
    (fun r h => nomatch h) (by decide)

/-- C22: for every cache client, whatever its `Set` returns: when the read of the
key returns an error, or a text that does not scan as an integer, `GetSummary`
returns what the service without a cache returns on the world left by the read;
with bounds that are empty or of the form `MM-YYYY` and a storage query that
returns `total` with no error it calls the write-back `Set(key, total, ttl)` on
the world the query left, returns the world the write-back leaves, whatever the
write-back answers, and returns `total` with no error. -/
theorem C22_cache_failures_are_not_errors {σ : Type} (repo : SubscriptionRepoInterface σ)
    (r : RedisInterface σ) (ttl : Nat) (w w1 : σ)
    (userID serviceName from_ to_ : String) (total : Int)
    (hmiss : (r.Get w ("summary:" ++ userID ++ ":" ++ serviceName ++ ":" ++ from_ ++ "-"
        ++ to_)).1.2 ≠ none ∨
      Sscanf (r.Get w ("summary:" ++ userID ++ ":" ++ serviceName ++ ":" ++ from_ ++ "-"
        ++ to_)).1.1 = none)
    (hf : from_ = "" ∨ IsMonthYearText from_) (ht : to_ = "" ∨ IsMonthYearText to_)
    (hq : repo.GetSummary
        (r.Get w ("summary:" ++ userID ++ ":" ++ serviceName ++ ":" ++ from_ ++ "-" ++ to_)).2
        userID serviceName (normalizeRangeMY from_ to_).1 (normalizeRangeMY from_ to_).2.1
      = ((total, none), w1)) :
    (SubscriptionService.GetSummary { repo := repo, redis := some r, ttl := ttl }
        w userID serviceName from_ to_).1 = (total, none) ∧
    (SubscriptionService.GetSummary { repo := repo, redis := some r, ttl := ttl }
        w userID serviceName from_ to_).1 =
      (SubscriptionService.GetSummary { repo := repo, redis := none, ttl := ttl }
        (r.Get w ("summary:" ++ userID ++ ":" ++ serviceName ++ ":" ++ from_ ++ "-" ++ to_)).2
        userID serviceName from_ to_).1 ∧
    (SubscriptionService.GetSummary { repo := repo, redis := some r, ttl := ttl }
        w userID serviceName from_ to_).2.2 =
      [Call.redisGet ("summary:" ++ userID ++ ":" ++ serviceName ++ ":" ++ from_ ++ "-" ++ to_),
       Call.repoGetSummary userID serviceName (normalizeRangeMY from_ to_).1
         (normalizeRangeMY from_ to_).2.1,
       Call.redisSet ("summary:" ++ userID ++ ":" ++ serviceName ++ ":" ++ from_ ++ "-" ++ to_)
         total ttl] ∧
    (SubscriptionService.GetSummary { repo := repo, redis := some r, ttl := ttl }
        w userID serviceName from_ to_).2.1 =
      (r.Set w1 ("summary:" ++ userID ++ ":" ++ serviceName ++ ":" ++ from_ ++ "-" ++ to_)
        total ttl).2 := by
  have hn := normalizeRangeMY_no_error_of_valid hf ht
  rw [GetSummary_miss _ w userID serviceName from_ to_ r rfl hmiss,
    GetSummary_nocache _ _ userID serviceName from_ to_ rfl]
  simp [hn, hq]

/-- C22 on a cache whose reads return `not-a-number` and whose writes fail: the
summary of `u1` over all months is the total 100 of the table, with no error. -/
theorem C22_cache_failures_are_not_errors_witness :
    ((brokenRedis (List Subscription)).Set [rowActiveSince2020] "summary:u1::-" 100 60).1
      ≠ none ∧
    (SubscriptionService.GetSummary
        { repo := tableRepo, redis := some (brokenRedis (List Subscription)), ttl := 60 }
        [rowActiveSince2020] "u1" "" "" "").1 = (100, none) :=
  ⟨by decide,
    (C22_cache_failures_are_not_errors tableRepo (brokenRedis (List Subscription)) 60
      [rowActiveSince2020] [rowActiveSince2020] "u1" "" "" "" 100 (Or.inr (by decide))
      (Or.inl rfl) (Or.inl rfl) (by decide)).1⟩

/-! ## Claims about get and list -/

/-- C27: `Get` and `List` call storage once with their argument and return its
answer: when storage returns no error, the subscription (or the list) that
storage returned, with no error; when storage returns an error, no subscription
(an empty list) and that same error.  The world after the call is the one
storage leaves. -/
theorem C27_get_and_list_return_storage_answer {σ : Type} (s : Service σ)
    (lister : SubscriptionRepoList σ) (w : σ) (id : Int) (userID : String) :
    ((s.repo.GetByID w id).1.2 = none →
      (s.Get w id).1 = ((s.repo.GetByID w id).1.1, none)) ∧
    (∀ err, (s.repo.GetByID w id).1.2 = some err → (s.Get w id).1 = (none, some err)) ∧
    (s.Get w id).2 = ((s.repo.GetByID w id).2, [Call.repoGetByID id]) ∧
    ((lister.List w userID).1.2 = none →
      (s.List lister w userID).1 = ((lister.List w userID).1.1, none)) ∧
    (∀ err, (lister.List w userID).1.2 = some err →
      (s.List lister w userID).1 = ([], some err)) ∧
    (s.List lister w userID).2 = ((lister.List w userID).2, [Call.repoList userID]) := by
  refine ⟨?_, ?_, ?_, ?_, ?_, ?_⟩
  · intro h; simp [Service.Get, h]
  · intro err h; simp [Service.Get, h]
  · unfold Service.Get
    cases h : (s.repo.GetByID w id).1.2 <;> simp [h]
  · intro h; simp [Service.List, h]
  · intro err h; simp [Service.List, h]
  · unfold Service.List
    cases h : (lister.List w userID).1.2 <;> simp [h]

/-- C27 on the in-memory table holding one row with id 1 of `u1`: `Get 1`
returns the row, `Get 7` returns no subscription and the no-rows error, `List`
returns the rows of the user. -/
theorem C27_get_and_list_return_storage_answer_witness :
    ((memService 60).Get (worldOf [rowActiveSince2020]) 1).1
      = (some rowActiveSince2020, none) ∧
    ((memService 60).Get (worldOf [rowActiveSince2020]) 7).1 = (none, some ErrNoRows) ∧
    ((memService 60).List tableList (worldOf [rowActiveSince2020]) "u1").1
      = ([rowActiveSince2020], none) :=
  ⟨(C27_get_and_list_return_storage_answer (memService 60) tableList
      (worldOf [rowActiveSince2020]) 1 "u1").1 (by decide),
    (C27_get_and_list_return_storage_answer (memService 60) tableList
      (worldOf [rowActiveSince2020]) 7 "u1").2.1 ErrNoRows (by decide),
    (C27_get_and_list_return_storage_answer (memService 60) tableList
      (worldOf [rowActiveSince2020]) 1 "u1").2.2.2.1 (by decide)⟩

/-! ## Claims about the cache key -/

/-- C30, evaluated on the tuples `("a:b", "x", "", "")` and `("a", "b:x", "", "")`:
they differ in the user and give the same key `summary:a:b:x:-`; on the in-memory
service, after user `a:b` has asked for the
summary of service `x` (total 100), the summary of user `a` for service `b:x`,
for which the table holds no row, is answered 100 from the cache, with no
storage call. -/
theorem C30_key_collision_crosses_users :
    ("a:b", "x") ≠ ("a", "b:x") ∧
    String.mk (Sprintf "summary:%s:%s:%s-%s".data ["a:b", "x", "", ""]) = "summary:a:b:x:-" ∧
    String.mk (Sprintf "summary:%s:%s:%s-%s".data ["a", "b:x", "", ""]) = "summary:a:b:x:-" ∧
    SubscriptionRepo.GetSummary
      [{ rowActiveSince2020 with UserID := "a:b", Service := "x" }] "a" "b:x"
      (Date 1 1 1 0 0 0 0) (Date 9999 12 1 0 0 0 0) = (0, none) ∧
    ((memService 60).summary.GetSummary
        ((memService 60).summary.GetSummary
          (worldOf [{ rowActiveSince2020 with UserID := "a:b", Service := "x" }])
          "a:b" "x" "" "").2.1
        "a" "b:x" "" "").1 = (100, none) ∧
    ((memService 60).summary.GetSummary
        ((memService 60).summary.GetSummary
          (worldOf [{ rowActiveSince2020 with UserID := "a:b", Service := "x" }])
          "a:b" "x" "" "").2.1
        "a" "b:x" "" "").2.2 = [Call.redisGet "summary:a:b:x:-"] := by
  refine ⟨by decide, by decide, by decide, by decide, by decide, by decide⟩


/-! ## Lemmas: the publisher -/

theorem publishAll_open (msgs : List publishMsg) (r : RabbitPublisher)
    (hc : r.closed = false) (hp : r.parked = false) (hlen : r.queue.length ≤ r.capacity) :
    r.publishAll msgs =
      ((msgs.take (r.capacity - r.queue.length)).map (fun _ => Outcome.returned none) ++
        (msgs.drop (r.capacity - r.queue.length)).map
          (fun _ => Outcome.returned (some ErrQueueFull)),
       { r with queue := r.queue ++ msgs.take (r.capacity - r.queue.length) }) := by
  induction msgs generalizing r with
  | nil => simp [RabbitPublisher.publishAll]
  | cons m rest ih =>
    by_cases hfull : r.queue.length < r.capacity
    · have hstep : r.Publish m.exchange m.routingKey m.body =
          (Outcome.returned none, { r with queue := r.queue ++ [m] }) := by
        simp [RabbitPublisher.Publish, hc, hp, hfull]
      have hk : r.capacity - r.queue.length = (r.capacity - (r.queue.length + 1)) + 1 := by
        omega
      simp only [RabbitPublisher.publishAll, hstep]
      rw [ih { r with queue := r.queue ++ [m] } hc hp (by simp; omega)]
      simp only [List.length_append, List.length_singleton]
      rw [hk]
      simp
    · have hstep : r.Publish m.exchange m.routingKey m.body =
          (Outcome.returned (some ErrQueueFull), r) := by
        simp [RabbitPublisher.Publish, hc, hp, hfull]
      have hk : r.capacity - r.queue.length = 0 := by omega
      simp only [RabbitPublisher.publishAll, hstep]
      rw [ih r hc hp hlen, hk]
      simp

theorem Consistent_start {τ : Type} (ch : AmqpChannel τ) (t0 : τ) (N : Nat) :
    (PublisherRun.start N t0).Consistent ch t0 N := by
  simp [PublisherRun.Consistent, PublisherRun.start, NewRabbitPublisher]

theorem Consistent_step {τ : Type} (ch : AmqpChannel τ) (t0 : τ) (N : Nat)
    (x : PublisherRun τ) (a : PublisherAction) (h : x.Consistent ch t0 N) :
    (x.step ch a).Consistent ch t0 N := by
  obtain ⟨⟨q, cap, closed, parked, infl, done⟩, t, acc, sent⟩ := x
  obtain ⟨h1, h2, h3, h4, h5, h6⟩ := h
  simp only at h1 h2 h3 h4 h5 h6
  subst h1 h2 h3
  cases a with
  | publish e k b =>
    cases closed <;> cases parked <;> cases done <;>
      first
      | (exfalso; simp at h5; done)
      | (exfalso; simp at h6; done)
      | skip
    · by_cases hlt : q.length < cap
      · simp [PublisherRun.Consistent, PublisherRun.step, RabbitPublisher.Publish, hlt]
        omega
      · simp [PublisherRun.Consistent, PublisherRun.step, RabbitPublisher.Publish, hlt,
          ErrQueueFull]
        exact h4
    · simp at h5
      obtain ⟨rfl, rfl⟩ := h5
      simp [PublisherRun.Consistent, PublisherRun.step, RabbitPublisher.Publish]
    · simp [PublisherRun.Consistent, PublisherRun.step, RabbitPublisher.Publish]
      exact h4
    · simp at h6
      obtain ⟨rfl, rfl⟩ := h6
      simp [PublisherRun.Consistent, PublisherRun.step, RabbitPublisher.Publish]
  | work =>
    cases closed <;> cases parked <;> cases done <;>
      first
      | (exfalso; simp at h5; done)
      | (exfalso; simp at h6; done)
      | skip
    all_goals simp at h5 h6
    all_goals (cases infl <;> cases q <;>
      simp [PublisherRun.Consistent, PublisherRun.step, RabbitPublisher.workerStep])
    all_goals first
      | (simp at h5)
      | (simp at h6)
      | (simp at h4; omega)
  | close =>
    cases closed <;> cases parked <;> cases done <;>
      first
      | (exfalso; simp at h5; done)
      | (exfalso; simp at h6; done)
      | skip
    all_goals simp at h5 h6
    all_goals simp [PublisherRun.Consistent, PublisherRun.step, RabbitPublisher.Close]
    all_goals first
      | exact h4
      | exact ⟨h4, h5⟩
      | exact ⟨h4, h6⟩

theorem Consistent_run {τ : Type} (ch : AmqpChannel τ) (t0 : τ) (N : Nat)
    (actions : List PublisherAction) (x : PublisherRun τ) (h : x.Consistent ch t0 N) :
    (x.run ch actions).Consistent ch t0 N := by
  induction actions generalizing x with
  | nil => exact h
  | cons a rest ih => exact ih (x.step ch a) (Consistent_step ch t0 N x a h)

theorem run_append {τ : Type} (ch : AmqpChannel τ) (x : PublisherRun τ)
    (as bs : List PublisherAction) : x.run ch (as ++ bs) = (x.run ch as).run ch bs := by
  simp [PublisherRun.run, List.foldl_append]

theorem run_cons {τ : Type} (ch : AmqpChannel τ) (x : PublisherRun τ)
    (a : PublisherAction) (as : List PublisherAction) :
    x.run ch (a :: as) = (x.step ch a).run ch as := rfl

theorem closed_step {τ : Type} (ch : AmqpChannel τ) (x : PublisherRun τ) (a : PublisherAction)
    (h : x.pub.closed = true) :
    (x.step ch a).pub.closed = true ∧ (x.step ch a).accepted = x.accepted := by
  obtain ⟨⟨q, cap, closed, parked, infl, done⟩, t, acc, sent⟩ := x
  simp only at h
  subst h
  cases a with
  | publish e k b => simp [PublisherRun.step, RabbitPublisher.Publish]
  | work =>
    cases done <;> cases infl <;> cases q <;>
      simp [PublisherRun.step, RabbitPublisher.workerStep]
  | close => simp [PublisherRun.step, RabbitPublisher.Close]

theorem closed_run {τ : Type} (ch : AmqpChannel τ) (actions : List PublisherAction)
    (x : PublisherRun τ) (h : x.pub.closed = true) :
    (x.run ch actions).pub.closed = true ∧ (x.run ch actions).accepted = x.accepted := by
  induction actions generalizing x with
  | nil => exact ⟨h, rfl⟩
  | cons a rest ih =>
    rw [run_cons]
    have hs := closed_step ch x a h
    have hr := ih (x.step ch a) hs.1
    exact ⟨hr.1, hr.2.trans hs.2⟩

theorem closed_after_close {τ : Type} (ch : AmqpChannel τ) (x : PublisherRun τ) :
    (x.step ch PublisherAction.close).pub.closed = true ∧
    (x.step ch PublisherAction.close).accepted = x.accepted := by
  obtain ⟨⟨q, cap, closed, parked, infl, done⟩, t, acc, sent⟩ := x
  cases closed <;> cases parked <;> simp [PublisherRun.step, RabbitPublisher.Close]

theorem work_inflight {τ : Type} (ch : AmqpChannel τ) (t0 : τ) (N : Nat) (x : PublisherRun τ)
    (h : x.Consistent ch t0 N) (m : publishMsg) (hi : x.pub.inflight = some m) :
    (x.step ch PublisherAction.work).sent = x.sent ++ [m] ∧
    (x.step ch PublisherAction.work).accepted = x.accepted ∧
    (x.step ch PublisherAction.work).pub.inflight = none ∧
    (x.step ch PublisherAction.work).pub.queue = x.pub.queue ∧
    (x.step ch PublisherAction.work).pub.closed = x.pub.closed := by
  obtain ⟨⟨q, cap, closed, parked, infl, done⟩, t, acc, sent⟩ := x
  obtain ⟨h1, h2, h3, h4, h5, h6⟩ := h
  simp only at h1 h2 h3 h4 h5 h6 hi
  subst hi
  cases done
  · simp [PublisherRun.step, RabbitPublisher.workerStep]
  · simp at h6

theorem work_receive {τ : Type} (ch : AmqpChannel τ) (t0 : τ) (N : Nat) (x : PublisherRun τ)
    (h : x.Consistent ch t0 N) (m : publishMsg) (rest : List publishMsg)
    (hi : x.pub.inflight = none) (hq : x.pub.queue = m :: rest) :
    (x.step ch PublisherAction.work).sent = x.sent ∧
    (x.step ch PublisherAction.work).accepted = x.accepted ∧
    (x.step ch PublisherAction.work).pub.inflight = some m ∧
    (x.step ch PublisherAction.work).pub.queue = rest ∧
    (x.step ch PublisherAction.work).pub.closed = x.pub.closed := by
  obtain ⟨⟨q, cap, closed, parked, infl, done⟩, t, acc, sent⟩ := x
  obtain ⟨h1, h2, h3, h4, h5, h6⟩ := h
  simp only at h1 h2 h3 h4 h5 h6 hi hq
  subst hi hq
  cases done
  · simp [PublisherRun.step, RabbitPublisher.workerStep]
  · simp at h6

theorem work_idle {τ : Type} (ch : AmqpChannel τ) (x : PublisherRun τ)
    (hi : x.pub.inflight = none) (hq : x.pub.queue = []) :
    (x.step ch PublisherAction.work).sent = x.sent ∧
    (x.step ch PublisherAction.work).accepted = x.accepted ∧
    (x.step ch PublisherAction.work).pub.inflight = none ∧
    (x.step ch PublisherAction.work).pub.queue = [] ∧
    (x.step ch PublisherAction.work).pub.closed = x.pub.closed ∧
    (x.pub.closed = true → (x.step ch PublisherAction.work).pub.done = true) := by
  obtain ⟨⟨q, cap, closed, parked, infl, done⟩, t, acc, sent⟩ := x
  simp only at hi hq
  subst hi hq
  cases done <;> cases closed <;> simp [PublisherRun.step, RabbitPublisher.workerStep]

theorem drain_queue {τ : Type} (ch : AmqpChannel τ) (t0 : τ) (N : Nat) (n : Nat)
    (x : PublisherRun τ) (h : x.Consistent ch t0 N) (hi : x.pub.inflight = none)
    (hn : x.pub.queue.length = n) :
    (x.run ch (List.replicate (2 * n) PublisherAction.work)).sent = x.accepted ∧
    (x.run ch (List.replicate (2 * n) PublisherAction.work)).accepted = x.accepted ∧
    (x.run ch (List.replicate (2 * n) PublisherAction.work)).pub.inflight = none ∧
    (x.run ch (List.replicate (2 * n) PublisherAction.work)).pub.queue = [] ∧
    (x.run ch (List.replicate (2 * n) PublisherAction.work)).pub.closed = x.pub.closed := by
  induction n generalizing x with
  | zero =>
    have hq : x.pub.queue = [] := List.length_eq_zero.mp hn
    have h1 := h.1
    rw [hi, hq] at h1
    simp only [Option.toList, List.append_nil] at h1
    simp [PublisherRun.run, h1, hi, hq]
  | succ n ih =>
    obtain ⟨m, rest, hq⟩ : ∃ m rest, x.pub.queue = m :: rest := by
      cases hx : x.pub.queue with
      | nil => rw [hx] at hn; simp at hn
      | cons m rest => exact ⟨m, rest, rfl⟩
    have e : 2 * (n + 1) = (2 * n + 1) + 1 := by ring
    rw [e, List.replicate_succ, run_cons, List.replicate_succ, run_cons]
    have s1 := work_receive ch t0 N x h m rest hi hq
    have c1 := Consistent_step ch t0 N x PublisherAction.work h
    have s2 := work_inflight ch t0 N _ c1 m s1.2.2.1
    have c2 := Consistent_step ch t0 N _ PublisherAction.work c1
    have hlen : ((x.step ch PublisherAction.work).step ch PublisherAction.work).pub.queue.length
        = n := by
      rw [s2.2.2.2.1, s1.2.2.2.1]
      rw [hq] at hn
      simpa using hn
    have r := ih _ c2 s2.2.2.1 hlen
    refine ⟨?_, ?_, r.2.2.1, r.2.2.2.1, ?_⟩
    · rw [r.1, s2.2.1, s1.2.1]
    · rw [r.2.1, s2.2.1, s1.2.1]
    · rw [r.2.2.2.2, s2.2.2.2.2, s1.2.2.2.2]

theorem drain_all {τ : Type} (ch : AmqpChannel τ) (t0 : τ) (N : Nat)
    (x : PublisherRun τ) (h : x.Consistent ch t0 N) :
    (x.run ch (List.replicate (2 * x.pub.queue.length + 1) PublisherAction.work)).sent
      = x.accepted ∧
    (x.run ch (List.replicate (2 * x.pub.queue.length + 1) PublisherAction.work)).accepted
      = x.accepted ∧
    (x.run ch (List.replicate (2 * x.pub.queue.length + 1) PublisherAction.work)).pub.inflight
      = none ∧
    (x.run ch (List.replicate (2 * x.pub.queue.length + 1) PublisherAction.work)).pub.queue
      = [] ∧
    (x.run ch (List.replicate (2 * x.pub.queue.length + 1) PublisherAction.work)).pub.closed
      = x.pub.closed := by
  cases hi : x.pub.inflight with
  | some m =>
    rw [List.replicate_succ, run_cons]
    have s1 := work_inflight ch t0 N x h m hi
    have c1 := Consistent_step ch t0 N x PublisherAction.work h
    have r := drain_queue ch t0 N x.pub.queue.length _ c1 s1.2.2.1 (by rw [s1.2.2.2.1])
    refine ⟨?_, ?_, r.2.2.1, r.2.2.2.1, ?_⟩
    · rw [r.1, s1.2.1]
    · rw [r.2.1, s1.2.1]
    · rw [r.2.2.2.2, s1.2.2.2.2]
  | none =>
    have e : List.replicate (2 * x.pub.queue.length + 1) PublisherAction.work
        = List.replicate (2 * x.pub.queue.length) PublisherAction.work
          ++ [PublisherAction.work] := by
      rw [List.replicate_succ']
    rw [e, run_append]
    have r := drain_queue ch t0 N x.pub.queue.length x h hi rfl
    have s := work_idle ch _ r.2.2.1 r.2.2.2.1
    change ((x.run ch _).step ch PublisherAction.work).sent = _ ∧
      ((x.run ch _).step ch PublisherAction.work).accepted = _ ∧
      ((x.run ch _).step ch PublisherAction.work).pub.inflight = _ ∧
      ((x.run ch _).step ch PublisherAction.work).pub.queue = _ ∧
      ((x.run ch _).step ch PublisherAction.work).pub.closed = _
    refine ⟨?_, ?_, s.2.2.1, s.2.2.2.1, ?_⟩
    · rw [s.1, r.1]
    · rw [s.2.1, r.2.1]
    · rw [s.2.2.2.2.1, r.2.2.2.2]

/-! ## Claims about the publisher -/

/-- C23: on an open publisher whose buffer is empty and whose worker is not
waiting in the receive (a new publisher, or one whose worker is busy with the
transport), with no worker step in between, consecutive `Publish` calls for the
messages `msgs` end as follows, `N` being the buffer size: the first `N` calls
return no error, every later call returns the error `publisher queue full`, and
the publisher after the calls differs from the one before only in its buffer,
which holds the first `N` messages in call order (a refused call leaves it as it
was).  In every run of a publisher of that buffer size, worker steps and `Close`
included, the buffer holds at most `N` messages. -/
theorem C23_first_N_accepted_then_queue_full (r : RabbitPublisher) (msgs : List publishMsg)
    (hopen : r.closed = false) (hbusy : r.parked = false) (hempty : r.queue = []) :
    (r.publishAll msgs).1 =
      (msgs.take r.capacity).map (fun _ => Outcome.returned none) ++
      (msgs.drop r.capacity).map (fun _ => Outcome.returned (some ErrQueueFull)) ∧
    (r.publishAll msgs).2 = { r with queue := msgs.take r.capacity } ∧
    (∀ (τ : Type) (ch : AmqpChannel τ) (t0 : τ) (actions : List PublisherAction),
      ((PublisherRun.start r.capacity t0).run ch actions).pub.queue.length ≤ r.capacity) := by
  have h := publishAll_open msgs r hopen hbusy (by rw [hempty]; exact Nat.zero_le _)
  refine ⟨?_, ?_, ?_⟩
  · rw [h]; simp [hempty]
  · rw [h]; simp [hempty]
  · intro τ ch t0 actions
    exact (Consistent_run ch t0 r.capacity actions _ (Consistent_start ch t0 r.capacity)).2.2.2.1

/-- C23 on a new publisher of buffer size 2 and three messages: the first two
calls succeed, the third returns `publisher queue full`, and the buffer holds the
first two. -/
theorem C23_first_N_accepted_then_queue_full_witness :
    ((NewRabbitPublisher 2).publishAll
        [⟨"subscriptions", "subscription.created", "a"⟩,
         ⟨"subscriptions", "subscription.updated", "b"⟩,
         ⟨"subscriptions", "subscription.deleted", "c"⟩]).1 =
      [Outcome.returned none, Outcome.returned none, Outcome.returned (some ErrQueueFull)] ∧
    ((NewRabbitPublisher 2).publishAll
        [⟨"subscriptions", "subscription.created", "a"⟩,
         ⟨"subscriptions", "subscription.updated", "b"⟩,
         ⟨"subscriptions", "subscription.deleted", "c"⟩]).2.queue =
      [⟨"subscriptions", "subscription.created", "a"⟩,
       ⟨"subscriptions", "subscription.updated", "b"⟩] :=
  ⟨(C23_first_N_accepted_then_queue_full (NewRabbitPublisher 2)
      [⟨"subscriptions", "subscription.created", "a"⟩,
       ⟨"subscriptions", "subscription.updated", "b"⟩,
       ⟨"subscriptions", "subscription.deleted", "c"⟩] rfl rfl rfl).1,
    by decide⟩

/-- C24: in every run of a publisher, for every transport: the messages handed to
the transport so far, the message the worker holds and the buffered messages
are, in this order, exactly the messages whose `Publish` returned no error, in
call order; the transport has been given the sent messages one after the other,
whatever it answered; and `2 * (buffer length) + 1` further worker steps hand
over every accepted message, so that the messages sent are the messages
accepted, each once and in order. -/
theorem C24_worker_sends_in_acceptance_order {τ : Type} (ch : AmqpChannel τ) (t0 : τ)
    (N : Nat) (actions : List PublisherAction) :
    ((PublisherRun.start N t0).run ch actions).sent ++
        ((PublisherRun.start N t0).run ch actions).pub.inflight.toList ++
        ((PublisherRun.start N t0).run ch actions).pub.queue
      = ((PublisherRun.start N t0).run ch actions).accepted ∧
    ((PublisherRun.start N t0).run ch actions).transport
      = ((PublisherRun.start N t0).run ch actions).sent.foldl
          (fun t m => (ch.Publish t m).2) t0 ∧
    (((PublisherRun.start N t0).run ch actions).run ch
        (List.replicate (2 * ((PublisherRun.start N t0).run ch actions).pub.queue.length + 1)
          PublisherAction.work)).sent
      = ((PublisherRun.start N t0).run ch actions).accepted ∧
    (((PublisherRun.start N t0).run ch actions).run ch
        (List.replicate (2 * ((PublisherRun.start N t0).run ch actions).pub.queue.length + 1)
          PublisherAction.work)).transport
      = ((PublisherRun.start N t0).run ch actions).accepted.foldl
          (fun t m => (ch.Publish t m).2) t0 := by
  have c := Consistent_run ch t0 N actions _ (Consistent_start ch t0 N)
  have d := drain_all ch t0 N _ c
  have c2 := Consistent_run ch t0 N
    (List.replicate (2 * ((PublisherRun.start N t0).run ch actions).pub.queue.length + 1)
      PublisherAction.work) _ c
  refine ⟨c.1, c.2.1, d.1, ?_⟩
  rw [c2.2.1, d.1]

/-- C24 on a transport that fails on the body `bad`: three messages are accepted,
the second fails in the transport, and after the worker has run the transport
has been given the three messages once each, in the order of their calls. -/
theorem C24_worker_sends_in_acceptance_order_witness :
    (flakyChannel.Publish [] ⟨"subscriptions", "subscription.updated", "bad"⟩).1 ≠ none ∧
    (((PublisherRun.start 3 []).run flakyChannel
        [PublisherAction.publish "subscriptions" "subscription.created" "a",
         PublisherAction.work,
         PublisherAction.publish "subscriptions" "subscription.updated" "bad",
         PublisherAction.publish "subscriptions" "subscription.deleted" "c"]).run flakyChannel
      (List.replicate (2 * 2 + 1) PublisherAction.work)).transport
      = [⟨"subscriptions", "subscription.created", "a"⟩,
         ⟨"subscriptions", "subscription.updated", "bad"⟩,
         ⟨"subscriptions", "subscription.deleted", "c"⟩] :=
  ⟨by decide,
    (C24_worker_sends_in_acceptance_order flakyChannel [] 3
      [PublisherAction.publish "subscriptions" "subscription.created" "a",
       PublisherAction.work,
       PublisherAction.publish "subscriptions" "subscription.updated" "bad",
       PublisherAction.publish "subscriptions" "subscription.deleted" "c"]).2.2.2⟩

/-- C25: in every run in which `Close` has been called, whatever happened before
and after it: a `Publish` call panics with `send on closed channel` and leaves the
publisher as it was, so it neither returns success nor enqueues; no message has
been accepted since `Close` was called; and `2 * (buffer length) + 2` further
worker steps hand every accepted message to the transport, empty the buffer and
end the worker. -/
theorem C25_publish_after_close_panics {τ : Type} (ch : AmqpChannel τ) (t0 : τ) (N : Nat)
    (before after : List PublisherAction) (exchange routingKey body : String) :
    (((PublisherRun.start N t0).run ch (before ++ PublisherAction.close :: after)).pub.Publish
        exchange routingKey body)
      = (Outcome.panicked "send on closed channel",
          ((PublisherRun.start N t0).run ch (before ++ PublisherAction.close :: after)).pub) ∧
    ((PublisherRun.start N t0).run ch (before ++ PublisherAction.close :: after)).accepted
      = ((PublisherRun.start N t0).run ch before).accepted ∧
    (((PublisherRun.start N t0).run ch (before ++ PublisherAction.close :: after)).run ch
        (List.replicate
          (2 * ((PublisherRun.start N t0).run ch
            (before ++ PublisherAction.close :: after)).pub.queue.length + 2)
          PublisherAction.work)).sent
      = ((PublisherRun.start N t0).run ch before).accepted ∧
    (((PublisherRun.start N t0).run ch (before ++ PublisherAction.close :: after)).run ch
        (List.replicate
          (2 * ((PublisherRun.start N t0).run ch
            (before ++ PublisherAction.close :: after)).pub.queue.length + 2)
          PublisherAction.work)).pub.queue = [] ∧
    (((PublisherRun.start N t0).run ch (before ++ PublisherAction.close :: after)).run ch
        (List.replicate
          (2 * ((PublisherRun.start N t0).run ch
            (before ++ PublisherAction.close :: after)).pub.queue.length + 2)
          PublisherAction.work)).pub.done = true := by
  have hc0 := closed_after_close ch ((PublisherRun.start N t0).run ch before)
  have hx : (PublisherRun.start N t0).run ch (before ++ PublisherAction.close :: after)
      = (((PublisherRun.start N t0).run ch before).step ch PublisherAction.close).run ch
          after := by
    rw [run_append, run_cons]
  have hc := closed_run ch after _ hc0.1
  rw [← hx] at hc
  have hacc : ((PublisherRun.start N t0).run ch
      (before ++ PublisherAction.close :: after)).accepted
      = ((PublisherRun.start N t0).run ch before).accepted := hc.2.trans hc0.2
  generalize hx0 : (PublisherRun.start N t0).run ch
    (before ++ PublisherAction.close :: after) = x at hc hacc ⊢
  have c : x.Consistent ch t0 N := by
    rw [← hx0]
    exact Consistent_run ch t0 N _ _ (Consistent_start ch t0 N)
  have d := drain_all ch t0 N x c
  have e : List.replicate (2 * x.pub.queue.length + 2) PublisherAction.work
      = List.replicate (2 * x.pub.queue.length + 1) PublisherAction.work
        ++ [PublisherAction.work] := by
    rw [List.replicate_succ']
  have s := work_idle ch _ d.2.2.1 d.2.2.2.1
  rw [e, run_append]
  change _ ∧ _ ∧
    ((x.run ch _).step ch PublisherAction.work).sent = _ ∧
    ((x.run ch _).step ch PublisherAction.work).pub.queue = _ ∧
    ((x.run ch _).step ch PublisherAction.work).pub.done = _
  refine ⟨?_, hacc, ?_, s.2.2.2.1, s.2.2.2.2.2 (by rw [d.2.2.2.2]; exact hc.1)⟩
  · simp [RabbitPublisher.Publish, hc.1]
  · rw [s.1, d.1, hacc]


/-- C25 on a publisher of buffer size 2: two messages are accepted, `Close` is
called, a third `Publish` panics; the worker then sends the two messages and
ends. -/
theorem C25_publish_after_close_panics_witness :
    (((PublisherRun.start 2 []).run flakyChannel
        ([PublisherAction.publish "subscriptions" "subscription.created" "a",
          PublisherAction.publish "subscriptions" "subscription.deleted" "c"]
          ++ PublisherAction.close :: [])).pub.Publish
        "subscriptions" "subscription.updated" "b").1
      = Outcome.panicked "send on closed channel" ∧
    (((PublisherRun.start 2 []).run flakyChannel
        ([PublisherAction.publish "subscriptions" "subscription.created" "a",
          PublisherAction.publish "subscriptions" "subscription.deleted" "c"]
          ++ PublisherAction.close :: [])).run flakyChannel
        (List.replicate (2 * 2 + 2) PublisherAction.work)).sent
      = [⟨"subscriptions", "subscription.created", "a"⟩,
         ⟨"subscriptions", "subscription.deleted", "c"⟩] :=
  ⟨congrArg Prod.fst
      (C25_publish_after_close_panics flakyChannel [] 2
        [PublisherAction.publish "subscriptions" "subscription.created" "a",
         PublisherAction.publish "subscriptions" "subscription.deleted" "c"] []
        "subscriptions" "subscription.updated" "b").1,
    (C25_publish_after_close_panics flakyChannel [] 2
        [PublisherAction.publish "subscriptions" "subscription.created" "a",
         PublisherAction.publish "subscriptions" "subscription.deleted" "c"] []
        "subscriptions" "subscription.updated" "b").2.2.1⟩


/-! ## Lemmas: the handlers -/

theorem decimalValue_eq (ds : List Char) :
    List.foldl (fun acc d => acc * 10 + digitVal d) 0 ds = decimalValue ds := rfl

theorem all_digits_iff (ds : List Char) :
    (ds.all fun d => decide (48 ≤ d.toNat) && decide (d.toNat ≤ 57)) = true ↔
      ∀ d ∈ ds, 48 ≤ d.toNat ∧ d.toNat ≤ 57 := by
  simp [List.all_eq_true]

theorem ParseInt_isInt64Text (s : String) (i : Int) (h : ParseInt s = some i) :
    IsInt64Text s := by
  unfold ParseInt at h
  cases hd : s.data with
  | nil => rw [hd] at h; simp at h
  | cons c tl =>
    rw [hd] at h
    simp only [decimalValue_eq] at h
    by_cases hm : c = '-'
    · subst hm
      simp only [or_true, if_true, decide_True] at h
      split_ifs at h with h2 h3 h5
      exact ⟨['-'], tl, Or.inr (Or.inr rfl), h2, (all_digits_iff tl).mp h3, hd,
        by simpa using h5⟩
    · have hdec : decide (c = '-') = false := by simp [hm]
      by_cases hp : c = '+'
      · subst hp
        simp only [true_or, if_true, hdec, Bool.false_eq_true, if_false] at h
        split_ifs at h with h2 h3 h5
        exact ⟨['+'], tl, Or.inr (Or.inl rfl), h2, (all_digits_iff tl).mp h3, hd,
          by simpa using h5⟩
      · have hs : ¬ (c = '+' ∨ c = '-') := by
          intro h0
          rcases h0 with h0 | h0
          · exact hp h0
          · exact hm h0
        rw [if_neg hs] at h
        by_cases hall : ((c :: tl).all fun d => decide (48 ≤ d.toNat) && decide (d.toNat ≤ 57))
            = true
        · by_cases hlt : decimalValue (c :: tl) < 2 ^ 63
          · exact ⟨[], c :: tl, Or.inl rfl, by simp, (all_digits_iff (c :: tl)).mp hall, hd,
              by simpa using hlt⟩
          · rw [if_neg (by simp), if_pos hall] at h
            simp only [hdec, Bool.false_eq_true, if_false, if_neg hlt] at h
            exact absurd h (by simp)
        · rw [if_neg (by simp), if_neg hall] at h
          exact absurd h (by simp)

theorem ParseInt_of_isInt64Text (s : String) (h : IsInt64Text s) : ∃ i, ParseInt s = some i := by
  obtain ⟨sign, ds, hs, hne, hall, hdata, hval⟩ := h
  have hall2 := (all_digits_iff ds).mpr hall
  unfold ParseInt
  rw [hdata]
  simp only [decimalValue_eq]
  rcases hs with rfl | rfl | rfl
  · cases ds with
    | nil => exact absurd rfl hne
    | cons c tl =>
      have hc := hall c (by simp)
      have hp : c ≠ '+' := fun e => by rw [e] at hc; revert hc; decide
      have hm : c ≠ '-' := fun e => by rw [e] at hc; revert hc; decide
      have hs : ¬ (c = '+' ∨ c = '-') := by
        intro h0
        rcases h0 with h0 | h0
        · exact hp h0
        · exact hm h0
      have hdec : decide (c = '-') = false := by simp [hm]
      have hlt : decimalValue (c :: tl) < 2 ^ 63 := by simpa using hval
      refine ⟨(decimalValue (c :: tl) : Int), ?_⟩
      simp only [List.nil_append]
      rw [if_neg hs, if_neg (by simp), if_pos hall2]
      simp only [hdec, Bool.false_eq_true, if_false, if_pos hlt]
  · have hlt : decimalValue ds < 2 ^ 63 := by simpa using hval
    refine ⟨(decimalValue ds : Int), ?_⟩
    simp only [List.singleton_append, true_or, if_true]
    rw [if_neg hne, if_pos hall2]
    simp only [if_pos hlt]
    rfl
  · have hle : decimalValue ds ≤ 2 ^ 63 := by simpa using hval
    refine ⟨-(decimalValue ds : Int), ?_⟩
    simp only [List.singleton_append, or_true, if_true]
    rw [if_neg hne, if_pos hall2]
    simp only [decide_True, if_true, if_pos hle]

theorem parseIDParam_eq_none (s : String) (h : ¬ IsInt64Text s) : parseIDParam s = none := by
  cases hp : parseIDParam s with
  | none => rfl
  | some i => exact absurd (ParseInt_isInt64Text s i hp) h

theorem Query_eq_empty (c : Request) (key : String)
    (h : c.query.lookup key = none ∨ c.query.lookup key = some "") : c.Query key = "" := by
  unfold Request.Query
  rcases h with h | h <;> rw [h] <;> rfl

theorem UnmarshalJSON_monthYearText (my : MonthYear) (m y : Nat) (h1 : 1 ≤ m) (h2 : m ≤ 12)
    (h3 : y ≤ 9999) :
    my.UnmarshalJSON ("\"" ++ monthYearText m y ++ "\"")
      = (MonthYear.mk (Date (y : Int) m 1 0 0 0 0), none) := by
  unfold MonthYear.UnmarshalJSON
  simp only [Trim_quoted, Trim_monthYearText m y h2, if_neg (monthYearText_ne_empty m y),
    Parse_monthYearText m y h1 h2 h3]

/-! ## Claims about the handlers -/

/-- C28: for every service behind the handlers and every request: when the path
parameter `id` is not a base-10 signed 64-bit integer (an optional sign and
decimal digits denoting a number from `-2^63` to `2^63 - 1`), `Get`, `Update` and
`Delete` answer with status 400 and the message `invalid id`; when the query
holds no `user_id` or an empty first `user_id`, `List` and `Summary` answer with
status 400 and the message `user_id is required`.  In each case no call is made
on the service and the world is left as it was. -/
theorem C28_bad_id_or_missing_user_is_rejected {σ : Type} (h : SubscriptionHandler σ) (w : σ)
    (c : Request) :
    (¬ IsInt64Text (c.Param "id") →
      h.Get w c = (⟨400, ResponseBody.message "invalid id"⟩, w, []) ∧
      h.Update w c = (⟨400, ResponseBody.message "invalid id"⟩, w, []) ∧
      h.Delete w c = (⟨400, ResponseBody.message "invalid id"⟩, w, [])) ∧
    ((c.query.lookup "user_id" = none ∨ c.query.lookup "user_id" = some "") →
      h.List w c = (⟨400, ResponseBody.message "user_id is required"⟩, w, []) ∧
      h.Summary w c = (⟨400, ResponseBody.message "user_id is required"⟩, w, [])) := by
  constructor
  · intro hid
    have hp := parseIDParam_eq_none _ hid
    refine ⟨?_, ?_, ?_⟩
    · simp [SubscriptionHandler.Get, hp, StatusBadRequest]
    · simp [SubscriptionHandler.Update, hp, StatusBadRequest]
    · simp [SubscriptionHandler.Delete, hp, StatusBadRequest]
  · intro hq
    have hu := Query_eq_empty c "user_id" hq
    refine ⟨?_, ?_⟩
    · simp [SubscriptionHandler.List, hu, StatusBadRequest]
    · simp [SubscriptionHandler.Summary, hu, StatusBadRequest]

/-- C28 on the in-memory service: the request with path parameter `id = abc` and
an empty query is answered 400 by `Get` and by `Summary`, with no call on the
service. -/
theorem C28_bad_id_or_missing_user_is_rejected_witness :
    memHandler.Get (worldOf [rowActiveSince2020], [])
        { params := [("id", "abc")], query := [], body := .error (Error.external "EOF") }
      = (⟨400, ResponseBody.message "invalid id"⟩, (worldOf [rowActiveSince2020], []), []) ∧
    memHandler.Summary (worldOf [rowActiveSince2020], [])
        { params := [("id", "abc")], query := [], body := .error (Error.external "EOF") }
      = (⟨400, ResponseBody.message "user_id is required"⟩,
          (worldOf [rowActiveSince2020], []), []) :=
  ⟨((C28_bad_id_or_missing_user_is_rejected memHandler (worldOf [rowActiveSince2020], [])
      { params := [("id", "abc")], query := [], body := .error (Error.external "EOF") }).1
      (fun hi => by
        obtain ⟨sign, ds, hs, hne, hall, hdata, _⟩ := hi
        have hd : ['a', 'b', 'c'] = sign ++ ds := hdata
        rcases hs with rfl | rfl | rfl
        · have := hall 'a' (by rw [← List.nil_append ds, ← hd]; simp)
          revert this; decide
        · simp at hd
        · simp at hd)).1,
   ((C28_bad_id_or_missing_user_is_rejected memHandler (worldOf [rowActiveSince2020], [])
      { params := [("id", "abc")], query := [], body := .error (Error.external "EOF") }).2
      (Or.inl rfl)).2⟩

/-- C26 fails on the body with `start_date` `06-2025` and `end_date` `03-2025`:
it is accepted by the `Create` handler on the in-memory service; the
response is 201, the subscription handed to storage and the row of the table
start in June 2025 and end in March 2025. -/
theorem C26_end_before_start_is_persisted :
    (memHandler.Create (worldOf [], [])
        (requestWithDates [DateMember.start_date "\"06-2025\"",
          DateMember.end_date "\"03-2025\""])).1.status = 201 ∧
    (memHandler.Create (worldOf [], [])
        (requestWithDates [DateMember.start_date "\"06-2025\"",
          DateMember.end_date "\"03-2025\""])).2.1.2.head? =
      some (Call.repoCreate
        { ID := 0, Service := "Netflix", Price := 100, UserID := "u1",
          StartDate := MonthYear.mk (Date 2025 6 1 0 0 0 0),
          EndDate := some (MonthYear.mk (Date 2025 3 1 0 0 0 0)),
          CreatedAt := Time.zero, UpdatedAt := Time.zero }) ∧
    (memHandler.Create (worldOf [], [])
        (requestWithDates [DateMember.start_date "\"06-2025\"",
          DateMember.end_date "\"03-2025\""])).2.1.1.table =
      [{ ID := 100, Service := "Netflix", Price := 100, UserID := "u1",
         StartDate := MonthYear.mk (Date 2025 6 1 0 0 0 0),
         EndDate := some (MonthYear.mk (Date 2025 3 1 0 0 0 0)),
         CreatedAt := Date 2025 9 1 12 0 0 0, UpdatedAt := Date 2025 9 1 12 0 0 0 }] ∧
    (Date 2025 3 1 0 0 0 0).lt (Date 2025 6 1 0 0 0 0) := by
  refine ⟨by decide, by decide, by decide, by decide⟩

theorem Service_Create_calls_head {σ : Type} (s : Service σ) (w : σ) (sub : Subscription) :
    ∃ rest, (s.Create w sub).2.2 = Call.repoCreate sub :: rest := by
  unfold Service.Create
  cases h : (s.repo.Create w sub).1.2 with
  | some err => exact ⟨[], by simp [h]⟩
  | none => exact ⟨_, by simp only [h]; rfl⟩

theorem Service_Update_calls_head {σ : Type} (s : Service σ) (w : σ) (sub : Subscription) :
    ∃ rest, (s.Update w sub).2.2 = Call.repoUpdate sub :: rest := by
  unfold Service.Update
  cases h : (s.repo.Update w sub).1.2 with
  | some err => exact ⟨[], by simp [h]⟩
  | none => exact ⟨_, by simp only [h]; rfl⟩

theorem Handler_Create_of_bound {σ : Type} (h : SubscriptionHandler σ) (w : σ) (c : Request)
    (in_ : Subscription) (hb : ShouldBindJSON c = (in_, none)) :
    (h.Create w c).2 = ((h.svc.Create w in_).2, [SvcCall.create in_]) := by
  unfold SubscriptionHandler.Create
  rw [hb]
  cases hr : (h.svc.Create w in_).1.2 <;> simp [hr]

theorem Handler_Update_of_bound {σ : Type} (h : SubscriptionHandler σ) (w : σ) (c : Request)
    (in_ : Subscription) (id : Int) (hid : parseIDParam (c.Param "id") = some id)
    (hb : ShouldBindJSON c = (in_, none)) :
    (h.Update w c).2 = ((h.svc.Update w { in_ with ID := id }).2,
      [SvcCall.update { in_ with ID := id }]) := by
  unfold SubscriptionHandler.Update
  rw [hid, hb]
  cases hr : (h.svc.Update w { in_ with ID := id }).1.2 <;> simp [hr]

theorem ShouldBindJSON_two_dates (params query : List (String × String)) (b : JSONBody)
    (m1 y1 m2 y2 : Nat) (h1 : 1 ≤ m1 ∧ m1 ≤ 12 ∧ y1 ≤ 9999) (h2 : 1 ≤ m2 ∧ m2 ≤ 12 ∧ y2 ≤ 9999)
    (hd : b.dates = [DateMember.start_date ("\"" ++ monthYearText m1 y1 ++ "\""),
      DateMember.end_date ("\"" ++ monthYearText m2 y2 ++ "\"")]) :
    ShouldBindJSON { params := params, query := query, body := .ok b } =
      ({ ID := b.ID, Service := b.Service, Price := b.Price, UserID := b.UserID,
         StartDate := MonthYear.mk (Date (y1 : Int) m1 1 0 0 0 0),
         EndDate := some (MonthYear.mk (Date (y2 : Int) m2 1 0 0 0 0)),
         CreatedAt := b.CreatedAt, UpdatedAt := b.UpdatedAt }, none) := by
  have hnull : ("\"" ++ monthYearText m2 y2 ++ "\"") ≠ "null" := by
    intro e
    have := congrArg (fun t => t.data.head?) e
    simp at this
  unfold ShouldBindJSON
  simp only [hd, bindDates, UnmarshalJSON_monthYearText _ m1 y1 h1.1 h1.2.1 h1.2.2,
    UnmarshalJSON_monthYearText _ m2 y2 h2.1 h2.2.1 h2.2.2, if_neg hnull]

/-- C26 as amended: the handlers and the service hand to storage the subscription
decoded from the body as it is (`Update` with the `id` of the path); the two dates
are decoded one by one and never compared.  For every service, every body whose
`start_date` and `end_date` are texts `MM-YYYY` of any two months, in any order
in time, `Create` calls the service once and the first call on the collaborators
is the storage `Create` with the subscription that starts on the first of the one
month and ends on the first of the other; `Update` likewise with the storage
`Update`, for a path `id` that parses. -/
theorem C26_storage_receives_decoded_subscription {σ : Type} (s : Service σ)
    (lister : SubscriptionRepoList σ) (w : σ × List Call) (params query : List (String × String))
    (b : JSONBody) (m1 y1 m2 y2 : Nat) (id : Int)
    (h1 : 1 ≤ m1 ∧ m1 ≤ 12 ∧ y1 ≤ 9999) (h2 : 1 ≤ m2 ∧ m2 ≤ 12 ∧ y2 ≤ 9999)
    (hd : b.dates = [DateMember.start_date ("\"" ++ monthYearText m1 y1 ++ "\""),
      DateMember.end_date ("\"" ++ monthYearText m2 y2 ++ "\"")])
    (hid : parseIDParam (Request.Param { params := params, query := query, body := .ok b } "id")
      = some id) :
    (∃ rest,
      (SubscriptionHandler.Create { svc := serviceInterface s lister } w
          { params := params, query := query, body := .ok b }).2.1.2
        = w.2 ++ Call.repoCreate
            { ID := b.ID, Service := b.Service, Price := b.Price, UserID := b.UserID,
              StartDate := MonthYear.mk (Date (y1 : Int) m1 1 0 0 0 0),
              EndDate := some (MonthYear.mk (Date (y2 : Int) m2 1 0 0 0 0)),
              CreatedAt := b.CreatedAt, UpdatedAt := b.UpdatedAt } :: rest) ∧
    (SubscriptionHandler.Create { svc := serviceInterface s lister } w
        { params := params, query := query, body := .ok b }).2.2
      = [SvcCall.create
          { ID := b.ID, Service := b.Service, Price := b.Price, UserID := b.UserID,
            StartDate := MonthYear.mk (Date (y1 : Int) m1 1 0 0 0 0),
            EndDate := some (MonthYear.mk (Date (y2 : Int) m2 1 0 0 0 0)),
            CreatedAt := b.CreatedAt, UpdatedAt := b.UpdatedAt }] ∧
    (∃ rest,
      (SubscriptionHandler.Update { svc := serviceInterface s lister } w
          { params := params, query := query, body := .ok b }).2.1.2
        = w.2 ++ Call.repoUpdate
            { ID := id, Service := b.Service, Price := b.Price, UserID := b.UserID,
              StartDate := MonthYear.mk (Date (y1 : Int) m1 1 0 0 0 0),
              EndDate := some (MonthYear.mk (Date (y2 : Int) m2 1 0 0 0 0)),
              CreatedAt := b.CreatedAt, UpdatedAt := b.UpdatedAt } :: rest) ∧
    (SubscriptionHandler.Update { svc := serviceInterface s lister } w
        { params := params, query := query, body := .ok b }).2.2
      = [SvcCall.update
          { ID := id, Service := b.Service, Price := b.Price, UserID := b.UserID,
            StartDate := MonthYear.mk (Date (y1 : Int) m1 1 0 0 0 0),
            EndDate := some (MonthYear.mk (Date (y2 : Int) m2 1 0 0 0 0)),
            CreatedAt := b.CreatedAt, UpdatedAt := b.UpdatedAt }] := by
  have hb := ShouldBindJSON_two_dates params query b m1 y1 m2 y2 h1 h2 hd
  have hc := Handler_Create_of_bound { svc := serviceInterface s lister } w _ _ hb
  have hu := Handler_Update_of_bound { svc := serviceInterface s lister } w _ _ id hid hb
  obtain ⟨r1, e1⟩ := Service_Create_calls_head s w.1
    { ID := b.ID, Service := b.Service, Price := b.Price, UserID := b.UserID,
      StartDate := MonthYear.mk (Date (y1 : Int) m1 1 0 0 0 0),
      EndDate := some (MonthYear.mk (Date (y2 : Int) m2 1 0 0 0 0)),
      CreatedAt := b.CreatedAt, UpdatedAt := b.UpdatedAt }
  obtain ⟨r2, e2⟩ := Service_Update_calls_head s w.1
    { ID := id, Service := b.Service, Price := b.Price, UserID := b.UserID,
      StartDate := MonthYear.mk (Date (y1 : Int) m1 1 0 0 0 0),
      EndDate := some (MonthYear.mk (Date (y2 : Int) m2 1 0 0 0 0)),
      CreatedAt := b.CreatedAt, UpdatedAt := b.UpdatedAt }
  refine ⟨⟨r1, ?_⟩, ?_, ⟨r2, ?_⟩, ?_⟩
  · rw [hc]; simp [serviceInterface, e1]
  · rw [hc]
  · rw [hu]; simp [serviceInterface, e2]
  · rw [hu]

/-- C26 as amended, on the in-memory service: the body with `start_date` `06-2025`
and `end_date` `03-2025` reaches the service as a subscription that starts in
June 2025 and ends in March 2025. -/
theorem C26_storage_receives_decoded_subscription_witness :
    (SubscriptionHandler.Create { svc := serviceInterface (memService 60) tableList }
        (worldOf [], [])
        { params := [("id", "5")], query := [],
          body := .ok { ID := 0, Service := "Netflix", Price := 100, UserID := "u1",
                        CreatedAt := Time.zero, UpdatedAt := Time.zero,
                        dates := [DateMember.start_date "\"06-2025\"",
                          DateMember.end_date "\"03-2025\""] } }).2.2
      = [SvcCall.create
          { ID := 0, Service := "Netflix", Price := 100, UserID := "u1",
            StartDate := MonthYear.mk (Date 2025 6 1 0 0 0 0),
            EndDate := some (MonthYear.mk (Date 2025 3 1 0 0 0 0)),
            CreatedAt := Time.zero, UpdatedAt := Time.zero }] :=
  (C26_storage_receives_decoded_subscription (memService 60) tableList (worldOf [], [])
    [("id", "5")] []
    { ID := 0, Service := "Netflix", Price := 100, UserID := "u1",
      CreatedAt := Time.zero, UpdatedAt := Time.zero,
      dates := [DateMember.start_date "\"06-2025\"", DateMember.end_date "\"03-2025\""] }
    6 2025 3 2025 5 (by decide) (by decide) (by decide) (by decide)).2.1

theorem Create_response_startDates {σ : Type} (h : SubscriptionHandler σ) (w : σ) (c : Request)
    (hs : (h.Create w c).1.status = 201) : (h.Create w c).1.body.startDates = ["{}"] := by
  unfold SubscriptionHandler.Create at hs ⊢
  cases hb : (ShouldBindJSON c).2 with
  | some err => simp [hb, StatusBadRequest] at hs
  | none =>
    cases hr : (h.svc.Create w (ShouldBindJSON c).1).1.2 with
    | some err => simp [hb, hr, StatusInternalServerError] at hs
    | none => simp [hb, hr, ResponseBody.startDates, encodeMonthYear]

theorem Update_response_startDates {σ : Type} (h : SubscriptionHandler σ) (w : σ) (c : Request)
    (hs : (h.Update w c).1.status = 200) : (h.Update w c).1.body.startDates = ["{}"] := by
  unfold SubscriptionHandler.Update at hs ⊢
  cases hid : parseIDParam (c.Param "id") with
  | none => simp [hid, StatusBadRequest] at hs
  | some id =>
    cases hb : (ShouldBindJSON c).2 with
    | some err => simp [hid, hb, StatusBadRequest] at hs
    | none =>
      cases hr : (h.svc.Update w { (ShouldBindJSON c).1 with ID := id }).1.2 with
      | some err => simp [hid, hb, hr, StatusInternalServerError] at hs
      | none => simp [hid, hb, hr, ResponseBody.startDates, encodeMonthYear]

/-- C29, evaluated on the body with `start_date` `07-2025`: on the in-memory
service the `Create` handler accepts the body and answers 201 with a body in
which the member `start_date` is the text `{}`; the `Get` handler renders the subscription
just created with `start_date` `"07-2025"`.  The `Update` handler, given the same
body for the subscription 100, answers 200 and also renders `{}`. -/
theorem C29_create_response_renders_start_date_as_empty_object :
    (memHandler.Create (worldOf [], [])
        (requestWithDates [DateMember.start_date "\"07-2025\""])).1.status = 201 ∧
    (memHandler.Create (worldOf [], [])
        (requestWithDates [DateMember.start_date "\"07-2025\""])).1.body.startDates
      = ["{}"] ∧
    (memHandler.Get
        (memHandler.Create (worldOf [], [])
          (requestWithDates [DateMember.start_date "\"07-2025\""])).2.1
        { params := [("id", "100")], query := [],
          body := .error (Error.external "EOF") }).1.status = 200 ∧
    (memHandler.Get
        (memHandler.Create (worldOf [], [])
          (requestWithDates [DateMember.start_date "\"07-2025\""])).2.1
        { params := [("id", "100")], query := [],
          body := .error (Error.external "EOF") }).1.body.startDates
      = ["\"07-2025\""] ∧
    (memHandler.Update
        (memHandler.Create (worldOf [], [])
          (requestWithDates [DateMember.start_date "\"07-2025\""])).2.1
        { requestWithDates [DateMember.start_date "\"07-2025\""] with
          params := [("id", "100")] }).1.status = 200 ∧
    (memHandler.Update
        (memHandler.Create (worldOf [], [])
          (requestWithDates [DateMember.start_date "\"07-2025\""])).2.1
        { requestWithDates [DateMember.start_date "\"07-2025\""] with
          params := [("id", "100")] }).1.body.startDates
      = ["{}"] := by
  refine ⟨by decide, by decide, by decide, by decide, by decide, by decide⟩


/-! ## Lemmas: the cache key on plain arguments -/

theorem summary_key_injective_of_plain (u sv f t u2 sv2 f2 t2 : String)
    (hu : ':' ∉ u.data) (hu2 : ':' ∉ u2.data) (hs : ':' ∉ sv.data) (hs2 : ':' ∉ sv2.data)
    (hf : f = "" ∨ IsMonthYearText f) (hf2 : f2 = "" ∨ IsMonthYearText f2)
    (h : "summary:" ++ u ++ ":" ++ sv ++ ":" ++ f ++ "-" ++ t
      = "summary:" ++ u2 ++ ":" ++ sv2 ++ ":" ++ f2 ++ "-" ++ t2) :
    u = u2 ∧ sv = sv2 ∧ f = f2 ∧ t = t2 := by
  have hd := congrArg String.data h
  simp only [String.data_append, List.append_assoc] at hd
  have hd1 := List.append_cancel_left hd
  simp only [List.singleton_append] at hd1
  have hu3 := eq_of_append_colon_eq _ _ _ _ hu hu2 hd1
  rw [hu3] at hd1
  have hd2 := List.cons.inj (List.append_cancel_left hd1)
  have hs3 := eq_of_append_colon_eq _ _ _ _ hs hs2 hd2.2
  have hd2b := hd2.2
  rw [hs3] at hd2b
  have hd3 := (List.cons.inj (List.append_cancel_left hd2b)).2
  have q : ∀ d, d < 10 → digitChar d ≠ '-' := fun d hd =>
    char_ne_of_toNat (by rw [digitChar_toNat d hd]; simp; omega)
  have key : f.data = f2.data ∧ t.data = t2.data := by
    rcases hf with rfl | ⟨m, y, _, hm, _, rfl⟩ <;> rcases hf2 with rfl | ⟨m2, y2, _, hm2, _, rfl⟩
    · simpa using hd3
    · exfalso
      simp [monthYearText] at hd3
      exact q (m2 / 10) (by omega) hd3.1.symm
    · exfalso
      simp [monthYearText] at hd3
      exact q (m / 10) (by omega) hd3.1
    · simp only [monthYearText, List.cons_append, List.nil_append, List.cons.injEq] at hd3 ⊢
      obtain ⟨a1, a2, _, a4, a5, a6, a7, _, a9⟩ := hd3
      exact ⟨⟨a1, a2, trivial, a4, a5, a6, a7, trivial⟩, a9⟩
  exact ⟨String.ext hu3, String.ext hs3, String.ext key.1, String.ext key.2⟩

end EfmSubscription
